import Mathlib

/-!
# Verification of the sendRice background batch orchestration engine

This file gives a shallow embedding, in Lean 4, of the two background batch
orchestrators of the sendRice repository and proves (or refutes) the frozen
specification claims about them.

Embedded source files:
* `app/services/background_send_service.py`  (`BackgroundSendService`)
* `app/services/background_image_service.py` (`BackgroundImageService`)
* `app/services/webhook_service.py`          (`WebhookService.send_notification`)

Modelling conventions:
* Python `int` counters become `Int` (they may in principle go negative).
* Python strings that are used with truthiness tests (`if not emp.phone`)
  become `String`, with `""` standing for both `None` and the empty string
  (both are falsy in Python, and the code only ever tests truthiness).
* Python dicts become association lists with first-occurrence lookup
  (`alookup`) and replace-or-append assignment (`aset`); real dicts never
  hold a duplicate key, and on duplicate-free lists these functions agree
  with dict semantics.
* Python object identity matters for the image service (the `on_result`
  closure captures a particular `SessionProgress` object while
  `_notify_subscribers` re-looks the session up by key), so the image
  service state holds a heap of `SessionProgress` objects indexed by `Nat`
  together with a `session_key -> object` map.
* Database writes, webhook calls, SSE notifications and `asyncio.sleep`
  calls are recorded in an effect trace.  An SSE notification entry also
  records the progress snapshot that `_notify_subscribers` embeds into the
  event at emission time.
* The event loop is cooperative and single-threaded.  A single run of a
  background `_process_batch` task is modelled as an atomic function from
  the state at the instant the task starts running; asynchronous
  interleavings (a late converter callback, a superseding
  `start_generation`, `cancel_all_running`, subscribe/unsubscribe) are
  modelled as separate operations on the service state.

  In particular, during one modelled run of `_process_batch` the value of
  `self._current_session_key` is fixed; the code's repeated reads of it are
  all evaluated against that value, and late callbacks that arrive after
  further operations are modelled by the stand-alone `onResult` operation
  with its captured context.
-/

namespace SendRice

/-! ## Association-list primitives (Python dict operations) -/

/-- Lookup of a key in an association list (first occurrence), modelling
`d.get(k)`. -/
def alookup {κ α : Type} [DecidableEq κ] : List (κ × α) → κ → Option α
  | [], _ => none
  | kv :: rest, k => if kv.1 = k then some kv.2 else alookup rest k

/-- Assignment `d[k] = v`: replace the first binding of `k`, or append a new
binding. -/

def aset {κ α : Type} [DecidableEq κ] : List (κ × α) → κ → α → List (κ × α)
  | [], k, v => [(k, v)]
  | kv :: rest, k, v => if kv.1 = k then (k, v) :: rest else kv :: aset rest k v

/-- Deletion `del d[k]` (removes every binding of `k`; a Python dict has at
most one). -/

def aremove {κ α : Type} [DecidableEq κ] : List (κ × α) → κ → List (κ × α)
  | [], _ => []
  | kv :: rest, k => if kv.1 = k then aremove rest k else kv :: aremove rest k

/-- In-place update of the value bound to `k`, modelling mutation of the
object stored under `k`. -/

def aupdate {κ α : Type} [DecidableEq κ] : List (κ × α) → κ → (α → α) → List (κ × α)
  | [], _, _ => []
  | kv :: rest, k, f => (if kv.1 = k then (kv.1, f kv.2) else kv) :: aupdate rest k f

/-- Removal of an element from a set of queue handles, modelling
`set.discard`. -/

def discardQ : List Nat → Nat → List Nat
  | [], _ => []
  | q :: rest, x => if q = x then discardQ rest x else q :: discardQ rest x

structure SendTask where
  employee_id : String
  employee_name : String
  phone : String
  status : String := "pending"
  error : Option String := none
deriving DecidableEq, Repr

/-- `SendSessionProgress` dataclass: progress of one batch send session. The
`subscribers` set holds handles of SSE queues. -/

structure SendSessionProgress where
  session_id : String
  total : Int := 0
  sent : Int := 0
  failed : Int := 0
  pending : Int := 0
  current_index : Int := 0
  tasks : List (String × SendTask) := []
  subscribers : List Nat := []
  is_running : Bool := false
deriving DecidableEq, Repr

/-- The fields of an `Employee` row that `_process_batch` reads.  `""` for
`phone`/`salary_image_url` models a missing (falsy) value. -/

structure EmployeeRow where
  id : String
  name : String
  phone : String
  salary_image_url : String
  salary : Option Int
deriving DecidableEq, Repr

/-- The event dict pushed to subscribers; absent keys are `none`. -/

structure SendEventData where
  kind : String
  employee_id : Option String := none
  name : Option String := none
  status : Option String := none
  error : Option String := none
  index : Option Nat := none
  total : Option Int := none
  sent : Option Int := none
  failed : Option Int := none
  pending : Option Int := none
deriving DecidableEq, Repr

/-- Outcome of one `webhook_service.send_notification(...)` call as seen by
`_process_batch`: either a returned `WebhookResponse` or a raised exception
(whose `str(e)` is recorded). -/

inductive NotifierOutcome where
  | result (status : String) (message : Option String)
  | raised (msg : String)
deriving DecidableEq, Repr

/-- Observable side effects of a send batch run, in program order.  A
`notify` entry records the event dict together with the progress object at
the instant `_notify_subscribers` builds the embedded snapshot. -/

inductive SendEffect where
  | notify (ev : SendEventData) (snap : SendSessionProgress)
  | history (employee_id : String) (status : String) (error : Option String)
  | webhookCall (idx : Nat) (employee_id : String) (phone : String)
  | sleep (seconds : Int)
deriving DecidableEq, Repr

/-- Task created for a fetched employee (`SendTask(employee_id=..., phone=emp.phone or "")`). -/

def mkSendTask (e : EmployeeRow) : SendTask :=
  { employee_id := e.id, employee_name := e.name, phone := e.phone }

/-- `progress.tasks` after the task-creation loop of `_process_batch`. -/

def buildSendTasks (rows : List EmployeeRow) (ts : List (String × SendTask)) :
    List (String × SendTask) :=
  rows.foldl (fun acc e => aset acc e.id (mkSendTask e)) ts

/-- `emp_map` built by the task-creation loop of `_process_batch`. -/

def buildEmpMap (rows : List EmployeeRow) : List (String × EmployeeRow) :=
  rows.foldl (fun acc e => aset acc e.id e) []

/-- The `SendSessionProgress` registered by `start_batch_send`. -/

def startSendProgress (batchId : String) (employeeIds : List String) :
    SendSessionProgress :=
  { session_id := batchId, total := (employeeIds.length : Int),
    pending := (employeeIds.length : Int) }

/-- One iteration of the `for idx, emp_id in enumerate(employee_ids)` loop of
`BackgroundSendService._process_batch`.  `oracle idx` gives the outcome of the
webhook call made at loop index `idx`; `numIds` is `len(employee_ids)`. -/

def sendOneItem (empMap : List (String × EmployeeRow)) (numIds : Nat) (sendDelay : Int)
    (oracle : Nat → NotifierOutcome) (idx : Nat) (empId : String)
    (p : SendSessionProgress) : SendSessionProgress × List SendEffect :=
  match alookup empMap empId with
  | none => (p, [])
  | some emp =>
    match alookup p.tasks empId with
    | none => (p, [])
    | some task =>
      let p := { p with current_index := (idx : Int) }
      if emp.phone = "" then
        let task2 := { task with status := "failed", error := some "Không có số điện thoại" }
        let p2 := { p with tasks := aset p.tasks empId task2,
                           pending := p.pending - 1, failed := p.failed + 1 }
        (p2, [SendEffect.history empId "failed" (some "Không có số điện thoại"),
              SendEffect.notify
                { kind := "status", employee_id := some empId, name := some emp.name,
                  status := some "failed", error := some "Không có số điện thoại",
                  index := some idx } p2])
      else if emp.salary_image_url = "" then
        let task2 := { task with status := "failed", error := some "Chưa tạo ảnh lương" }
        let p2 := { p with tasks := aset p.tasks empId task2,
                           pending := p.pending - 1, failed := p.failed + 1 }
        (p2, [SendEffect.history empId "failed" (some "Chưa tạo ảnh lương"),
              SendEffect.notify
                { kind := "status", employee_id := some empId, name := some emp.name,
                  status := some "failed", error := some "Chưa tạo ảnh lương",
                  index := some idx } p2])
      else
        let task2 := { task with status := "sending" }
        let p2 := { p with tasks := aset p.tasks empId task2, pending := p.pending - 1 }
        let sendingEffects :=
          [SendEffect.notify
            { kind := "status", employee_id := some empId, name := some emp.name,
              status := some "sending", index := some idx } p2]
        let step :=
          match oracle idx with
          | NotifierOutcome.result st msg =>
            if st = "success" then
              let task3 := { task2 with status := "success" }
              let p3 := { p2 with tasks := aset p2.tasks empId task3, sent := p2.sent + 1 }
              (task3, p3, [SendEffect.webhookCall idx empId emp.phone,
                           SendEffect.history empId "success" none])
            else
              let task3 := { task2 with status := "failed", error := msg }
              let p3 := { p2 with tasks := aset p2.tasks empId task3, failed := p2.failed + 1 }
              (task3, p3, [SendEffect.webhookCall idx empId emp.phone,
                           SendEffect.history empId "failed" msg])
          | NotifierOutcome.raised msg =>
            let task3 := { task2 with status := "failed", error := some msg }
            let p3 := { p2 with tasks := aset p2.tasks empId task3, failed := p2.failed + 1 }
            (task3, p3, [SendEffect.webhookCall idx empId emp.phone,
                         SendEffect.history empId "failed" (some msg)])
        let statusEffects :=
          [SendEffect.notify
            { kind := "status", employee_id := some empId, name := some emp.name,
              status := some step.1.status, error := step.1.error, index := some idx }
            step.2.1]
        let delayEffects :=
          if idx < numIds - 1 ∧ sendDelay > 0 then [SendEffect.sleep sendDelay] else []
        (step.2.1, sendingEffects ++ step.2.2 ++ statusEffects ++ delayEffects)

/-- The whole `for idx, emp_id in enumerate(employee_ids)` loop. -/

def sendLoop (empMap : List (String × EmployeeRow)) (numIds : Nat) (sendDelay : Int)
    (oracle : Nat → NotifierOutcome) :
    List (Nat × String) → SendSessionProgress → SendSessionProgress × List SendEffect
  | [], p => (p, [])
  | (idx, empId) :: rest, p =>
    let r1 := sendOneItem empMap numIds sendDelay oracle idx empId p
    let r2 := sendLoop empMap numIds sendDelay oracle rest r1.1
    (r2.1, r1.2 ++ r2.2)

/-- One full run of `BackgroundSendService._process_batch` on the registered
progress object `p0`.  `rows` is the result of the bulk `SELECT ... WHERE id
IN employee_ids`; `sendDelay` is `webhook_config.get("send_delay", 3)`; the
webhook service object and its configuration are abstracted by `oracle`. -/

def sendProcessBatch (employeeIds : List String) (sendDelay : Int)
    (rows : List EmployeeRow) (oracle : Nat → NotifierOutcome)
    (p0 : SendSessionProgress) : SendSessionProgress × List SendEffect :=
  let p := { p0 with is_running := true }
  let p := { p with tasks := buildSendTasks rows p.tasks }
  let empMap := buildEmpMap rows
  let initEv : SendEventData := { kind := "init", total := some p.total, pending := some p.pending }
  let r := sendLoop empMap employeeIds.length sendDelay oracle employeeIds.enum p
  let pEnd := { r.1 with is_running := false }
  let completeEv : SendEventData :=
    { kind := "complete", total := some pEnd.total, sent := some pEnd.sent,
      failed := some pEnd.failed }
  (pEnd, SendEffect.notify initEv p :: r.2 ++ [SendEffect.notify completeEv pEnd])

/-! ## Send service state and observation surface -/

/-- The snapshot dict built by `_notify_subscribers`/`subscribe`/`get_progress`
of the send service. -/

structure SendSnapshot where
  total : Int
  sent : Int
  failed : Int
  pending : Int
  is_running : Bool
deriving DecidableEq, Repr

def sendSnapshotOf (p : SendSessionProgress) : SendSnapshot :=
  { total := p.total, sent := p.sent, failed := p.failed, pending := p.pending,
    is_running := p.is_running }

/-- `BackgroundSendService` state: `self.sessions` plus the contents of all
subscriber queues (each queue holds event dicts with their embedded
snapshots). -/

structure SendService where
  sessions : List (String × SendSessionProgress)
  queues : List (Nat × List (SendEventData × SendSnapshot))
  nextQueue : Nat
deriving DecidableEq, Repr

def emptySendService : SendService := { sessions := [], queues := [], nextQueue := 0 }

/-- Registration part of `start_batch_send` (the background task itself is
`sendProcessBatch`). -/

def startBatchSend (svc : SendService) (batchId : String) (employeeIds : List String) :
    SendService :=
  { svc with sessions := aset svc.sessions batchId (startSendProgress batchId employeeIds) }

/-- `BackgroundSendService._notify_subscribers` as a stand-alone operation on
the service state: fan the event out to every subscriber queue of the batch
(or do nothing when the batch is unknown). -/

def sendNotifySubscribers (svc : SendService) (batchId : String) (ev : SendEventData) :
    SendService :=
  match alookup svc.sessions batchId with
  | none => svc
  | some p =>
    let item := (ev, sendSnapshotOf p)
    { svc with
      queues := p.subscribers.foldl (fun qs qid => aupdate qs qid (fun l => l ++ [item]))
        svc.queues }

/-- `BackgroundSendService.subscribe`: always creates a fresh queue; when the
batch is known, registers the queue and immediately enqueues the synthetic
`init` event. -/

def sendSubscribe (svc : SendService) (batchId : String) : SendService × Nat :=
  let qid := svc.nextQueue
  let svc1 := { svc with queues := aset svc.queues qid [], nextQueue := qid + 1 }
  match alookup svc1.sessions batchId with
  | none => (svc1, qid)
  | some p =>
    let p2 := { p with subscribers :=
      if qid ∈ p.subscribers then p.subscribers else p.subscribers ++ [qid] }
    let initItem : SendEventData × SendSnapshot := ({ kind := "init" }, sendSnapshotOf p2)
    ({ svc1 with sessions := aset svc1.sessions batchId p2,
                 queues := aupdate svc1.queues qid (fun l => l ++ [initItem]) }, qid)

/-- `BackgroundSendService.unsubscribe`: `discard` the queue from the
subscriber set when the batch is known; otherwise do nothing.  Never raises. -/

def sendUnsubscribe (svc : SendService) (batchId : String) (qid : Nat) : SendService :=
  match alookup svc.sessions batchId with
  | none => svc
  | some _ =>
    { svc with sessions := (aupdate svc.sessions batchId
        (fun p => { p with subscribers := discardQ p.subscribers qid })) }

/-- `BackgroundSendService.get_progress`. -/

def sendGetProgress (svc : SendService) (batchId : String) : Option SendSnapshot :=
  match alookup svc.sessions batchId with
  | none => none
  | some p => some (sendSnapshotOf p)

/-- `BackgroundSendService.cleanup_batch`. -/

def cleanupBatch (svc : SendService) (batchId : String) : SendService :=
  { svc with sessions := aremove svc.sessions batchId }

/-! ## Webhook notifier (`webhook_service.py`, `send_notification`) -/

/-- `WebhookResponse` pydantic schema. -/

structure WebhookResponse where
  status : String
  message : Option String := none
deriving DecidableEq, Repr

/-- What one HTTP POST attempt inside `send_notification` can observe.
`httpOk body` is a 200 response; `body = some (st, msg)` is parsed JSON with
optional `status`/`message` keys, `body = none` means `response.json()`
raised.  The other constructors are the caught failure classes, carrying the
text used to build `last_error`. -/

inductive AttemptOutcome where
  | httpOk (body : Option (Option String × Option String))
  | httpStat (code : Int) (text : String)
  | timedOut
  | requestErr (msg : String)
  | unexpectedErr (msg : String)
deriving DecidableEq, Repr

/-- The `last_error` string recorded for a failed attempt (`tmo` is
`self.timeout`). -/

def attemptErrorText (tmo : Int) : AttemptOutcome → String
  | AttemptOutcome.httpOk _ => ""
  | AttemptOutcome.httpStat code text => s!"HTTP {code}: {text}"
  | AttemptOutcome.timedOut => s!"Request timeout after {tmo}s"
  | AttemptOutcome.requestErr msg => s!"Request error: {msg}"
  | AttemptOutcome.unexpectedErr msg => s!"Unexpected error: {msg}"

/-- An attempt outcome that is an ordinary delivery failure (anything but an
HTTP 200). -/

def ordinaryFailure : AttemptOutcome → Prop
  | AttemptOutcome.httpOk _ => False
  | _ => True

instance (o : AttemptOutcome) : Decidable (ordinaryFailure o) := by
  cases o <;> simp [ordinaryFailure] <;> infer_instance

/-- The `for attempt in range(self.retry_count)` loop of `send_notification`.
`fuel` is the number of attempts left, `attempt` the current attempt index.
On exhaustion it returns `WebhookResponse(status="failed", message=last_error)`.
The inter-attempt `asyncio.sleep` is not observable here and is omitted. -/

def sendNotificationLoop (tmo : Int) (attempts : Nat → AttemptOutcome) :
    Nat → Nat → Option String → WebhookResponse
  | 0, _, lastError => { status := "failed", message := lastError }
  | fuel + 1, attempt, _lastError =>
    match attempts attempt with
    | AttemptOutcome.httpOk (some body) =>
      { status := body.1.getD "success", message := body.2 }
    | AttemptOutcome.httpOk none => { status := "success" }
    | failure =>
      sendNotificationLoop tmo attempts fuel (attempt + 1)
        (some (attemptErrorText tmo failure))

/-- `WebhookService.send_notification`: a total function — for ordinary
delivery failures it returns a failed `WebhookResponse` instead of raising.
`webhookUrl = none` or `some ""` is an unconfigured service. -/

def sendNotificationW (webhookUrl : Option String) (tmo : Int) (retryCount : Nat)
    (attempts : Nat → AttemptOutcome) : WebhookResponse :=
  if webhookUrl.getD "" = "" then
    { status := "failed", message := some "Webhook URL not configured" }
  else
    sendNotificationLoop tmo attempts retryCount 0 none

/-! ### Counting lemmas for the send service

The send service stores `pending`/`sent`/`failed` but no "sending" count; the
number of tasks currently in status `"sending"` is the implicit fourth
bucket. -/

def sPoint (t : SendTask) : Int := if t.status = "sending" then 1 else 0

def sPointO : Option SendTask → Int
  | some t => sPoint t
  | none => 0

def sendingCount : List (String × SendTask) → Int
  | [] => 0
  | kv :: rest => sPoint kv.2 + sendingCount rest

def SendCountsOk (p : SendSessionProgress) : Prop :=
  p.pending + p.sent + p.failed = p.total ∧ sendingCount p.tasks = 0

/-- Count-consistency of an emitted snapshot: `pending` plus the number of
`"sending"` tasks plus `sent` plus `failed` equals `total`. -/

def snapCountsOk (p : SendSessionProgress) : Prop :=
  p.pending + sendingCount p.tasks + p.sent + p.failed = p.total

def mentionsEmp (m : String) : SendEffect → Prop
  | SendEffect.notify ev _ => ev.employee_id = some m
  | SendEffect.history eid _ _ => eid = m
  | SendEffect.webhookCall _ eid _ => eid = m
  | SendEffect.sleep _ => False

def afterValidationFail (p : SendSessionProgress) (empId : String) (task : SendTask)
    (idx : Nat) (err : String) : SendSessionProgress :=
  { p with current_index := (idx : Int),
           tasks := aset p.tasks empId { task with status := "failed", error := some err },
           pending := p.pending - 1, failed := p.failed + 1 }

/-- State after an item is marked `"sending"`. -/

def sendingMark (p : SendSessionProgress) (empId : String) (task : SendTask)
    (idx : Nat) : SendSessionProgress :=
  { p with current_index := (idx : Int),
           tasks := aset p.tasks empId { task with status := "sending" },
           pending := p.pending - 1 }

/-- State after a successful webhook outcome. -/

def sendSuccessState (p2 : SendSessionProgress) (empId : String) (task2 : SendTask) :
    SendSessionProgress :=
  { p2 with tasks := aset p2.tasks empId { task2 with status := "success" },
            sent := p2.sent + 1 }

/-- State after a failed webhook outcome (failure response or raised exception). -/

def sendFailState (p2 : SendSessionProgress) (empId : String) (task2 : SendTask)
    (msg : Option String) : SendSessionProgress :=
  { p2 with tasks := aset p2.tasks empId { task2 with status := "failed", error := msg },
            failed := p2.failed + 1 }

/-- The per-item `status` event dict. -/

def statusEvent (empId name st : String) (err : Option String) (idx : Nat) : SendEventData :=
  { kind := "status", employee_id := some empId, name := some name, status := some st,
    error := err, index := some idx }

/-- The trailing inter-send delay effect list. -/

def delayTail (numIds : Nat) (sendDelay : Int) (idx : Nat) : List SendEffect :=
  if idx < numIds - 1 ∧ sendDelay > 0 then [SendEffect.sleep sendDelay] else []

def foundFlag (empMap : List (String × EmployeeRow)) (id : String) : Int :=
  if (alookup empMap id).isSome then 1 else 0

/-- Number of loop iterations whose employee id was found by the bulk fetch. -/

def foundTotal (empMap : List (String × EmployeeRow)) : List (Nat × String) → Int
  | [] => 0
  | (_, id) :: rest => foundFlag empMap id + foundTotal empMap rest

/-- Every fetched employee has an `ItemTask` in the task map. -/

def TasksCover (empMap : List (String × EmployeeRow)) (p : SendSessionProgress) : Prop :=
  ∀ id, (alookup empMap id).isSome → (alookup p.tasks id).isSome

structure ImageTask where
  employee_id : String
  employee_code : String
  employee_name : String
  status : String := "pending"
  error : Option String := none
deriving DecidableEq, Repr

/-- `SessionProgress` dataclass. -/

structure SessionProgress where
  session_id : String
  total : Int := 0
  completed : Int := 0
  failed : Int := 0
  processing : Int := 0
  tasks : List (String × ImageTask) := []
  subscribers : List Nat := []
  is_running : Bool := false
  cancelled : Bool := false
deriving DecidableEq, Repr

/-- The fields of an employee dict passed to `start_generation`
(`{"id", "employee_code", "name"}`); `employee_code = ""` models a missing
(falsy) code. -/

structure EmpInput where
  id : String
  employee_code : String
  name : String
deriving DecidableEq, Repr

/-- `BatchResult` from `salary_slip_service_optimized.py`. -/

structure BatchResult where
  employee_code : String
  success : Bool
  base64_image : Option String := none
  salary : Option Int := none
  error : Option String := none
deriving DecidableEq, Repr

/-- The event dict pushed to generation subscribers; absent keys are `none`. -/

structure GenEventData where
  kind : String
  employee_id : Option String := none
  status : Option String := none
  name : Option String := none
  error : Option String := none
  has_image : Option Bool := none
  total : Option Int := none
  completed : Option Int := none
  failed : Option Int := none
deriving DecidableEq, Repr

/-- The progress snapshot dict built by `_notify_subscribers` (no
`is_running` key), `subscribe` and `get_progress` (with `is_running`). -/

structure GenSnapshot where
  total : Int
  completed : Int
  failed : Int
  processing : Int
  pending : Int
  is_running : Option Bool := none
deriving DecidableEq, Repr

/-- Snapshot of a progress object; `pending` is computed as
`total - completed - failed - processing`. -/

def genSnapshotOf (p : SessionProgress) (running : Option Bool) : GenSnapshot :=
  { total := p.total, completed := p.completed, failed := p.failed,
    processing := p.processing,
    pending := p.total - p.completed - p.failed - p.processing,
    is_running := running }

/-- Observable side effects of a generation batch, in program order. -/

inductive GenEffect where
  | dbStatus (employee_id : String) (status : String) (error : Option String)
  | dbSave (employee_id : String) (image_url : String) (salary : Option Int) (status : String)
  | notify (sessionKey : String) (ev : GenEventData) (snap : GenSnapshot)
  | convertCall (excel_file_path : String) (codes : List String)
deriving DecidableEq, Repr

/-- Python string interpolation of an `Optional[str]`. -/

def optStr : Option String → String
  | some s => s
  | none => "None"

/-- Behaviour of the single `generate_batch` executor call: the per-item
callbacks it delivers, in order, and whether the call raises at the end
(`str(e)` recorded). -/

structure ConvBehavior where
  callbacks : List (String × BatchResult)
  raises : Option String
deriving DecidableEq, Repr

/-- Task created for an employee by `start_generation`
(`employee_code=emp["employee_code"] or ""`). -/

def mkImageTask (e : EmpInput) : ImageTask :=
  { employee_id := e.id, employee_code := e.employee_code, employee_name := e.name }

/-- `progress.tasks` built by `start_generation`. -/

def buildGenTasks (employees : List EmpInput) : List (String × ImageTask) :=
  employees.foldl (fun ts e => aset ts e.id (mkImageTask e)) []

/-- The fresh `SessionProgress` registered by `start_generation`. -/

def mkSessionProgress (sessionKey : String) (employees : List EmpInput) : SessionProgress :=
  { session_id := sessionKey, total := (employees.length : Int),
    tasks := buildGenTasks employees }

/-- `code_to_emp` built at the start of `_process_batch`. -/

def buildCodeToEmp (employees : List EmpInput) : List (String × EmpInput) :=
  employees.foldl (fun m e => if e.employee_code = "" then m else aset m e.employee_code e) []

/-- `valid_codes` built at the start of `_process_batch`. -/

def genValidCodes (employees : List EmpInput) : List String :=
  (employees.filter (fun e => ¬ e.employee_code = "")).map (fun e => e.employee_code)

/-! ### Pure per-step functions of `_process_batch` (image generation)

Each acts on the captured `progress` object and yields the effects of that
step.  `_notify_subscribers` looks the session up by key; in the sequential
single-run model the key stays bound to this same object, so the emitted
snapshot is built from the updated object itself. -/

/-- Folding combinator for the per-step functions. -/

def foldP {α : Type} (f : α → SessionProgress → SessionProgress × List GenEffect) :
    List α → SessionProgress → SessionProgress × List GenEffect
  | [], p => (p, [])
  | a :: rest, p =>
    let r1 := f a p
    let r2 := foldP f rest r1.1
    (r2.1, r1.2 ++ r2.2)

/-- The "mark employees without code as failed immediately" loop body. -/

def failNoCodeP (sessionKey : String) (e : EmpInput) (p : SessionProgress) :
    SessionProgress × List GenEffect :=
  if e.employee_code = "" then
    match alookup p.tasks e.id with
    | none => (p, [])
    | some task =>
      let task2 := { task with status := "failed", error := some "Employee code is required" }
      let p2 := { p with tasks := aset p.tasks e.id task2, failed := p.failed + 1 }
      (p2, [GenEffect.dbStatus e.id "failed" (some "Employee code is required"),
            GenEffect.notify sessionKey
              { kind := "status", employee_id := some e.id, status := some "failed",
                name := some task2.employee_name, error := some "Employee code is required" }
              (genSnapshotOf p2 none)])
  else (p, [])

/-- The "mark all valid employees as processing" loop body. -/

def markProcessingP (sessionKey : String) (codeToEmp : List (String × EmpInput))
    (code : String) (p : SessionProgress) : SessionProgress × List GenEffect :=
  match alookup codeToEmp code with
  | none => (p, [])
  | some emp =>
    match alookup p.tasks emp.id with
    | none => (p, [])
    | some task =>
      let task2 := { task with status := "processing" }
      let p2 := { p with tasks := aset p.tasks emp.id task2,
                         processing := p.processing + 1 }
      (p2, [GenEffect.dbStatus emp.id "processing" none,
            GenEffect.notify sessionKey
              { kind := "status", employee_id := some emp.id, status := some "processing",
                name := some task2.employee_name }
              (genSnapshotOf p2 none)])

/-- The `on_result` async callback, acting on the captured progress object.
`current` is the value of `self._current_session_key` when the callback runs. -/

def onResultP (current : Option String) (sessionKey : String)
    (codeToEmp : List (String × EmpInput)) (cr : String × BatchResult)
    (p : SessionProgress) : SessionProgress × List GenEffect :=
  if ¬ current = some sessionKey then (p, [])
  else if p.cancelled then (p, [])
  else
    match alookup codeToEmp cr.1 with
    | none => (p, [])
    | some emp =>
      match alookup p.tasks emp.id with
      | none => (p, [])
      | some task =>
        let p1 := { p with processing := p.processing - 1 }
        if cr.2.success then
          let task2 := { task with status := "completed" }
          let p2 := { p1 with tasks := aset p1.tasks emp.id task2,
                              completed := p1.completed + 1 }
          (p2, [GenEffect.dbSave emp.id
                  ("data:image/png;base64," ++ optStr cr.2.base64_image) cr.2.salary
                  "completed",
                GenEffect.notify sessionKey
                  { kind := "status", employee_id := some emp.id, status := some "completed",
                    name := some task2.employee_name, has_image := some true }
                  (genSnapshotOf p2 none)])
        else
          let task2 := { task with status := "failed", error := cr.2.error }
          let p2 := { p1 with tasks := aset p1.tasks emp.id task2,
                              failed := p1.failed + 1 }
          (p2, [GenEffect.dbStatus emp.id "failed" cr.2.error,
                GenEffect.notify sessionKey
                  { kind := "status", employee_id := some emp.id, status := some "failed",
                    name := some task2.employee_name, error := cr.2.error }
                  (genSnapshotOf p2 none)])

/-- The except-branch loop: bulk-fail every still-`"processing"` item with the
raised error text (no subscriber notification in this loop). -/

def bulkFailP (err : String) (codeToEmp : List (String × EmpInput)) (code : String)
    (p : SessionProgress) : SessionProgress × List GenEffect :=
  match alookup codeToEmp code with
  | none => (p, [])
  | some emp =>
    match alookup p.tasks emp.id with
    | none => (p, [])
    | some task =>
      if task.status = "processing" then
        let task2 := { task with status := "failed", error := some err }
        let p2 := { p with tasks := aset p.tasks emp.id task2,
                           processing := p.processing - 1, failed := p.failed + 1 }
        (p2, [GenEffect.dbStatus emp.id "failed" (some err)])
      else (p, [])

/-- One run of `BackgroundImageService._process_batch` on the captured
progress object `p`.  `current` is the (fixed, in this sequential model)
value of `self._current_session_key`.  The returned `Bool` is true when the
run ends superseded and deletes its session entry instead of emitting
`complete` (unreachable while `current` is fixed, but kept from the code). -/

def genProcessBatchP (current : Option String) (sessionKey : String)
    (excelFilePath : String) (employees : List EmpInput) (conv : ConvBehavior)
    (p : SessionProgress) : SessionProgress × List GenEffect × Bool :=
  let p := { p with is_running := true }
  let codeToEmp := buildCodeToEmp employees
  let validCodes := genValidCodes employees
  if p.cancelled ∨ ¬ current = some sessionKey then
    ({ p with is_running := false }, [], false)
  else
    let r1 := foldP (failNoCodeP sessionKey) employees p
    if validCodes = [] then
      let p2 := { r1.1 with is_running := false }
      (p2, r1.2 ++ [GenEffect.notify sessionKey
        { kind := "complete", total := some p2.total, completed := some p2.completed,
          failed := some p2.failed }
        (genSnapshotOf p2 none)], false)
    else
      let r2 := foldP (markProcessingP sessionKey codeToEmp) validCodes r1.1
      let r3 := foldP (onResultP current sessionKey codeToEmp) conv.callbacks r2.1
      let r4 :=
        match conv.raises with
        | none => (r3.1, [])
        | some err => foldP (bulkFailP err codeToEmp) validCodes r3.1
      let p5 := { r4.1 with is_running := false }
      if current = some sessionKey then
        (p5, r1.2 ++ r2.2 ++ [GenEffect.convertCall excelFilePath validCodes] ++ r3.2 ++ r4.2 ++
          [GenEffect.notify sessionKey
            { kind := "complete", total := some p5.total, completed := some p5.completed,
              failed := some p5.failed }
            (genSnapshotOf p5 none)], false)
      else
        (p5, r1.2 ++ r2.2 ++ [GenEffect.convertCall excelFilePath validCodes] ++ r3.2 ++ r4.2,
          true)

/-! ## Image generation service state and operations

`BackgroundImageService` holds `self.sessions` (key → `SessionProgress`
object) and `self._current_session_key`.  Because the `on_result` closure
captures one particular `SessionProgress` object while `_notify_subscribers`
re-looks the key up, object identity matters: the state keeps a heap of
progress objects indexed by `Nat`, and `sessions` maps keys to heap ids. -/

structure GenService where
  heap : List (Nat × SessionProgress)
  sessions : List (String × Nat)
  currentSessionKey : Option String
  nextObj : Nat
  queues : List (Nat × List (GenEventData × GenSnapshot))
  nextQueue : Nat
deriving DecidableEq, Repr

def emptyGenService : GenService :=
  { heap := [], sessions := [], currentSessionKey := none, nextObj := 0,
    queues := [], nextQueue := 0 }

/-- Mark every registered session's progress object cancelled (the loop in
`start_generation` / `cancel_all_running`). -/

def cancelRegistered (sessions : List (String × Nat))
    (heap : List (Nat × SessionProgress)) : List (Nat × SessionProgress) :=
  sessions.foldl (fun h kv => aupdate h kv.2 (fun p => { p with cancelled := true })) heap

/-- `start_generation`: cancel all registered sessions, make this key
current, register a fresh progress object (the background task itself is
`genProcessBatch`). -/

def startGeneration (svc : GenService) (sessionKey : String) (employees : List EmpInput) :
    GenService :=
  let heap2 := cancelRegistered svc.sessions svc.heap
  let oid := svc.nextObj
  { svc with heap := aset heap2 oid (mkSessionProgress sessionKey employees),
             sessions := aset svc.sessions sessionKey oid,
             currentSessionKey := some sessionKey,
             nextObj := oid + 1 }

/-- `cancel_all_running`. -/

def cancelAllRunning (svc : GenService) : GenService :=
  { svc with heap := cancelRegistered svc.sessions svc.heap }

/-- Fan a list of emitted notifications out to the subscriber queues of the
notified session, as `_notify_subscribers` does per event (queue contents
carry the event together with its emission-time snapshot). -/

def fanOutGen (heap : List (Nat × SessionProgress)) (sessions : List (String × Nat))
    (queues : List (Nat × List (GenEventData × GenSnapshot))) :
    List GenEffect → List (Nat × List (GenEventData × GenSnapshot))
  | [] => queues
  | GenEffect.notify k ev snap :: rest =>
    let queues2 :=
      match alookup sessions k with
      | none => queues
      | some oid =>
        match alookup heap oid with
        | none => queues
        | some pr =>
          pr.subscribers.foldl (fun qs qid => aupdate qs qid (fun l => l ++ [(ev, snap)])) queues
    fanOutGen heap sessions queues2 rest
  | _ :: rest => fanOutGen heap sessions queues rest

/-- The captured context of an `on_result` closure: the session key, the
identity of the captured progress object, and the captured `code_to_emp`. -/

structure ResultCtx where
  sessionKey : String
  objId : Nat
  codeToEmp : List (String × EmpInput)
deriving DecidableEq, Repr

/-- A late `on_result` callback as a stand-alone operation on the service
state. -/

def onResult (ctx : ResultCtx) (svc : GenService) (empCode : String)
    (result : BatchResult) : GenService × List GenEffect :=
  match alookup svc.heap ctx.objId with
  | none => (svc, [])
  | some p =>
    let r := onResultP svc.currentSessionKey ctx.sessionKey ctx.codeToEmp (empCode, result) p
    let heap2 := aset svc.heap ctx.objId r.1
    ({ svc with heap := heap2,
                queues := fanOutGen heap2 svc.sessions svc.queues r.2 }, r.2)

/-- A whole `_process_batch` run as an operation on the service state. -/

def genProcessBatch (svc : GenService) (sessionKey excelFilePath : String)
    (employees : List EmpInput) (conv : ConvBehavior) : GenService × List GenEffect :=
  match alookup svc.sessions sessionKey with
  | none => (svc, [])
  | some oid =>
    match alookup svc.heap oid with
    | none => (svc, [])
    | some p =>
      let r := genProcessBatchP svc.currentSessionKey sessionKey excelFilePath employees conv p
      let heap2 := aset svc.heap oid r.1
      let svc2 := { svc with heap := heap2,
                             queues := fanOutGen heap2 svc.sessions svc.queues r.2.1 }
      if r.2.2 then ({ svc2 with sessions := aremove svc2.sessions sessionKey }, r.2.1)
      else (svc2, r.2.1)

/-- `BackgroundImageService._notify_subscribers` as a stand-alone operation. -/

def genNotifySubscribers (svc : GenService) (sessionKey : String) (ev : GenEventData) :
    GenService :=
  match alookup svc.sessions sessionKey with
  | none => svc
  | some oid =>
    match alookup svc.heap oid with
    | none => svc
    | some p =>
      let item := (ev, genSnapshotOf p none)
      { svc with queues := (p.subscribers.foldl
          (fun qs qid => aupdate qs qid (fun l => l ++ [item])) svc.queues) }

/-- `BackgroundImageService.subscribe`: always creates a fresh queue; when the
session is known, registers it and enqueues the synthetic `init` event. -/

def genSubscribe (svc : GenService) (sessionKey : String) : GenService × Nat :=
  let qid := svc.nextQueue
  let svc1 := { svc with queues := aset svc.queues qid [], nextQueue := qid + 1 }
  match alookup svc1.sessions sessionKey with
  | none => (svc1, qid)
  | some oid =>
    match alookup svc1.heap oid with
    | none => (svc1, qid)
    | some p =>
      let p2 := { p with subscribers :=
        if qid ∈ p.subscribers then p.subscribers else p.subscribers ++ [qid] }
      let initItem : GenEventData × GenSnapshot :=
        ({ kind := "init" }, genSnapshotOf p2 (some p2.is_running))
      ({ svc1 with heap := aset svc1.heap oid p2,
                   queues := aupdate svc1.queues qid (fun l => l ++ [initItem]) }, qid)

/-- `BackgroundImageService.unsubscribe`. Never raises. -/

def genUnsubscribe (svc : GenService) (sessionKey : String) (qid : Nat) : GenService :=
  match alookup svc.sessions sessionKey with
  | none => svc
  | some oid =>
    { svc with heap := (aupdate svc.heap oid
        (fun p => { p with subscribers := discardQ p.subscribers qid })) }

/-- `BackgroundImageService.get_progress`. -/

def genGetProgress (svc : GenService) (sessionKey : String) : Option GenSnapshot :=
  match alookup svc.sessions sessionKey with
  | none => none
  | some oid =>
    match alookup svc.heap oid with
    | none => none
    | some p => some (genSnapshotOf p (some p.is_running))

/-- `BackgroundImageService.cleanup_session`. -/

def cleanupSession (svc : GenService) (sessionKey : String) : GenService :=
  { svc with sessions := aremove svc.sessions sessionKey }

/-- The operations that can touch the generation service state. -/

inductive GenOp where
  | start (sessionKey : String) (employees : List EmpInput)
  | proc (sessionKey excelFilePath : String) (employees : List EmpInput) (conv : ConvBehavior)
  | onRes (ctx : ResultCtx) (empCode : String) (result : BatchResult)
  | cancelAll
  | sub (sessionKey : String)
  | unsub (sessionKey : String) (qid : Nat)
  | cleanup (sessionKey : String)
  | notifyOp (sessionKey : String) (ev : GenEventData)
deriving DecidableEq, Repr

def genStep (svc : GenService) : GenOp → GenService
  | GenOp.start k emps => startGeneration svc k emps
  | GenOp.proc k path emps conv => (genProcessBatch svc k path emps conv).1
  | GenOp.onRes ctx c r => (onResult ctx svc c r).1
  | GenOp.cancelAll => cancelAllRunning svc
  | GenOp.sub k => (genSubscribe svc k).1
  | GenOp.unsub k q => genUnsubscribe svc k q
  | GenOp.cleanup k => cleanupSession svc k
  | GenOp.notifyOp k ev => genNotifySubscribers svc k ev

/-- Heap ids are below the allocation counter (fresh ids never clobber). -/

def GenWF (svc : GenService) : Prop :=
  ∀ kv ∈ svc.heap, kv.1 < svc.nextObj

/-! ### Count consistency of generation snapshots -/

/-- The four counts of an emitted generation snapshot sum to `total`. -/

def genSnapSum (snap : GenSnapshot) : Prop :=
  snap.pending + snap.processing + snap.completed + snap.failed = snap.total

def GoodGenTrace (T : List GenEffect) : Prop :=
  ∀ k ev snap, GenEffect.notify k ev snap ∈ T → genSnapSum snap

def codeFailTask (e : EmpInput) : ImageTask :=
  { mkImageTask e with status := "failed", error := some "Employee code is required" }

/-- The progress object after the immediate-failure loop handles `e`. -/

def codeFailState (e : EmpInput) (p : SessionProgress) : SessionProgress :=
  { p with tasks := aset p.tasks e.id (codeFailTask e), failed := p.failed + 1 }

def genPhase2 (key : String) (employees : List EmpInput) : SessionProgress :=
  (foldP (markProcessingP key (buildCodeToEmp employees)) (genValidCodes employees)
    (foldP (failNoCodeP key) employees
      { mkSessionProgress key employees with is_running := true }).1).1

/-- State of the captured progress object after all per-item callbacks. -/

def genPhase3 (key : String) (employees : List EmpInput) (conv : ConvBehavior) :
    SessionProgress :=
  (foldP (onResultP (some key) key (buildCodeToEmp employees)) conv.callbacks
    (genPhase2 key employees)).1

def dropSub (qid : Nat) (p : SessionProgress) : SessionProgress :=
  { p with subscribers := discardQ p.subscribers qid }

/-- Send-side analogue of `dropSub`. -/

def dropSubS (qid : Nat) (p : SendSessionProgress) : SendSessionProgress :=
  { p with subscribers := discardQ p.subscribers qid }

def NoSubG (svc : GenService) (qid : Nat) : Prop :=
  (∀ kv ∈ svc.heap, qid ∉ kv.2.subscribers) ∧
  alookup svc.queues qid = some [] ∧ qid < svc.nextQueue

def QueueWF (svc : GenService) : Prop :=
  ∀ kv ∈ svc.heap, ∀ q ∈ kv.2.subscribers, q < svc.nextQueue

def fanOutSend (sessions : List (String × SendSessionProgress)) (batchId : String)
    (queues : List (Nat × List (SendEventData × SendSnapshot))) :
    List SendEffect → List (Nat × List (SendEventData × SendSnapshot))
  | [] => queues
  | SendEffect.notify ev snap :: rest =>
    let queues2 :=
      match alookup sessions batchId with
      | none => queues
      | some pr =>
        pr.subscribers.foldl
          (fun qs qid => aupdate qs qid (fun l => l ++ [(ev, sendSnapshotOf snap)])) queues
    fanOutSend sessions batchId queues2 rest
  | _ :: rest => fanOutSend sessions batchId queues rest

/-- A whole `BackgroundSendService._process_batch` run as an operation on the
service state. -/

def sendRunBatch (svc : SendService) (batchId : String) (employeeIds : List String)
    (sendDelay : Int) (rows : List EmployeeRow) (oracle : Nat → NotifierOutcome) :
    SendService × List SendEffect :=
  match alookup svc.sessions batchId with
  | none => (svc, [])
  | some p =>
    let r := sendProcessBatch employeeIds sendDelay rows oracle p
    let sessions2 := aset svc.sessions batchId r.1
    ({ svc with sessions := sessions2,
                queues := fanOutSend sessions2 batchId svc.queues r.2 }, r.2)

/-- The operations that can touch the send service state. -/

inductive SendOp where
  | start (batchId : String) (employeeIds : List String)
  | procB (batchId : String) (employeeIds : List String) (sendDelay : Int)
      (rows : List EmployeeRow) (oracle : Nat → NotifierOutcome)
  | sub (batchId : String)
  | unsub (batchId : String) (qid : Nat)
  | cleanup (batchId : String)
  | notifyOp (batchId : String) (ev : SendEventData)

def sendStep (svc : SendService) : SendOp → SendService
  | SendOp.start b ids => startBatchSend svc b ids
  | SendOp.procB b ids d rows oracle => (sendRunBatch svc b ids d rows oracle).1
  | SendOp.sub b => (sendSubscribe svc b).1
  | SendOp.unsub b q => sendUnsubscribe svc b q
  | SendOp.cleanup b => cleanupBatch svc b
  | SendOp.notifyOp b ev => sendNotifySubscribers svc b ev

def NoSubS (svc : SendService) (qid : Nat) : Prop :=
  (∀ kv ∈ svc.sessions, qid ∉ kv.2.subscribers) ∧
  alookup svc.queues qid = some [] ∧ qid < svc.nextQueue

def QueueWFS (svc : SendService) : Prop :=
  ∀ kv ∈ svc.sessions, ∀ q ∈ kv.2.subscribers, q < svc.nextQueue

def hasSleep : List SendEffect → Bool
  | [] => false
  | SendEffect.sleep _ :: _ => true
  | _ :: rest => hasSleep rest

/-! ## Lemmas and claim theorems -/

theorem alookup_aset_self {κ α : Type} [DecidableEq κ] (l : List (κ × α)) (k : κ) (v : α) :
    alookup (aset l k v) k = some v := by
  induction l with
  | nil => simp [aset, alookup]
  | cons kv rest ih =>
    by_cases h : kv.1 = k
    · simp [aset, h, alookup]
    · simp [aset, h, alookup, ih]

theorem alookup_aset_ne {κ α : Type} [DecidableEq κ] (l : List (κ × α)) (k k2 : κ) (v : α)
    (h : ¬ k2 = k) : alookup (aset l k v) k2 = alookup l k2 := by
  have hne : ¬ k = k2 := fun h2 => h h2.symm
  induction l with
  | nil => simp [aset, alookup, hne]
  | cons kv rest ih =>
    by_cases hk : kv.1 = k
    · subst hk
      simp [aset, alookup, hne]
    · simp only [aset, hk, if_false]
      by_cases hk2 : kv.1 = k2
      · simp [alookup, hk2]
      · simp [alookup, hk2, ih]

theorem aset_eq_of_lookup {κ α : Type} [DecidableEq κ] (l : List (κ × α)) (k : κ) (v : α)
    (h : alookup l k = some v) : aset l k v = l := by
  induction l with
  | nil => simp [alookup] at h
  | cons kv rest ih =>
    by_cases hk : kv.1 = k
    · simp only [alookup, hk, if_true, Option.some.injEq] at h
      obtain ⟨a, b⟩ := kv
      simp only at hk
      subst hk
      subst h
      simp [aset]
    · simp only [alookup, hk, if_false] at h
      simp [aset, hk, ih h]

theorem alookup_mem {κ α : Type} [DecidableEq κ] {l : List (κ × α)} {k : κ} {v : α}
    (h : alookup l k = some v) : (k, v) ∈ l := by
  induction l with
  | nil => simp [alookup] at h
  | cons kv rest ih =>
    by_cases hk : kv.1 = k
    · simp only [alookup, hk, if_true, Option.some.injEq] at h
      obtain ⟨a, b⟩ := kv
      simp only at hk
      subst hk
      subst h
      exact List.mem_cons_self _ _
    · simp only [alookup, hk, if_false] at h
      exact List.mem_cons_of_mem _ (ih h)

theorem mem_aset {κ α : Type} [DecidableEq κ] {l : List (κ × α)} {k : κ} {v : α} {kv : κ × α}
    (h : kv ∈ aset l k v) : kv = (k, v) ∨ kv ∈ l := by
  induction l with
  | nil =>
    simp only [aset, List.mem_singleton] at h
    exact Or.inl h
  | cons hd rest ih =>
    by_cases hk : hd.1 = k
    · simp only [aset, hk, if_true, List.mem_cons] at h
      rcases h with h | h
      · exact Or.inl h
      · exact Or.inr (List.mem_cons_of_mem _ h)
    · simp only [aset, hk, if_false, List.mem_cons] at h
      rcases h with h | h
      · exact Or.inr (List.mem_cons.mpr (Or.inl h))
      · rcases ih h with h2 | h2
        · exact Or.inl h2
        · exact Or.inr (List.mem_cons_of_mem _ h2)

theorem alookup_aremove_self {κ α : Type} [DecidableEq κ] (l : List (κ × α)) (k : κ) :
    alookup (aremove l k) k = none := by
  induction l with
  | nil => simp [aremove, alookup]
  | cons kv rest ih =>
    by_cases hk : kv.1 = k
    · simp [aremove, hk, ih]
    · simp [aremove, hk, alookup, ih]

theorem alookup_aupdate_self {κ α : Type} [DecidableEq κ] (l : List (κ × α)) (k : κ)
    (f : α → α) : alookup (aupdate l k f) k = (alookup l k).map f := by
  induction l with
  | nil => simp [aupdate, alookup]
  | cons kv rest ih =>
    by_cases hk : kv.1 = k
    · simp [aupdate, hk, alookup]
    · simp [aupdate, hk, alookup, ih]

theorem alookup_aupdate_ne {κ α : Type} [DecidableEq κ] (l : List (κ × α)) (k k2 : κ)
    (f : α → α) (h : ¬ k2 = k) : alookup (aupdate l k f) k2 = alookup l k2 := by
  have hne : ¬ k = k2 := fun h2 => h h2.symm
  induction l with
  | nil => simp [aupdate, alookup]
  | cons kv rest ih =>
    by_cases hk : kv.1 = k
    · subst hk
      simp [aupdate, alookup, hne, ih]
    · simp only [aupdate, hk, if_false]
      by_cases hk2 : kv.1 = k2
      · simp [alookup, hk2]
      · simp [alookup, hk2, ih]

theorem aupdate_aupdate {κ α : Type} [DecidableEq κ] (l : List (κ × α)) (k : κ)
    (f g : α → α) : aupdate (aupdate l k f) k g = aupdate l k (fun x => g (f x)) := by
  induction l with
  | nil => simp [aupdate]
  | cons kv rest ih =>
    by_cases hk : kv.1 = k
    · simp [aupdate, hk, ih]
    · simp [aupdate, hk, ih]

theorem aupdate_congr {κ α : Type} [DecidableEq κ] (l : List (κ × α)) (k : κ)
    (f g : α → α) (h : ∀ x, f x = g x) : aupdate l k f = aupdate l k g := by
  induction l with
  | nil => simp [aupdate]
  | cons kv rest ih =>
    by_cases hk : kv.1 = k <;> simp [aupdate, hk, h, ih]

theorem aupdate_id {κ α : Type} [DecidableEq κ] (l : List (κ × α)) (k : κ)
    (f : α → α) (h : ∀ kv ∈ l, kv.1 = k → f kv.2 = kv.2) : aupdate l k f = l := by
  induction l with
  | nil => simp [aupdate]
  | cons kv rest ih =>
    have hrest := ih (fun kv2 h2 => h kv2 (List.mem_cons_of_mem _ h2))
    by_cases hk : kv.1 = k
    · simp only [aupdate, hk, if_true, hrest, List.cons.injEq, and_true]
      rw [h kv (List.mem_cons_self _ _) hk, ← hk]
    · simp [aupdate, hk, hrest]

theorem discardQ_idem (l : List Nat) (x : Nat) :
    discardQ (discardQ l x) x = discardQ l x := by
  induction l with
  | nil => simp [discardQ]
  | cons q rest ih =>
    by_cases h : q = x
    · simp [discardQ, h, ih]
    · simp [discardQ, h, ih]

theorem discardQ_of_not_mem (l : List Nat) (x : Nat) (h : x ∉ l) :
    discardQ l x = l := by
  induction l with
  | nil => simp [discardQ]
  | cons q rest ih =>
    simp only [List.mem_cons, not_or] at h
    have hq : ¬ q = x := fun h2 => h.1 h2.symm
    simp [discardQ, hq, ih h.2]

theorem mem_discardQ {l : List Nat} {x q : Nat} (h : q ∈ discardQ l x) : q ∈ l := by
  induction l with
  | nil => simp [discardQ] at h
  | cons hd rest ih =>
    by_cases hq : hd = x
    · simp only [discardQ, hq, if_true] at h
      exact List.mem_cons_of_mem _ (ih h)
    · simp only [discardQ, hq, if_false, List.mem_cons] at h
      rcases h with h | h
      · simp [h]
      · exact List.mem_cons_of_mem _ (ih h)

/-! ## Send service data model (`background_send_service.py`) -/

/-- `SendTask` dataclass: one send task per employee. -/

theorem sPoint_nonneg (t : SendTask) : 0 ≤ sPoint t := by
  by_cases h : t.status = "sending" <;> simp [sPoint, h]

theorem sendingCount_nonneg (ts : List (String × SendTask)) : 0 ≤ sendingCount ts := by
  induction ts with
  | nil => simp [sendingCount]
  | cons kv rest ih =>
    have := sPoint_nonneg kv.2
    simp only [sendingCount]
    omega

theorem sendingCount_aset (ts : List (String × SendTask)) (k : String) (v : SendTask) :
    sendingCount (aset ts k v) + sPointO (alookup ts k) = sendingCount ts + sPoint v := by
  induction ts with
  | nil => simp [aset, alookup, sendingCount, sPointO]
  | cons kv rest ih =>
    by_cases hk : kv.1 = k
    · simp only [aset, hk, if_true, alookup, sendingCount, sPointO]
      ring
    · simp only [aset, hk, if_false, alookup, sendingCount]
      omega

theorem sendingCount_zero_not_sending {ts : List (String × SendTask)}
    (h : sendingCount ts = 0) {k : String} {t : SendTask} (hm : (k, t) ∈ ts) :
    sPoint t = 0 := by
  induction ts with
  | nil => simp at hm
  | cons kv rest ih =>
    have h1 := sPoint_nonneg kv.2
    have h2 := sendingCount_nonneg rest
    simp only [sendingCount] at h
    rcases List.mem_cons.mp hm with hm | hm
    · have h3 : sPoint kv.2 = 0 := by omega
      rw [← hm] at h3
      exact h3
    · exact ih (by omega) hm

theorem sendingCount_zero_lookup {ts : List (String × SendTask)}
    (h : sendingCount ts = 0) {k : String} {t : SendTask}
    (hl : alookup ts k = some t) : sPoint t = 0 :=
  sendingCount_zero_not_sending h (alookup_mem hl)

/-- Count-consistency at an iteration boundary of the send loop: the three
stored counters sum to `total` and no task is mid-`"sending"`. -/

theorem sendOneItem_counts (empMap : List (String × EmployeeRow)) (numIds : Nat)
    (sendDelay : Int) (oracle : Nat → NotifierOutcome) (idx : Nat) (empId : String)
    (p : SendSessionProgress) (h : SendCountsOk p) :
    SendCountsOk (sendOneItem empMap numIds sendDelay oracle idx empId p).1 ∧
      ∀ ev snap,
        SendEffect.notify ev snap ∈ (sendOneItem empMap numIds sendDelay oracle idx empId p).2 →
        snapCountsOk snap := by
  obtain ⟨hsum, hzero⟩ := h
  cases h1 : alookup empMap empId with
  | none =>
    constructor
    · simp [sendOneItem, h1, SendCountsOk, hsum, hzero]
    · simp [sendOneItem, h1]
  | some emp =>
    cases h2 : alookup p.tasks empId with
    | none =>
      constructor
      · simp [sendOneItem, h1, h2, SendCountsOk, hsum, hzero]
      · simp [sendOneItem, h1, h2]
    | some task =>
      have htz : sPoint task = 0 := sendingCount_zero_lookup hzero h2
      by_cases hp : emp.phone = ""
      · have hc := sendingCount_aset p.tasks empId
          { task with status := "failed", error := some "Không có số điện thoại" }
        rw [h2] at hc
        simp only [sPointO] at hc
        rw [htz, hzero] at hc
        have hs : sPoint { task with status := "failed", error := some "Không có số điện thoại" } = 0 := by
          simp [sPoint]
        rw [hs] at hc
        constructor
        · simp only [sendOneItem, h1, h2, hp, if_true, SendCountsOk]
          exact ⟨by omega, by omega⟩
        · intro ev snap hmem
          simp only [sendOneItem, h1, h2, hp, if_true, List.mem_cons,
            List.not_mem_nil, or_false] at hmem
          rcases hmem with hmem | hmem
          · simp at hmem
          · obtain ⟨hev, hsnap⟩ := SendEffect.notify.inj hmem.symm
            subst hsnap
            simp only [snapCountsOk]
            omega
      · by_cases hi : emp.salary_image_url = ""
        · have hc := sendingCount_aset p.tasks empId
            { task with status := "failed", error := some "Chưa tạo ảnh lương" }
          rw [h2] at hc
          simp only [sPointO] at hc
          rw [htz, hzero] at hc
          have hs : sPoint { task with status := "failed", error := some "Chưa tạo ảnh lương" } = 0 := by
            simp [sPoint]
          rw [hs] at hc
          constructor
          · simp only [sendOneItem, h1, h2, hp, hi, if_false, if_true, SendCountsOk]
            exact ⟨by omega, by omega⟩
          · intro ev snap hmem
            simp only [sendOneItem, h1, h2, hp, hi, if_false, if_true, List.mem_cons,
              List.not_mem_nil, or_false] at hmem
            rcases hmem with hmem | hmem
            · simp at hmem
            · obtain ⟨hev, hsnap⟩ := SendEffect.notify.inj hmem.symm
              subst hsnap
              simp only [snapCountsOk]
              omega
        · -- send path: mark sending, call webhook, record outcome
          have hl2 := alookup_aset_self p.tasks empId { task with status := "sending" }
          have hc2 := sendingCount_aset p.tasks empId { task with status := "sending" }
          rw [h2] at hc2
          simp only [sPointO] at hc2
          rw [htz, hzero] at hc2
          have hs2 : sPoint { task with status := "sending" } = 1 := by simp [sPoint]
          rw [hs2] at hc2
          have hc2b : sendingCount (aset p.tasks empId { task with status := "sending" }) = 1 := by
            omega
          cases h3 : oracle idx with
          | result st msg =>
            by_cases hst : st = "success"
            · have hc3 := sendingCount_aset (aset p.tasks empId { task with status := "sending" })
                empId { { task with status := "sending" } with status := "success" }
              rw [hl2] at hc3
              simp only [sPointO, hs2, hc2b] at hc3
              have hs3 : sPoint { { task with status := "sending" } with status := "success" } = 0 := by
                simp [sPoint]
              rw [hs3] at hc3
              constructor
              · simp only [sendOneItem, h1, h2, hp, hi, if_false, h3, hst, if_true, SendCountsOk]
                exact ⟨by omega, by omega⟩
              · intro ev snap hmem
                simp only [sendOneItem, h1, h2, hp, hi, if_false, h3, hst, if_true,
                  List.mem_append, List.mem_cons, List.not_mem_nil, or_false] at hmem
                rcases hmem with ((hmem | hmem | hmem) | hmem) | hmem
                · obtain ⟨hev, hsnap⟩ := SendEffect.notify.inj hmem.symm
                  subst hsnap
                  simp only [snapCountsOk]
                  omega
                · simp at hmem
                · simp at hmem
                · obtain ⟨hev, hsnap⟩ := SendEffect.notify.inj hmem.symm
                  subst hsnap
                  simp only [snapCountsOk]
                  omega
                · split at hmem <;> simp at hmem
            · have hc3 := sendingCount_aset (aset p.tasks empId { task with status := "sending" })
                empId { { task with status := "sending" } with status := "failed", error := msg }
              rw [hl2] at hc3
              simp only [sPointO, hs2, hc2b] at hc3
              have hs3 : sPoint { { task with status := "sending" } with status := "failed", error := msg } = 0 := by
                simp [sPoint]
              rw [hs3] at hc3
              constructor
              · simp only [sendOneItem, h1, h2, hp, hi, if_false, h3, hst, if_true, SendCountsOk]
                exact ⟨by omega, by omega⟩
              · intro ev snap hmem
                simp only [sendOneItem, h1, h2, hp, hi, if_false, h3, hst, if_true,
                  List.mem_append, List.mem_cons, List.not_mem_nil, or_false] at hmem
                rcases hmem with ((hmem | hmem | hmem) | hmem) | hmem
                · obtain ⟨hev, hsnap⟩ := SendEffect.notify.inj hmem.symm
                  subst hsnap
                  simp only [snapCountsOk]
                  omega
                · simp at hmem
                · simp at hmem
                · obtain ⟨hev, hsnap⟩ := SendEffect.notify.inj hmem.symm
                  subst hsnap
                  simp only [snapCountsOk]
                  omega
                · split at hmem <;> simp at hmem
          | raised msg =>
            have hc3 := sendingCount_aset (aset p.tasks empId { task with status := "sending" })
              empId { { task with status := "sending" } with status := "failed", error := some msg }
            rw [hl2] at hc3
            simp only [sPointO, hs2, hc2b] at hc3
            have hs3 : sPoint { { task with status := "sending" } with status := "failed", error := some msg } = 0 := by
              simp [sPoint]
            rw [hs3] at hc3
            constructor
            · simp only [sendOneItem, h1, h2, hp, hi, if_false, h3, SendCountsOk]
              exact ⟨by omega, by omega⟩
            · intro ev snap hmem
              simp only [sendOneItem, h1, h2, hp, hi, if_false, h3,
                List.mem_append, List.mem_cons, List.not_mem_nil, or_false] at hmem
              rcases hmem with ((hmem | hmem | hmem) | hmem) | hmem
              · obtain ⟨hev, hsnap⟩ := SendEffect.notify.inj hmem.symm
                subst hsnap
                simp only [snapCountsOk]
                omega
              · simp at hmem
              · simp at hmem
              · obtain ⟨hev, hsnap⟩ := SendEffect.notify.inj hmem.symm
                subst hsnap
                simp only [snapCountsOk]
                omega
              · split at hmem <;> simp at hmem

theorem sendLoop_counts (empMap : List (String × EmployeeRow)) (numIds : Nat)
    (sendDelay : Int) (oracle : Nat → NotifierOutcome) :
    ∀ (L : List (Nat × String)) (p : SendSessionProgress), SendCountsOk p →
      SendCountsOk (sendLoop empMap numIds sendDelay oracle L p).1 ∧
        ∀ ev snap, SendEffect.notify ev snap ∈ (sendLoop empMap numIds sendDelay oracle L p).2 →
          snapCountsOk snap
  | [], p, h => ⟨h, by simp [sendLoop]⟩
  | (idx, empId) :: rest, p, h => by
    obtain ⟨h1a, h1b⟩ := sendOneItem_counts empMap numIds sendDelay oracle idx empId p h
    obtain ⟨h2a, h2b⟩ := sendLoop_counts empMap numIds sendDelay oracle rest
      (sendOneItem empMap numIds sendDelay oracle idx empId p).1 h1a
    refine ⟨by simpa [sendLoop] using h2a, ?_⟩
    intro ev snap hmem
    simp only [sendLoop, List.mem_append] at hmem
    rcases hmem with hmem | hmem
    · exact h1b ev snap hmem
    · exact h2b ev snap hmem

theorem sPointO_nonneg (o : Option SendTask) : 0 ≤ sPointO o := by
  cases o with
  | none => simp [sPointO]
  | some t => simpa [sPointO] using sPoint_nonneg t

theorem sendingCount_buildSendTasks :
    ∀ (rows : List EmployeeRow) (ts : List (String × SendTask)),
      sendingCount ts = 0 → sendingCount (buildSendTasks rows ts) = 0
  | [], ts, h => by simpa [buildSendTasks] using h
  | r :: rest, ts, h => by
    have hps : ¬ ("pending" : String) = "sending" := by decide
    have hz : sPoint (mkSendTask r) = 0 := by simp [sPoint, mkSendTask, hps]
    have hc := sendingCount_aset ts r.id (mkSendTask r)
    have hn1 := sPointO_nonneg (alookup ts r.id)
    have hn2 := sendingCount_nonneg (aset ts r.id (mkSendTask r))
    have hone : sendingCount (aset ts r.id (mkSendTask r)) = 0 := by omega
    simpa [buildSendTasks] using
      sendingCount_buildSendTasks rest (aset ts r.id (mkSendTask r)) hone

theorem snapCountsOk_of_ok (q : SendSessionProgress) (h : SendCountsOk q) :
    snapCountsOk q := by
  obtain ⟨ha, hb⟩ := h
  simp only [snapCountsOk]
  omega

theorem snapCountsOk_of_ok_stopped (q : SendSessionProgress) (h : SendCountsOk q) :
    snapCountsOk { q with is_running := false } := by
  obtain ⟨ha, hb⟩ := h
  simp only [snapCountsOk]
  omega

/-- Count consistency of a whole `_process_batch` run of the send service,
started from the `SendSessionProgress` registered by `start_batch_send`:
every emitted snapshot and the final state satisfy
`pending + #sending + sent + failed = total`. -/

theorem sendProcessBatch_counts (batchId : String) (employeeIds : List String)
    (sendDelay : Int) (rows : List EmployeeRow) (oracle : Nat → NotifierOutcome) :
    (∀ ev snap,
        SendEffect.notify ev snap ∈
          (sendProcessBatch employeeIds sendDelay rows oracle
            (startSendProgress batchId employeeIds)).2 →
        snapCountsOk snap) ∧
      snapCountsOk (sendProcessBatch employeeIds sendDelay rows oracle
        (startSendProgress batchId employeeIds)).1 := by
  have hbuild : sendingCount (buildSendTasks rows
      (startSendProgress batchId employeeIds).tasks) = 0 := by
    apply sendingCount_buildSendTasks
    simp [startSendProgress, sendingCount]
  have hinit : SendCountsOk { startSendProgress batchId employeeIds with is_running := true, tasks := buildSendTasks rows (startSendProgress batchId employeeIds).tasks } := by
    constructor
    · simp [startSendProgress]
    · simpa using hbuild
  obtain ⟨hla, hlb⟩ := sendLoop_counts (buildEmpMap rows) employeeIds.length sendDelay oracle
    employeeIds.enum _ hinit
  constructor
  · intro ev snap hmem
    simp only [sendProcessBatch, List.mem_cons, List.mem_append, List.mem_singleton] at hmem
    rcases hmem with (hmem | hmem) | (hmem | hmem)
    · injection hmem with hev hsnap
      subst hsnap
      exact snapCountsOk_of_ok _ hinit
    · exact hlb ev snap hmem
    · injection hmem with hev hsnap
      subst hsnap
      exact snapCountsOk_of_ok_stopped _ hla
    · simp at hmem
  · exact snapCountsOk_of_ok_stopped _ hla

/-! ### Which employees a send-batch effect concerns -/

/-- The effect carries employee id `m` (a status event for `m`, a send-history
row for `m`, or a webhook call for `m`). -/

theorem sendOneItem_missing (empMap : List (String × EmployeeRow)) (numIds : Nat)
    (sendDelay : Int) (oracle : Nat → NotifierOutcome) (idx : Nat) (empId : String)
    (p : SendSessionProgress) (h : alookup empMap empId = none) :
    sendOneItem empMap numIds sendDelay oracle idx empId p = (p, []) := by
  simp [sendOneItem, h]

/-! ### Branch equations for `sendOneItem` -/

/-- State after a pre-send validation failure (missing phone / missing image). -/

theorem sendOneItem_eq_phone (empMap : List (String × EmployeeRow)) (numIds : Nat)
    (sendDelay : Int) (oracle : Nat → NotifierOutcome) (idx : Nat) (empId : String)
    (p : SendSessionProgress) (emp : EmployeeRow) (task : SendTask)
    (hemp : alookup empMap empId = some emp) (htask : alookup p.tasks empId = some task)
    (hp : emp.phone = "") :
    sendOneItem empMap numIds sendDelay oracle idx empId p =
      (afterValidationFail p empId task idx "Không có số điện thoại",
       [SendEffect.history empId "failed" (some "Không có số điện thoại"),
        SendEffect.notify (statusEvent empId emp.name "failed" (some "Không có số điện thoại") idx)
          (afterValidationFail p empId task idx "Không có số điện thoại")]) := by
  simp [sendOneItem, hemp, htask, hp, afterValidationFail, statusEvent]

theorem sendOneItem_eq_image (empMap : List (String × EmployeeRow)) (numIds : Nat)
    (sendDelay : Int) (oracle : Nat → NotifierOutcome) (idx : Nat) (empId : String)
    (p : SendSessionProgress) (emp : EmployeeRow) (task : SendTask)
    (hemp : alookup empMap empId = some emp) (htask : alookup p.tasks empId = some task)
    (hp : ¬ emp.phone = "") (hi : emp.salary_image_url = "") :
    sendOneItem empMap numIds sendDelay oracle idx empId p =
      (afterValidationFail p empId task idx "Chưa tạo ảnh lương",
       [SendEffect.history empId "failed" (some "Chưa tạo ảnh lương"),
        SendEffect.notify (statusEvent empId emp.name "failed" (some "Chưa tạo ảnh lương") idx)
          (afterValidationFail p empId task idx "Chưa tạo ảnh lương")]) := by
  simp [sendOneItem, hemp, htask, hp, hi, afterValidationFail, statusEvent]

theorem sendOneItem_eq_success (empMap : List (String × EmployeeRow)) (numIds : Nat)
    (sendDelay : Int) (oracle : Nat → NotifierOutcome) (idx : Nat) (empId : String)
    (p : SendSessionProgress) (emp : EmployeeRow) (task : SendTask) (msg : Option String)
    (hemp : alookup empMap empId = some emp) (htask : alookup p.tasks empId = some task)
    (hp : ¬ emp.phone = "") (hi : ¬ emp.salary_image_url = "")
    (hor : oracle idx = NotifierOutcome.result "success" msg) :
    sendOneItem empMap numIds sendDelay oracle idx empId p =
      (sendSuccessState (sendingMark p empId task idx) empId { task with status := "sending" },
       SendEffect.notify (statusEvent empId emp.name "sending" none idx)
           (sendingMark p empId task idx) ::
         SendEffect.webhookCall idx empId emp.phone ::
         SendEffect.history empId "success" none ::
         SendEffect.notify (statusEvent empId emp.name "success" task.error idx)
           (sendSuccessState (sendingMark p empId task idx) empId
             { task with status := "sending" }) ::
         delayTail numIds sendDelay idx) := by
  simp [sendOneItem, hemp, htask, hp, hi, hor, sendingMark, sendSuccessState, statusEvent,
    delayTail]

theorem sendOneItem_eq_failResp (empMap : List (String × EmployeeRow)) (numIds : Nat)
    (sendDelay : Int) (oracle : Nat → NotifierOutcome) (idx : Nat) (empId : String)
    (p : SendSessionProgress) (emp : EmployeeRow) (task : SendTask) (st : String)
    (msg : Option String)
    (hemp : alookup empMap empId = some emp) (htask : alookup p.tasks empId = some task)
    (hp : ¬ emp.phone = "") (hi : ¬ emp.salary_image_url = "")
    (hor : oracle idx = NotifierOutcome.result st msg) (hst : ¬ st = "success") :
    sendOneItem empMap numIds sendDelay oracle idx empId p =
      (sendFailState (sendingMark p empId task idx) empId { task with status := "sending" } msg,
       SendEffect.notify (statusEvent empId emp.name "sending" none idx)
           (sendingMark p empId task idx) ::
         SendEffect.webhookCall idx empId emp.phone ::
         SendEffect.history empId "failed" msg ::
         SendEffect.notify (statusEvent empId emp.name "failed" msg idx)
           (sendFailState (sendingMark p empId task idx) empId
             { task with status := "sending" } msg) ::
         delayTail numIds sendDelay idx) := by
  simp [sendOneItem, hemp, htask, hp, hi, hor, hst, sendingMark, sendFailState, statusEvent,
    delayTail]

theorem sendOneItem_eq_raised (empMap : List (String × EmployeeRow)) (numIds : Nat)
    (sendDelay : Int) (oracle : Nat → NotifierOutcome) (idx : Nat) (empId : String)
    (p : SendSessionProgress) (emp : EmployeeRow) (task : SendTask) (msg : String)
    (hemp : alookup empMap empId = some emp) (htask : alookup p.tasks empId = some task)
    (hp : ¬ emp.phone = "") (hi : ¬ emp.salary_image_url = "")
    (hor : oracle idx = NotifierOutcome.raised msg) :
    sendOneItem empMap numIds sendDelay oracle idx empId p =
      (sendFailState (sendingMark p empId task idx) empId { task with status := "sending" }
         (some msg),
       SendEffect.notify (statusEvent empId emp.name "sending" none idx)
           (sendingMark p empId task idx) ::
         SendEffect.webhookCall idx empId emp.phone ::
         SendEffect.history empId "failed" (some msg) ::
         SendEffect.notify (statusEvent empId emp.name "failed" (some msg) idx)
           (sendFailState (sendingMark p empId task idx) empId
             { task with status := "sending" } (some msg)) ::
         delayTail numIds sendDelay idx) := by
  simp [sendOneItem, hemp, htask, hp, hi, hor, sendingMark, sendFailState, statusEvent,
    delayTail]

theorem mentionsEmp_delayTail {m : String} {x : SendEffect} (numIds : Nat) (sendDelay : Int)
    (idx : Nat) (hx : x ∈ delayTail numIds sendDelay idx) : ¬ mentionsEmp m x := by
  unfold delayTail at hx
  split at hx
  · simp only [List.mem_singleton] at hx
    subst hx
    simp [mentionsEmp]
  · simp at hx

theorem sendOneItem_found (empMap : List (String × EmployeeRow)) (numIds : Nat)
    (sendDelay : Int) (oracle : Nat → NotifierOutcome) (idx : Nat) (empId : String)
    (p : SendSessionProgress) (emp : EmployeeRow)
    (hemp : alookup empMap empId = some emp) (task : SendTask)
    (htask : alookup p.tasks empId = some task) :
    (sendOneItem empMap numIds sendDelay oracle idx empId p).1.pending = p.pending - 1 ∧
    (sendOneItem empMap numIds sendDelay oracle idx empId p).1.sent +
        (sendOneItem empMap numIds sendDelay oracle idx empId p).1.failed =
      p.sent + p.failed + 1 ∧
    (sendOneItem empMap numIds sendDelay oracle idx empId p).1.total = p.total ∧
    (∀ id2, ¬ id2 = empId →
      alookup (sendOneItem empMap numIds sendDelay oracle idx empId p).1.tasks id2 =
        alookup p.tasks id2) ∧
    ((alookup (sendOneItem empMap numIds sendDelay oracle idx empId p).1.tasks empId).isSome) ∧
    (∀ x ∈ (sendOneItem empMap numIds sendDelay oracle idx empId p).2,
      ∀ m, mentionsEmp m x → m = empId) := by
  by_cases hp : emp.phone = ""
  · rw [sendOneItem_eq_phone empMap numIds sendDelay oracle idx empId p emp task hemp htask hp]
    refine ⟨by simp [afterValidationFail], by simp [afterValidationFail]; omega,
      by simp [afterValidationFail], ?_, ?_, ?_⟩
    · intro id2 hne
      simp only [afterValidationFail]
      exact alookup_aset_ne _ _ _ _ hne
    · simp [afterValidationFail, alookup_aset_self]
    · intro x hx m hm
      simp only [List.mem_cons, List.not_mem_nil, or_false] at hx
      rcases hx with hx | hx <;> subst hx <;>
        simp only [mentionsEmp, statusEvent, Option.some.injEq] at hm <;> exact hm.symm
  · by_cases hi : emp.salary_image_url = ""
    · rw [sendOneItem_eq_image empMap numIds sendDelay oracle idx empId p emp task hemp htask
        hp hi]
      refine ⟨by simp [afterValidationFail], by simp [afterValidationFail]; omega,
        by simp [afterValidationFail], ?_, ?_, ?_⟩
      · intro id2 hne
        simp only [afterValidationFail]
        exact alookup_aset_ne _ _ _ _ hne
      · simp [afterValidationFail, alookup_aset_self]
      · intro x hx m hm
        simp only [List.mem_cons, List.not_mem_nil, or_false] at hx
        rcases hx with hx | hx <;> subst hx <;>
          simp only [mentionsEmp, statusEvent, Option.some.injEq] at hm <;> exact hm.symm
    · cases hor : oracle idx with
      | result st msg =>
        by_cases hst : st = "success"
        · subst hst
          rw [sendOneItem_eq_success empMap numIds sendDelay oracle idx empId p emp task msg
            hemp htask hp hi hor]
          refine ⟨by simp [sendSuccessState, sendingMark],
            by simp [sendSuccessState, sendingMark]; omega,
            by simp [sendSuccessState, sendingMark], ?_, ?_, ?_⟩
          · intro id2 hne
            simp only [sendSuccessState, sendingMark]
            rw [alookup_aset_ne _ _ _ _ hne, alookup_aset_ne _ _ _ _ hne]
          · simp [sendSuccessState, sendingMark, alookup_aset_self]
          · intro x hx m hm
            simp only [List.mem_cons] at hx
            rcases hx with hx | hx | hx | hx | hx
            · subst hx
              simp only [mentionsEmp, statusEvent, Option.some.injEq] at hm
              exact hm.symm
            · subst hx
              simp only [mentionsEmp] at hm
              exact hm.symm
            · subst hx
              simp only [mentionsEmp] at hm
              exact hm.symm
            · subst hx
              simp only [mentionsEmp, statusEvent, Option.some.injEq] at hm
              exact hm.symm
            · exact absurd hm (mentionsEmp_delayTail numIds sendDelay idx hx)
        · rw [sendOneItem_eq_failResp empMap numIds sendDelay oracle idx empId p emp task st msg
            hemp htask hp hi hor hst]
          refine ⟨by simp [sendFailState, sendingMark],
            by simp [sendFailState, sendingMark]; omega,
            by simp [sendFailState, sendingMark], ?_, ?_, ?_⟩
          · intro id2 hne
            simp only [sendFailState, sendingMark]
            rw [alookup_aset_ne _ _ _ _ hne, alookup_aset_ne _ _ _ _ hne]
          · simp [sendFailState, sendingMark, alookup_aset_self]
          · intro x hx m hm
            simp only [List.mem_cons] at hx
            rcases hx with hx | hx | hx | hx | hx
            · subst hx
              simp only [mentionsEmp, statusEvent, Option.some.injEq] at hm
              exact hm.symm
            · subst hx
              simp only [mentionsEmp] at hm
              exact hm.symm
            · subst hx
              simp only [mentionsEmp] at hm
              exact hm.symm
            · subst hx
              simp only [mentionsEmp, statusEvent, Option.some.injEq] at hm
              exact hm.symm
            · exact absurd hm (mentionsEmp_delayTail numIds sendDelay idx hx)
      | raised msg =>
        rw [sendOneItem_eq_raised empMap numIds sendDelay oracle idx empId p emp task msg
          hemp htask hp hi hor]
        refine ⟨by simp [sendFailState, sendingMark],
          by simp [sendFailState, sendingMark]; omega,
          by simp [sendFailState, sendingMark], ?_, ?_, ?_⟩
        · intro id2 hne
          simp only [sendFailState, sendingMark]
          rw [alookup_aset_ne _ _ _ _ hne, alookup_aset_ne _ _ _ _ hne]
        · simp [sendFailState, sendingMark, alookup_aset_self]
        · intro x hx m hm
          simp only [List.mem_cons] at hx
          rcases hx with hx | hx | hx | hx | hx
          · subst hx
            simp only [mentionsEmp, statusEvent, Option.some.injEq] at hm
            exact hm.symm
          · subst hx
            simp only [mentionsEmp] at hm
            exact hm.symm
          · subst hx
            simp only [mentionsEmp] at hm
            exact hm.symm
          · subst hx
            simp only [mentionsEmp, statusEvent, Option.some.injEq] at hm
            exact hm.symm
          · exact absurd hm (mentionsEmp_delayTail numIds sendDelay idx hx)

/-! ### Skipped employees (bulk fetch returned no record) -/

/-- 1 when the bulk fetch returned a record for `id`, else 0. -/

theorem foundFlag_nonneg (empMap : List (String × EmployeeRow)) (id : String) :
    0 ≤ foundFlag empMap id := by
  unfold foundFlag
  split <;> omega

theorem foundFlag_le_one (empMap : List (String × EmployeeRow)) (id : String) :
    foundFlag empMap id ≤ 1 := by
  unfold foundFlag
  split <;> omega

theorem foundTotal_le_length (empMap : List (String × EmployeeRow)) :
    ∀ L : List (Nat × String), foundTotal empMap L ≤ (L.length : Int)
  | [] => by simp [foundTotal]
  | (i, id) :: rest => by
    have h1 := foundFlag_le_one empMap id
    have h2 := foundTotal_le_length empMap rest
    simp only [foundTotal, List.length_cons]
    push_cast
    omega

theorem foundTotal_missing_lt (empMap : List (String × EmployeeRow)) (m : String)
    (hm : alookup empMap m = none) :
    ∀ L : List (Nat × String), (∃ i, (i, m) ∈ L) →
      foundTotal empMap L ≤ (L.length : Int) - 1
  | [], h => by simp at h
  | (i, id) :: rest, h => by
    obtain ⟨j, hj⟩ := h
    rcases List.mem_cons.mp hj with hj | hj
    · have hmi : m = id := congrArg Prod.snd hj
      subst hmi
      have hf : foundFlag empMap m = 0 := by simp [foundFlag, hm]
      have h2 := foundTotal_le_length empMap rest
      simp only [foundTotal, hf, List.length_cons]
      push_cast
      omega
    · have h2 := foundTotal_missing_lt empMap m hm rest ⟨j, hj⟩
      have h1 := foundFlag_le_one empMap id
      simp only [foundTotal, List.length_cons]
      push_cast
      omega

theorem sendLoop_skip (empMap : List (String × EmployeeRow)) (numIds : Nat)
    (sendDelay : Int) (oracle : Nat → NotifierOutcome) (m : String)
    (hm : alookup empMap m = none) :
    ∀ (L : List (Nat × String)) (p : SendSessionProgress), TasksCover empMap p →
      (sendLoop empMap numIds sendDelay oracle L p).1.pending =
          p.pending - foundTotal empMap L ∧
      (sendLoop empMap numIds sendDelay oracle L p).1.sent +
          (sendLoop empMap numIds sendDelay oracle L p).1.failed =
        p.sent + p.failed + foundTotal empMap L ∧
      (sendLoop empMap numIds sendDelay oracle L p).1.total = p.total ∧
      alookup (sendLoop empMap numIds sendDelay oracle L p).1.tasks m = alookup p.tasks m ∧
      TasksCover empMap (sendLoop empMap numIds sendDelay oracle L p).1 ∧
      (∀ x ∈ (sendLoop empMap numIds sendDelay oracle L p).2, ¬ mentionsEmp m x)
  | [], p, hcov => by
    refine ⟨by simp [sendLoop, foundTotal], by simp [sendLoop, foundTotal], by simp [sendLoop],
      by simp [sendLoop], by simpa [sendLoop] using hcov, by simp [sendLoop]⟩
  | (idx, empId) :: rest, p, hcov => by
    cases hemp : alookup empMap empId with
    | none =>
      have hflag : foundFlag empMap empId = 0 := by simp [foundFlag, hemp]
      have heq := sendOneItem_missing empMap numIds sendDelay oracle idx empId p hemp
      have ih := sendLoop_skip empMap numIds sendDelay oracle m hm rest p hcov
      obtain ⟨ih1, ih2, ih3, ih4, ih5, ih6⟩ := ih
      refine ⟨?_, ?_, ?_, ?_, ?_, ?_⟩ <;>
        simp only [sendLoop, heq, foundTotal, hflag, List.nil_append]
      · simpa using ih1
      · simpa using ih2
      · exact ih3
      · exact ih4
      · exact ih5
      · exact ih6
    | some emp =>
      have htsk : (alookup p.tasks empId).isSome := hcov empId (by simp [hemp])
      obtain ⟨task, htask⟩ := Option.isSome_iff_exists.mp htsk
      have hflag : foundFlag empMap empId = 1 := by simp [foundFlag, hemp]
      obtain ⟨f1, f2, f3, f4, f5, f6⟩ := sendOneItem_found empMap numIds sendDelay oracle idx
        empId p emp hemp task htask
      have hmne : ¬ m = empId := by
        intro h
        subst h
        rw [hm] at hemp
        exact Option.noConfusion hemp
      have hcov2 : TasksCover empMap (sendOneItem empMap numIds sendDelay oracle idx empId p).1 := by
        intro id2 hid2
        by_cases heq2 : id2 = empId
        · subst heq2
          exact f5
        · rw [f4 id2 heq2]
          exact hcov id2 hid2
      have ih := sendLoop_skip empMap numIds sendDelay oracle m hm rest
        (sendOneItem empMap numIds sendDelay oracle idx empId p).1 hcov2
      obtain ⟨ih1, ih2, ih3, ih4, ih5, ih6⟩ := ih
      refine ⟨?_, ?_, ?_, ?_, ?_, ?_⟩ <;>
        simp only [sendLoop, foundTotal, hflag]
      · rw [ih1, f1]
        omega
      · rw [ih2, f2]
        omega
      · rw [ih3, f3]
      · rw [ih4, f4 m hmne]
      · exact ih5
      · intro x hx
        rcases List.mem_append.mp hx with hx | hx
        · intro hmx
          exact hmne (f6 x hx m hmx)
        · exact ih6 x hx

theorem foundTotal_nonneg (empMap : List (String × EmployeeRow)) :
    ∀ L : List (Nat × String), 0 ≤ foundTotal empMap L
  | [] => by simp [foundTotal]
  | (i, id) :: rest => by
    have h1 := foundFlag_nonneg empMap id
    have h2 := foundTotal_nonneg empMap rest
    simp only [foundTotal]
    omega

theorem buildMaps_cover :
    ∀ (rows : List EmployeeRow) (ms : List (String × EmployeeRow))
      (ts : List (String × SendTask)),
      (∀ id, (alookup ms id).isSome → (alookup ts id).isSome) →
      ∀ id, (alookup (rows.foldl (fun acc e => aset acc e.id e) ms) id).isSome →
        (alookup (rows.foldl (fun acc e => aset acc e.id (mkSendTask e)) ts) id).isSome
  | [], ms, ts, h, id => by simpa using h id
  | r :: rest, ms, ts, h, id => by
    simp only [List.foldl_cons]
    apply buildMaps_cover rest (aset ms r.id r) (aset ts r.id (mkSendTask r))
    intro id2 hid2
    by_cases he : id2 = r.id
    · subst he
      simp [alookup_aset_self]
    · rw [alookup_aset_ne _ _ _ _ he] at hid2
      rw [alookup_aset_ne _ _ _ _ he]
      exact h id2 hid2

theorem sendTasksCover (rows : List EmployeeRow) (batchId : String)
    (employeeIds : List String) :
    TasksCover (buildEmpMap rows) { startSendProgress batchId employeeIds with is_running := true, tasks := buildSendTasks rows (startSendProgress batchId employeeIds).tasks } := by
  intro id hid
  exact buildMaps_cover rows [] [] (by intro id2 h2; simp [alookup] at h2) id hid

theorem buildEmpMap_lookup_none :
    ∀ (rows : List EmployeeRow) (ms : List (String × EmployeeRow)) (m : String),
      alookup ms m = none → (∀ e ∈ rows, ¬ e.id = m) →
      alookup (rows.foldl (fun acc e => aset acc e.id e) ms) m = none
  | [], ms, m, hms, _ => by simpa using hms
  | r :: rest, ms, m, hms, hall => by
    simp only [List.foldl_cons]
    apply buildEmpMap_lookup_none rest (aset ms r.id r) m
    · rw [alookup_aset_ne _ _ _ _ (fun h => hall r (List.mem_cons_self _ _) (by simpa using h.symm))]
      exact hms
    · intro e he
      exact hall e (List.mem_cons_of_mem _ he)

theorem buildSendTasks_lookup_none :
    ∀ (rows : List EmployeeRow) (ts : List (String × SendTask)) (m : String),
      alookup ts m = none → (∀ e ∈ rows, ¬ e.id = m) →
      alookup (buildSendTasks rows ts) m = none
  | [], ts, m, hts, _ => by simpa [buildSendTasks] using hts
  | r :: rest, ts, m, hts, hall => by
    simp only [buildSendTasks, List.foldl_cons]
    apply buildSendTasks_lookup_none rest (aset ts r.id (mkSendTask r)) m
    · rw [alookup_aset_ne _ _ _ _ (fun h => hall r (List.mem_cons_self _ _) (by simpa using h.symm))]
      exact hts
    · intro e he
      exact hall e (List.mem_cons_of_mem _ he)

theorem exists_mem_enumFrom {α : Type} (a : α) :
    ∀ (l : List α) (n : Nat), a ∈ l → ∃ i, (i, a) ∈ List.enumFrom n l
  | [], n, h => by simp at h
  | b :: rest, n, h => by
    rcases List.mem_cons.mp h with h | h
    · subst h
      exact ⟨n, by simp [List.enumFrom]⟩
    · obtain ⟨i, hi⟩ := exists_mem_enumFrom a rest (n + 1) h
      exact ⟨i, by simp [List.enumFrom, hi]⟩

theorem sendProcessBatch_eq (employeeIds : List String) (sendDelay : Int)
    (rows : List EmployeeRow) (oracle : Nat → NotifierOutcome) (p0 : SendSessionProgress) :
    sendProcessBatch employeeIds sendDelay rows oracle p0 =
      ({ (sendLoop (buildEmpMap rows) employeeIds.length sendDelay oracle employeeIds.enum { p0 with is_running := true, tasks := buildSendTasks rows p0.tasks }).1 with is_running := false },
       SendEffect.notify { kind := "init", total := some ({ p0 with is_running := true, tasks := buildSendTasks rows p0.tasks } : SendSessionProgress).total, pending := some ({ p0 with is_running := true, tasks := buildSendTasks rows p0.tasks } : SendSessionProgress).pending } { p0 with is_running := true, tasks := buildSendTasks rows p0.tasks } ::
         (sendLoop (buildEmpMap rows) employeeIds.length sendDelay oracle employeeIds.enum { p0 with is_running := true, tasks := buildSendTasks rows p0.tasks }).2 ++
         [SendEffect.notify { kind := "complete", total := some (sendLoop (buildEmpMap rows) employeeIds.length sendDelay oracle employeeIds.enum { p0 with is_running := true, tasks := buildSendTasks rows p0.tasks }).1.total, sent := some (sendLoop (buildEmpMap rows) employeeIds.length sendDelay oracle employeeIds.enum { p0 with is_running := true, tasks := buildSendTasks rows p0.tasks }).1.sent, failed := some (sendLoop (buildEmpMap rows) employeeIds.length sendDelay oracle employeeIds.enum { p0 with is_running := true, tasks := buildSendTasks rows p0.tasks }).1.failed } { (sendLoop (buildEmpMap rows) employeeIds.length sendDelay oracle employeeIds.enum { p0 with is_running := true, tasks := buildSendTasks rows p0.tasks }).1 with is_running := false }]) := rfl

/-- C9: an employee id in the send batch input for which the bulk fetch
returned no record is skipped silently: no task entry is created for it, no
effect of the run (status event, history row, webhook call) mentions it,
`pending` is never decremented for it — so the final state has
`sent + failed < total`, a positive `pending` although `is_running` is false,
and the emitted `complete` event carries those final counts. -/

theorem sendBatch_missing_employee_skipped
    (batchId m : String) (employeeIds : List String) (sendDelay : Int)
    (rows : List EmployeeRow) (oracle : Nat → NotifierOutcome)
    (hmem : m ∈ employeeIds) (hnorow : ∀ e ∈ rows, ¬ e.id = m) :
    alookup (sendProcessBatch employeeIds sendDelay rows oracle (startSendProgress batchId employeeIds)).1.tasks m = none ∧
    (∀ x ∈ (sendProcessBatch employeeIds sendDelay rows oracle (startSendProgress batchId employeeIds)).2, ¬ mentionsEmp m x) ∧
    (sendProcessBatch employeeIds sendDelay rows oracle (startSendProgress batchId employeeIds)).1.sent + (sendProcessBatch employeeIds sendDelay rows oracle (startSendProgress batchId employeeIds)).1.failed < (sendProcessBatch employeeIds sendDelay rows oracle (startSendProgress batchId employeeIds)).1.total ∧
    0 < (sendProcessBatch employeeIds sendDelay rows oracle (startSendProgress batchId employeeIds)).1.pending ∧
    (sendProcessBatch employeeIds sendDelay rows oracle (startSendProgress batchId employeeIds)).1.is_running = false ∧
    SendEffect.notify { kind := "complete", total := some (sendProcessBatch employeeIds sendDelay rows oracle (startSendProgress batchId employeeIds)).1.total, sent := some (sendProcessBatch employeeIds sendDelay rows oracle (startSendProgress batchId employeeIds)).1.sent, failed := some (sendProcessBatch employeeIds sendDelay rows oracle (startSendProgress batchId employeeIds)).1.failed } (sendProcessBatch employeeIds sendDelay rows oracle (startSendProgress batchId employeeIds)).1 ∈ (sendProcessBatch employeeIds sendDelay rows oracle (startSendProgress batchId employeeIds)).2 := by
  have hm2 : alookup (buildEmpMap rows) m = none := by
    have h0 := buildEmpMap_lookup_none rows [] m (by simp [alookup]) hnorow
    simpa [buildEmpMap] using h0
  have hcov := sendTasksCover rows batchId employeeIds
  obtain ⟨L1, L2, L3, L4, L5, L6⟩ := sendLoop_skip (buildEmpMap rows) employeeIds.length
    sendDelay oracle m hm2 employeeIds.enum
    { startSendProgress batchId employeeIds with is_running := true, tasks := buildSendTasks rows (startSendProgress batchId employeeIds).tasks } hcov
  have hfound_le : foundTotal (buildEmpMap rows) employeeIds.enum ≤
      (employeeIds.enum.length : Int) - 1 := by
    apply foundTotal_missing_lt _ _ hm2
    obtain ⟨i, hi⟩ := exists_mem_enumFrom m employeeIds 0 hmem
    exact ⟨i, by simpa [List.enum] using hi⟩
  have hfound_nn := foundTotal_nonneg (buildEmpMap rows) employeeIds.enum
  have hlen : (employeeIds.enum.length : Int) = (employeeIds.length : Int) := by simp
  have htasksnone : alookup (buildSendTasks rows (startSendProgress batchId employeeIds).tasks)
      m = none := by
    apply buildSendTasks_lookup_none rows _ m _ hnorow
    simp [startSendProgress, alookup]
  have e1 : (sendLoop (buildEmpMap rows) employeeIds.length sendDelay oracle employeeIds.enum { startSendProgress batchId employeeIds with is_running := true, tasks := buildSendTasks rows (startSendProgress batchId employeeIds).tasks }).1.pending = (employeeIds.length : Int) - foundTotal (buildEmpMap rows) employeeIds.enum := by
    rw [L1]
    simp [startSendProgress]
  have e2 : (sendLoop (buildEmpMap rows) employeeIds.length sendDelay oracle employeeIds.enum { startSendProgress batchId employeeIds with is_running := true, tasks := buildSendTasks rows (startSendProgress batchId employeeIds).tasks }).1.sent + (sendLoop (buildEmpMap rows) employeeIds.length sendDelay oracle employeeIds.enum { startSendProgress batchId employeeIds with is_running := true, tasks := buildSendTasks rows (startSendProgress batchId employeeIds).tasks }).1.failed = foundTotal (buildEmpMap rows) employeeIds.enum := by
    rw [L2]
    simp [startSendProgress]
  have e3 : (sendLoop (buildEmpMap rows) employeeIds.length sendDelay oracle employeeIds.enum { startSendProgress batchId employeeIds with is_running := true, tasks := buildSendTasks rows (startSendProgress batchId employeeIds).tasks }).1.total = (employeeIds.length : Int) := by
    rw [L3]
    simp [startSendProgress]
  have e4 : alookup (sendLoop (buildEmpMap rows) employeeIds.length sendDelay oracle employeeIds.enum { startSendProgress batchId employeeIds with is_running := true, tasks := buildSendTasks rows (startSendProgress batchId employeeIds).tasks }).1.tasks m = none := by
    rw [L4]
    exact htasksnone
  rw [sendProcessBatch_eq]
  refine ⟨e4, ?_, ?_, ?_, rfl, ?_⟩
  · intro x hx
    rcases List.mem_append.mp hx with hx | hx
    · rcases List.mem_cons.mp hx with hx | hx
      · subst hx
        simp [mentionsEmp]
      · exact L6 x hx
    · rcases List.mem_cons.mp hx with hx | hx
      · subst hx
        simp [mentionsEmp]
      · simp at hx
  · show (sendLoop (buildEmpMap rows) employeeIds.length sendDelay oracle employeeIds.enum { startSendProgress batchId employeeIds with is_running := true, tasks := buildSendTasks rows (startSendProgress batchId employeeIds).tasks }).1.sent + (sendLoop (buildEmpMap rows) employeeIds.length sendDelay oracle employeeIds.enum { startSendProgress batchId employeeIds with is_running := true, tasks := buildSendTasks rows (startSendProgress batchId employeeIds).tasks }).1.failed < (sendLoop (buildEmpMap rows) employeeIds.length sendDelay oracle employeeIds.enum { startSendProgress batchId employeeIds with is_running := true, tasks := buildSendTasks rows (startSendProgress batchId employeeIds).tasks }).1.total
    rw [e2, e3]
    omega
  · show (0 : Int) < (sendLoop (buildEmpMap rows) employeeIds.length sendDelay oracle employeeIds.enum { startSendProgress batchId employeeIds with is_running := true, tasks := buildSendTasks rows (startSendProgress batchId employeeIds).tasks }).1.pending
    rw [e1]
    omega
  · simp

theorem sendOneItem_noTask (empMap : List (String × EmployeeRow)) (numIds : Nat)
    (sendDelay : Int) (oracle : Nat → NotifierOutcome) (idx : Nat) (empId : String)
    (p : SendSessionProgress) (emp : EmployeeRow)
    (hemp : alookup empMap empId = some emp) (htask : alookup p.tasks empId = none) :
    sendOneItem empMap numIds sendDelay oracle idx empId p = (p, []) := by
  simp [sendOneItem, hemp, htask]

theorem mem_delayTail_iff (numIds : Nat) (sendDelay : Int) (idx : Nat) (s : Int) :
    SendEffect.sleep s ∈ delayTail numIds sendDelay idx ↔
      s = sendDelay ∧ idx < numIds - 1 ∧ sendDelay > 0 := by
  unfold delayTail
  split
  · next hc =>
    simp only [List.mem_singleton, SendEffect.sleep.injEq]
    exact ⟨fun h => ⟨h, hc.1, hc.2⟩, fun h => h.1⟩
  · next hc =>
    simp only [List.not_mem_nil, false_iff]
    intro h
    exact hc ⟨h.2.1, h.2.2⟩

/-- Exactly when the inter-send sleep happens: after an item that reached the
send attempt (employee fetched, phone present, image present), when it is not
the last input item and `send_delay` is positive — independent of the webhook
outcome.  Items that fail pre-send validation, and input ids with no fetched
record, `continue` without any sleep. -/

theorem sendOneItem_sleep_iff (empMap : List (String × EmployeeRow)) (numIds : Nat)
    (sendDelay : Int) (oracle : Nat → NotifierOutcome) (idx : Nat) (empId : String)
    (p : SendSessionProgress) (s : Int) :
    SendEffect.sleep s ∈ (sendOneItem empMap numIds sendDelay oracle idx empId p).2 ↔
      (s = sendDelay ∧ sendDelay > 0 ∧ idx < numIds - 1 ∧
        ∃ emp task, alookup empMap empId = some emp ∧ alookup p.tasks empId = some task ∧
          ¬ emp.phone = "" ∧ ¬ emp.salary_image_url = "") := by
  cases hemp : alookup empMap empId with
  | none =>
    rw [sendOneItem_missing empMap numIds sendDelay oracle idx empId p hemp]
    simp only [List.not_mem_nil, false_iff]
    rintro ⟨-, -, -, emp2, task2, hemp2, -⟩
    exact Option.noConfusion hemp2
  | some emp =>
    cases htask : alookup p.tasks empId with
    | none =>
      rw [sendOneItem_noTask empMap numIds sendDelay oracle idx empId p emp hemp htask]
      simp only [List.not_mem_nil, false_iff]
      rintro ⟨-, -, -, emp2, task2, hemp2, htask2, -⟩
      exact Option.noConfusion htask2
    | some task =>
      by_cases hp : emp.phone = ""
      · rw [sendOneItem_eq_phone empMap numIds sendDelay oracle idx empId p emp task hemp
          htask hp]
        simp only [List.mem_cons, List.not_mem_nil, or_false, false_iff]
        constructor
        · intro h
          rcases h with h | h <;> exact SendEffect.noConfusion h
        · rintro ⟨-, -, -, emp2, task2, hemp2, htask2, hp2, -⟩
          injection hemp2 with he
          subst he
          exact absurd hp hp2
      · by_cases hi : emp.salary_image_url = ""
        · rw [sendOneItem_eq_image empMap numIds sendDelay oracle idx empId p emp task hemp
            htask hp hi]
          simp only [List.mem_cons, List.not_mem_nil, or_false, false_iff]
          constructor
          · intro h
            rcases h with h | h <;> exact SendEffect.noConfusion h
          · rintro ⟨-, -, -, emp2, task2, hemp2, htask2, -, hi2⟩
            injection hemp2 with he
            subst he
            exact absurd hi hi2
        · have hiff : ∀ T : List SendEffect,
              (∀ x ∈ T, ∀ s2 : Int, ¬ x = SendEffect.sleep s2) →
              (SendEffect.sleep s ∈ T ++ delayTail numIds sendDelay idx ↔
                (s = sendDelay ∧ sendDelay > 0 ∧ idx < numIds - 1 ∧
                  ∃ emp2 task2, some emp = some emp2 ∧ some task = some task2 ∧
                    ¬ emp2.phone = "" ∧ ¬ emp2.salary_image_url = "")) := by
            intro T hT
            constructor
            · intro h
              rcases List.mem_append.mp h with h | h
              · exact absurd rfl (hT _ h s)
              · obtain ⟨hs, hidx, hd⟩ := (mem_delayTail_iff numIds sendDelay idx s).mp h
                exact ⟨hs, hd, hidx, emp, task, rfl, rfl, hp, hi⟩
            · rintro ⟨hs, hd, hidx, -⟩
              apply List.mem_append.mpr
              right
              exact (mem_delayTail_iff numIds sendDelay idx s).mpr ⟨hs, hidx, hd⟩
          cases hor : oracle idx with
          | result st msg =>
            by_cases hst : st = "success"
            · subst hst
              simp only [sendOneItem_eq_success empMap numIds sendDelay oracle idx empId p emp
                task msg hemp htask hp hi hor]
              have h4 := hiff [SendEffect.notify (statusEvent empId emp.name "sending" none idx)
                  (sendingMark p empId task idx),
                SendEffect.webhookCall idx empId emp.phone,
                SendEffect.history empId "success" none,
                SendEffect.notify (statusEvent empId emp.name "success" task.error idx)
                  (sendSuccessState (sendingMark p empId task idx) empId
                    { task with status := "sending" })]
                (by
                  intro x hx s2
                  simp only [List.mem_cons, List.not_mem_nil, or_false] at hx
                  rcases hx with hx | hx | hx | hx <;> subst hx <;>
                    exact fun h => SendEffect.noConfusion h)
              simpa only [List.cons_append, List.nil_append] using h4
            · simp only [sendOneItem_eq_failResp empMap numIds sendDelay oracle idx empId p emp
                task st msg hemp htask hp hi hor hst]
              have h4 := hiff [SendEffect.notify (statusEvent empId emp.name "sending" none idx)
                  (sendingMark p empId task idx),
                SendEffect.webhookCall idx empId emp.phone,
                SendEffect.history empId "failed" msg,
                SendEffect.notify (statusEvent empId emp.name "failed" msg idx)
                  (sendFailState (sendingMark p empId task idx) empId
                    { task with status := "sending" } msg)]
                (by
                  intro x hx s2
                  simp only [List.mem_cons, List.not_mem_nil, or_false] at hx
                  rcases hx with hx | hx | hx | hx <;> subst hx <;>
                    exact fun h => SendEffect.noConfusion h)
              simpa only [List.cons_append, List.nil_append] using h4
          | raised msg =>
            simp only [sendOneItem_eq_raised empMap numIds sendDelay oracle idx empId p emp
              task msg hemp htask hp hi hor]
            have h4 := hiff [SendEffect.notify (statusEvent empId emp.name "sending" none idx)
                (sendingMark p empId task idx),
              SendEffect.webhookCall idx empId emp.phone,
              SendEffect.history empId "failed" (some msg),
              SendEffect.notify (statusEvent empId emp.name "failed" (some msg) idx)
                (sendFailState (sendingMark p empId task idx) empId
                  { task with status := "sending" } (some msg))]
              (by
                intro x hx s2
                simp only [List.mem_cons, List.not_mem_nil, or_false] at hx
                rcases hx with hx | hx | hx | hx <;> subst hx <;>
                  exact fun h => SendEffect.noConfusion h)
            simpa only [List.cons_append, List.nil_append] using h4

theorem sendLoop_no_sleep (empMap : List (String × EmployeeRow)) (numIds : Nat)
    (sendDelay : Int) (oracle : Nat → NotifierOutcome) (hd : ¬ sendDelay > 0) :
    ∀ (L : List (Nat × String)) (p : SendSessionProgress) (s : Int),
      SendEffect.sleep s ∉ (sendLoop empMap numIds sendDelay oracle L p).2
  | [], p, s => by simp [sendLoop]
  | (idx, empId) :: rest, p, s => by
    simp only [sendLoop, List.mem_append]
    rintro (h | h)
    · obtain ⟨-, hd2, -⟩ :=
        (sendOneItem_sleep_iff empMap numIds sendDelay oracle idx empId p s).mp h
      exact hd hd2
    · exact sendLoop_no_sleep empMap numIds sendDelay oracle hd rest _ s h

theorem sendProcessBatch_no_sleep (employeeIds : List String) (sendDelay : Int)
    (rows : List EmployeeRow) (oracle : Nat → NotifierOutcome) (p0 : SendSessionProgress)
    (hd : ¬ sendDelay > 0) (s : Int) :
    SendEffect.sleep s ∉ (sendProcessBatch employeeIds sendDelay rows oracle p0).2 := by
  intro h
  rw [sendProcessBatch_eq] at h
  rcases List.mem_append.mp h with h | h
  · rcases List.mem_cons.mp h with h | h
    · exact SendEffect.noConfusion h
    · exact sendLoop_no_sleep _ _ _ _ hd _ _ s h
  · rcases List.mem_cons.mp h with h | h
    · exact SendEffect.noConfusion h
    · simp at h

/-! ### Webhook retry loop lemmas -/

theorem sendNotificationLoop_step_fail (tmo : Int) (attempts : Nat → AttemptOutcome)
    (fuel start : Nat) (le : Option String) (hfail : ordinaryFailure (attempts start)) :
    sendNotificationLoop tmo attempts (fuel + 1) start le =
      sendNotificationLoop tmo attempts fuel (start + 1)
        (some (attemptErrorText tmo (attempts start))) := by
  cases hatt : attempts start with
  | httpOk body =>
    rw [hatt] at hfail
    simp [ordinaryFailure] at hfail
  | httpStat code text => simp [sendNotificationLoop, hatt]
  | timedOut => simp [sendNotificationLoop, hatt]
  | requestErr m2 => simp [sendNotificationLoop, hatt]
  | unexpectedErr m2 => simp [sendNotificationLoop, hatt]

theorem sendNotificationLoop_all_fail (tmo : Int) (attempts : Nat → AttemptOutcome) :
    ∀ (fuel start : Nat) (le : Option String),
      (∀ i, start ≤ i → i < start + (fuel + 1) → ordinaryFailure (attempts i)) →
      sendNotificationLoop tmo attempts (fuel + 1) start le =
        { status := "failed", message := some (attemptErrorText tmo (attempts (start + fuel))) }
  | 0, start, le, hall => by
    rw [sendNotificationLoop_step_fail tmo attempts 0 start le
      (hall start (Nat.le_refl _) (by omega))]
    simp [sendNotificationLoop]
  | fuel + 1, start, le, hall => by
    rw [sendNotificationLoop_step_fail tmo attempts (fuel + 1) start le
      (hall start (Nat.le_refl _) (by omega))]
    rw [sendNotificationLoop_all_fail tmo attempts fuel (start + 1) _
      (fun i h1 h2 => hall i (by omega) (by omega))]
    have harith : start + 1 + fuel = start + (fuel + 1) := by omega
    rw [harith]

/-- After its bounded retries all fail with ordinary delivery failures,
`send_notification` returns a failed `WebhookResponse` carrying the last
attempt error — it does not raise. -/

theorem sendNotificationW_all_fail (url : Option String) (tmo : Int) (rc : Nat)
    (attempts : Nat → AttemptOutcome) (hrc : 0 < rc) (hcfg : ¬ url.getD "" = "")
    (hall : ∀ i, i < rc → ordinaryFailure (attempts i)) :
    sendNotificationW url tmo rc attempts =
      { status := "failed", message := some (attemptErrorText tmo (attempts (rc - 1))) } := by
  unfold sendNotificationW
  rw [if_neg hcfg]
  obtain ⟨f, rfl⟩ : ∃ f, rc = f + 1 := ⟨rc - 1, by omega⟩
  rw [sendNotificationLoop_all_fail tmo attempts f 0 none (fun i h1 h2 => hall i (by omega))]
  have harith : 0 + f = f + 1 - 1 := by omega
  rw [harith]

theorem sendNotificationLoop_congr (tmo : Int) (a1 a2 : Nat → AttemptOutcome) :
    ∀ (fuel start : Nat) (le : Option String),
      (∀ i, start ≤ i → i < start + fuel → a1 i = a2 i) →
      sendNotificationLoop tmo a1 fuel start le = sendNotificationLoop tmo a2 fuel start le
  | 0, start, le, _ => rfl
  | fuel + 1, start, le, h => by
    have h0 : a2 start = a1 start := (h start (Nat.le_refl _) (by omega)).symm
    cases hatt : a1 start with
    | httpOk body => cases body <;> simp [sendNotificationLoop, hatt, h0]
    | httpStat code text =>
      simp only [sendNotificationLoop, hatt, h0]
      exact sendNotificationLoop_congr tmo a1 a2 fuel (start + 1) _
        (fun i h1 h2 => h i (by omega) (by omega))
    | timedOut =>
      simp only [sendNotificationLoop, hatt, h0]
      exact sendNotificationLoop_congr tmo a1 a2 fuel (start + 1) _
        (fun i h1 h2 => h i (by omega) (by omega))
    | requestErr m2 =>
      simp only [sendNotificationLoop, hatt, h0]
      exact sendNotificationLoop_congr tmo a1 a2 fuel (start + 1) _
        (fun i h1 h2 => h i (by omega) (by omega))
    | unexpectedErr m2 =>
      simp only [sendNotificationLoop, hatt, h0]
      exact sendNotificationLoop_congr tmo a1 a2 fuel (start + 1) _
        (fun i h1 h2 => h i (by omega) (by omega))

/-- `send_notification` consults only the first `retry_count` attempts: the
retry loop is bounded. -/

theorem sendNotificationW_congr (url : Option String) (tmo : Int) (rc : Nat)
    (a1 a2 : Nat → AttemptOutcome) (h : ∀ i, i < rc → a1 i = a2 i) :
    sendNotificationW url tmo rc a1 = sendNotificationW url tmo rc a2 := by
  unfold sendNotificationW
  split
  · rfl
  · exact sendNotificationLoop_congr tmo a1 a2 rc 0 none (fun i h1 h2 => h i (by omega))

/-- A raised exception from the notifier call is caught per item: the task is
failed with the exception text, a send-history row and a status event are
produced, counts advance, and the loop definitionally continues with the
remaining items from the updated state. -/

theorem sendOneItem_raise_handled (empMap : List (String × EmployeeRow)) (numIds : Nat)
    (sendDelay : Int) (oracle : Nat → NotifierOutcome) (idx : Nat) (empId : String)
    (p : SendSessionProgress) (emp : EmployeeRow) (task : SendTask) (msg : String)
    (hemp : alookup empMap empId = some emp) (htask : alookup p.tasks empId = some task)
    (hp : ¬ emp.phone = "") (hi : ¬ emp.salary_image_url = "")
    (hor : oracle idx = NotifierOutcome.raised msg) :
    alookup (sendOneItem empMap numIds sendDelay oracle idx empId p).1.tasks empId =
      some { task with status := "failed", error := some msg } ∧
    SendEffect.history empId "failed" (some msg) ∈
      (sendOneItem empMap numIds sendDelay oracle idx empId p).2 ∧
    SendEffect.notify (statusEvent empId emp.name "failed" (some msg) idx)
        (sendFailState (sendingMark p empId task idx) empId { task with status := "sending" }
          (some msg)) ∈
      (sendOneItem empMap numIds sendDelay oracle idx empId p).2 ∧
    (sendOneItem empMap numIds sendDelay oracle idx empId p).1.failed = p.failed + 1 ∧
    (sendOneItem empMap numIds sendDelay oracle idx empId p).1.sent = p.sent := by
  rw [sendOneItem_eq_raised empMap numIds sendDelay oracle idx empId p emp task msg
    hemp htask hp hi hor]
  refine ⟨?_, ?_, ?_, ?_, ?_⟩
  · show alookup (sendFailState (sendingMark p empId task idx) empId
      { task with status := "sending" } (some msg)).tasks empId = _
    simp only [sendFailState, sendingMark]
    rw [alookup_aset_self]
  · simp
  · simp
  · simp [sendFailState, sendingMark]
  · simp [sendFailState, sendingMark]

/-- The send loop always continues with the remaining items from the updated
state — an item outcome (including a raised notifier exception) never aborts
the loop. -/

theorem sendLoop_cons_eq (empMap : List (String × EmployeeRow)) (numIds : Nat)
    (sendDelay : Int) (oracle : Nat → NotifierOutcome) (idx : Nat) (empId : String)
    (rest : List (Nat × String)) (p : SendSessionProgress) :
    sendLoop empMap numIds sendDelay oracle ((idx, empId) :: rest) p =
      ((sendLoop empMap numIds sendDelay oracle rest
          (sendOneItem empMap numIds sendDelay oracle idx empId p).1).1,
       (sendOneItem empMap numIds sendDelay oracle idx empId p).2 ++
         (sendLoop empMap numIds sendDelay oracle rest
           (sendOneItem empMap numIds sendDelay oracle idx empId p).1).2) := rfl

/-! ## Image generation service data model (`background_image_service.py`) -/

/-- `ImageTask` dataclass (the `created_at` timestamp is not modelled). -/

theorem genSnapshotOf_sum (p : SessionProgress) (r : Option Bool) :
    genSnapSum (genSnapshotOf p r) := by
  simp only [genSnapSum, genSnapshotOf]
  ring

/-- Every `notify` effect in the trace carries a consistent snapshot. -/

theorem goodGen_nil : GoodGenTrace [] := by
  intro k ev snap h
  simp at h

theorem goodGen_append {T1 T2 : List GenEffect} (h1 : GoodGenTrace T1)
    (h2 : GoodGenTrace T2) : GoodGenTrace (T1 ++ T2) := by
  intro k ev snap h
  rcases List.mem_append.mp h with h | h
  · exact h1 k ev snap h
  · exact h2 k ev snap h

theorem goodGen_foldP {α : Type} (f : α → SessionProgress → SessionProgress × List GenEffect)
    (hf : ∀ a p, GoodGenTrace (f a p).2) :
    ∀ (L : List α) (p : SessionProgress), GoodGenTrace (foldP f L p).2
  | [], p => goodGen_nil
  | a :: rest, p => by
    simp only [foldP]
    exact goodGen_append (hf a p) (goodGen_foldP f hf rest _)

theorem failNoCodeP_good (sessionKey : String) (e : EmpInput) (p : SessionProgress) :
    GoodGenTrace (failNoCodeP sessionKey e p).2 := by
  intro k ev snap h
  unfold failNoCodeP at h
  split at h
  · split at h
    · simp at h
    · simp only [List.mem_cons, List.not_mem_nil, or_false] at h
      rcases h with h | h
      · exact GenEffect.noConfusion h
      · injection h with h1 h2 h3
        subst h3
        exact genSnapshotOf_sum _ _
  · simp at h

theorem markProcessingP_good (sessionKey : String) (codeToEmp : List (String × EmpInput))
    (code : String) (p : SessionProgress) :
    GoodGenTrace (markProcessingP sessionKey codeToEmp code p).2 := by
  intro k ev snap h
  unfold markProcessingP at h
  split at h
  · simp at h
  · split at h
    · simp at h
    · simp only [List.mem_cons, List.not_mem_nil, or_false] at h
      rcases h with h | h
      · exact GenEffect.noConfusion h
      · injection h with h1 h2 h3
        subst h3
        exact genSnapshotOf_sum _ _

theorem onResultP_good (current : Option String) (sessionKey : String)
    (codeToEmp : List (String × EmpInput)) (cr : String × BatchResult)
    (p : SessionProgress) :
    GoodGenTrace (onResultP current sessionKey codeToEmp cr p).2 := by
  intro k ev snap h
  unfold onResultP at h
  split at h
  · simp at h
  · split at h
    · simp at h
    · split at h
      · simp at h
      · split at h
        · simp at h
        · split at h
          · simp only [List.mem_cons, List.not_mem_nil, or_false] at h
            rcases h with h | h
            · exact GenEffect.noConfusion h
            · injection h with h1 h2 h3
              subst h3
              exact genSnapshotOf_sum _ _
          · simp only [List.mem_cons, List.not_mem_nil, or_false] at h
            rcases h with h | h
            · exact GenEffect.noConfusion h
            · injection h with h1 h2 h3
              subst h3
              exact genSnapshotOf_sum _ _

theorem bulkFailP_good (err : String) (codeToEmp : List (String × EmpInput))
    (code : String) (p : SessionProgress) :
    GoodGenTrace (bulkFailP err codeToEmp code p).2 := by
  intro k ev snap h
  unfold bulkFailP at h
  split at h
  · simp at h
  · split at h
    · simp at h
    · split at h
      · simp only [List.mem_singleton] at h
        exact GenEffect.noConfusion h
      · simp at h

theorem genRaiseTrace_good (codeToEmp : List (String × EmpInput))
    (validCodes : List String) (raises : Option String) (p : SessionProgress) :
    GoodGenTrace
      (match raises with
        | none => (p, ([] : List GenEffect))
        | some err => foldP (bulkFailP err codeToEmp) validCodes p).2 := by
  cases raises with
  | none => exact goodGen_nil
  | some err => exact goodGen_foldP _ (bulkFailP_good err codeToEmp) validCodes p

theorem goodGen_singleton_notify (k0 : String) (ev : GenEventData) (p : SessionProgress)
    (r : Option Bool) : GoodGenTrace [GenEffect.notify k0 ev (genSnapshotOf p r)] := by
  intro k ev2 snap h
  simp only [List.mem_singleton] at h
  injection h with h1 h2 h3
  subst h3
  exact genSnapshotOf_sum _ _

theorem goodGen_singleton_convert (path : String) (codes : List String) :
    GoodGenTrace [GenEffect.convertCall path codes] := by
  intro k ev snap h
  simp only [List.mem_singleton] at h
  exact GenEffect.noConfusion h

/-- Every snapshot emitted during a `_process_batch` run of the generation
service satisfies `pending + processing + completed + failed = total`. -/

theorem genProcessBatchP_good (current : Option String) (sessionKey excelFilePath : String)
    (employees : List EmpInput) (conv : ConvBehavior) (p : SessionProgress) :
    GoodGenTrace (genProcessBatchP current sessionKey excelFilePath employees conv p).2.1 := by
  unfold genProcessBatchP
  dsimp only
  split
  · exact goodGen_nil
  · split
    · exact goodGen_append
        (goodGen_foldP _ (failNoCodeP_good sessionKey) employees _)
        (goodGen_singleton_notify sessionKey _ _ none)
    · split
      · refine goodGen_append (goodGen_append (goodGen_append (goodGen_append (goodGen_append
          ?_ ?_) ?_) ?_) ?_) ?_
        · exact goodGen_foldP _ (failNoCodeP_good sessionKey) employees _
        · exact goodGen_foldP _ (markProcessingP_good sessionKey _) _ _
        · exact goodGen_singleton_convert excelFilePath _
        · exact goodGen_foldP _ (onResultP_good current sessionKey _) _ _
        · exact genRaiseTrace_good _ _ conv.raises _
        · exact goodGen_singleton_notify sessionKey _ _ none
      · refine goodGen_append (goodGen_append (goodGen_append (goodGen_append
          ?_ ?_) ?_) ?_) ?_
        · exact goodGen_foldP _ (failNoCodeP_good sessionKey) employees _
        · exact goodGen_foldP _ (markProcessingP_good sessionKey _) _ _
        · exact goodGen_singleton_convert excelFilePath _
        · exact goodGen_foldP _ (onResultP_good current sessionKey _) _ _
        · exact genRaiseTrace_good _ _ conv.raises _

/-- Snapshots offered by `get_progress` are consistent too. -/

theorem genGetProgress_sum (svc : GenService) (sessionKey : String) (snap : GenSnapshot)
    (h : genGetProgress svc sessionKey = some snap) : genSnapSum snap := by
  unfold genGetProgress at h
  split at h
  · exact Option.noConfusion h
  · split at h
    · exact Option.noConfusion h
    · injection h with h1
      subst h1
      exact genSnapshotOf_sum _ _

/-- C3 (amended): for a generation batch with no eligible items, the run
emits nothing at all — in particular no `complete` event — whenever the batch
is cancelled or superseded (the code returns before the no-eligible branch),
and emits the final `complete` exactly when it is uncancelled and still
current. -/

theorem generation_no_eligible_complete_amended (current : Option String)
    (sessionKey excelFilePath : String) (employees : List EmpInput) (conv : ConvBehavior)
    (p : SessionProgress) (hnoelig : genValidCodes employees = []) :
    ((p.cancelled = true ∨ ¬ current = some sessionKey) →
      (genProcessBatchP current sessionKey excelFilePath employees conv p).2.1 = []) ∧
    (p.cancelled = false → current = some sessionKey →
      ∃ ev snap,
        GenEffect.notify sessionKey ev snap ∈
          (genProcessBatchP current sessionKey excelFilePath employees conv p).2.1 ∧
        ev.kind = "complete") := by
  constructor
  · intro h
    unfold genProcessBatchP
    dsimp only
    rw [if_pos h]
  · intro hc hcur
    unfold genProcessBatchP
    dsimp only
    rw [if_neg (by simp [hc, hcur]), if_pos hnoelig]
    exact ⟨_, _, List.mem_append.mpr (Or.inr (List.mem_singleton.mpr rfl)), rfl⟩

/-- C3 (counterexample): a batch that is still current but cancelled, with no
eligible items, emits no `complete` event — its run trace is empty — contrary
to the claim that `complete` still fires for a cancelled-but-current batch. -/

theorem generation_no_eligible_counterexample :
    (cancelAllRunning (startGeneration emptyGenService "s"
      [⟨"e1", "", "Alice"⟩])).currentSessionKey = some "s" ∧
    (∃ p, alookup (cancelAllRunning (startGeneration emptyGenService "s"
        [⟨"e1", "", "Alice"⟩])).heap 0 = some p ∧ p.cancelled = true) ∧
    genValidCodes [⟨"e1", "", "Alice"⟩] = [] ∧
    (genProcessBatch (cancelAllRunning (startGeneration emptyGenService "s"
        [⟨"e1", "", "Alice"⟩])) "s" "f.xlsx" [⟨"e1", "", "Alice"⟩]
      ⟨[], none⟩).2 = [] := by
  refine ⟨rfl, ⟨_, rfl, rfl⟩, rfl, rfl⟩

/-! ### Generic fold lemmas for the per-step functions -/

theorem foldP_frame {α : Type} (f : α → SessionProgress → SessionProgress × List GenEffect)
    (P : SessionProgress → Prop) :
    ∀ L : List α, (∀ a ∈ L, ∀ p, P p → P ((f a p).1)) →
      ∀ p, P p → P ((foldP f L p).1)
  | [], _, p, hp => by simpa [foldP] using hp
  | a :: rest, h, p, hp => by
    simp only [foldP]
    exact foldP_frame f P rest (fun b hb => h b (List.mem_cons_of_mem _ hb)) _
      (h a (List.mem_cons_self _ _) p hp)

theorem foldP_hit {α : Type} [DecidableEq α]
    (f : α → SessionProgress → SessionProgress × List GenEffect)
    (a : α) (Pre Post : SessionProgress → Prop) :
    ∀ L : List α, L.Nodup → a ∈ L →
      (∀ b ∈ L, ¬ b = a → ∀ p, Pre p → Pre ((f b p).1)) →
      (∀ b ∈ L, ¬ b = a → ∀ p, Post p → Post ((f b p).1)) →
      (∀ p, Pre p → Post ((f a p).1)) →
      ∀ p, Pre p → Post ((foldP f L p).1)
  | [], _, ha, _, _, _, _, _ => by simp at ha
  | b :: rest, hnd, ha, hpre, hpost, hhit, p, hp => by
    simp only [foldP]
    rcases List.mem_cons.mp ha with hab | ha2
    · subst hab
      have hnotin : a ∉ rest := (List.nodup_cons.mp hnd).1
      exact foldP_frame f Post rest
        (fun c hc => hpost c (List.mem_cons_of_mem _ hc)
          (fun hcb => hnotin (hcb ▸ hc)))
        _ (hhit p hp)
    · have hba : ¬ b = a := by
        intro hba
        subst hba
        exact (List.nodup_cons.mp hnd).1 ha2
      exact foldP_hit f a Pre Post rest (List.nodup_cons.mp hnd).2 ha2
        (fun c hc => hpre c (List.mem_cons_of_mem _ hc))
        (fun c hc => hpost c (List.mem_cons_of_mem _ hc))
        hhit _ (hpre b (List.mem_cons_self _ _) hba p hp)

theorem foldP_exists_effect {α : Type} [DecidableEq α]
    (f : α → SessionProgress → SessionProgress × List GenEffect)
    (a : α) (Pre : SessionProgress → Prop) (Q : GenEffect → Prop) :
    ∀ L : List α, L.Nodup → a ∈ L →
      (∀ b ∈ L, ¬ b = a → ∀ p, Pre p → Pre ((f b p).1)) →
      (∀ p, Pre p → ∃ x ∈ (f a p).2, Q x) →
      ∀ p, Pre p → ∃ x ∈ (foldP f L p).2, Q x
  | [], _, ha, _, _, _, _ => by simp at ha
  | b :: rest, hnd, ha, hpre, hhit, p, hp => by
    simp only [foldP]
    rcases List.mem_cons.mp ha with hab | ha2
    · subst hab
      obtain ⟨x, hx, hq⟩ := hhit p hp
      exact ⟨x, List.mem_append.mpr (Or.inl hx), hq⟩
    · have hba : ¬ b = a := by
        intro hba
        subst hba
        exact (List.nodup_cons.mp hnd).1 ha2
      obtain ⟨x, hx, hq⟩ := foldP_exists_effect f a Pre Q rest
        (List.nodup_cons.mp hnd).2 ha2
        (fun c hc => hpre c (List.mem_cons_of_mem _ hc)) hhit _
        (hpre b (List.mem_cons_self _ _) hba p hp)
      exact ⟨x, List.mem_append.mpr (Or.inr hx), hq⟩

/-! ### Per-step frame lemmas -/

theorem failNoCodeP_frame (key : String) (b : EmpInput) (p : SessionProgress) (tid : String)
    (hne : ¬ b.id = tid) :
    alookup (failNoCodeP key b p).1.tasks tid = alookup p.tasks tid := by
  unfold failNoCodeP
  split
  · split
    · rfl
    · exact alookup_aset_ne _ _ _ _ (fun h => hne h.symm) |>.symm ▸ rfl
  · rfl

theorem markProcessingP_frame (key : String) (m : List (String × EmpInput)) (c : String)
    (p : SessionProgress) (tid : String)
    (h : ∀ emp, alookup m c = some emp → ¬ emp.id = tid) :
    alookup (markProcessingP key m c p).1.tasks tid = alookup p.tasks tid := by
  unfold markProcessingP
  split
  · rfl
  · next emp hemp =>
    split
    · rfl
    · exact alookup_aset_ne _ _ _ _ (fun h2 => h emp hemp h2.symm)

theorem onResultP_frame (current : Option String) (key : String)
    (m : List (String × EmpInput)) (cr : String × BatchResult) (p : SessionProgress)
    (tid : String) (h : ∀ emp, alookup m cr.1 = some emp → ¬ emp.id = tid) :
    alookup (onResultP current key m cr p).1.tasks tid = alookup p.tasks tid := by
  unfold onResultP
  split
  · rfl
  · split
    · rfl
    · split
      · rfl
      · next emp hemp =>
        split
        · rfl
        · split
          · exact alookup_aset_ne _ _ _ _ (fun h2 => h emp hemp h2.symm)
          · exact alookup_aset_ne _ _ _ _ (fun h2 => h emp hemp h2.symm)

theorem bulkFailP_frame (err : String) (m : List (String × EmpInput)) (c : String)
    (p : SessionProgress) (tid : String)
    (h : ∀ emp, alookup m c = some emp → ¬ emp.id = tid) :
    alookup (bulkFailP err m c p).1.tasks tid = alookup p.tasks tid := by
  unfold bulkFailP
  split
  · rfl
  · next emp hemp =>
    split
    · rfl
    · split
      · exact alookup_aset_ne _ _ _ _ (fun h2 => h emp hemp h2.symm)
      · rfl

theorem failNoCodeP_cancelled (key : String) (b : EmpInput) (p : SessionProgress) :
    (failNoCodeP key b p).1.cancelled = p.cancelled := by
  unfold failNoCodeP
  split
  · split <;> rfl
  · rfl

theorem markProcessingP_cancelled (key : String) (m : List (String × EmpInput)) (c : String)
    (p : SessionProgress) :
    (markProcessingP key m c p).1.cancelled = p.cancelled := by
  unfold markProcessingP
  split
  · rfl
  · split <;> rfl

theorem onResultP_cancelled (current : Option String) (key : String)
    (m : List (String × EmpInput)) (cr : String × BatchResult) (p : SessionProgress) :
    (onResultP current key m cr p).1.cancelled = p.cancelled := by
  unfold onResultP
  split
  · rfl
  · split
    · rfl
    · split
      · rfl
      · split
        · rfl
        · split <;> rfl

theorem bulkFailP_cancelled (err : String) (m : List (String × EmpInput)) (c : String)
    (p : SessionProgress) :
    (bulkFailP err m c p).1.cancelled = p.cancelled := by
  unfold bulkFailP
  split
  · rfl
  · split
    · rfl
    · split <;> rfl

/-! ### Registration-map lemmas (generation) -/

theorem fold_buildGenTasks_frame :
    ∀ (emps : List EmpInput) (acc : List (String × ImageTask)) (tid : String),
      (∀ e ∈ emps, ¬ e.id = tid) →
      alookup (emps.foldl (fun ts e => aset ts e.id (mkImageTask e)) acc) tid =
        alookup acc tid
  | [], acc, tid, _ => rfl
  | e :: rest, acc, tid, h => by
    simp only [List.foldl_cons]
    rw [fold_buildGenTasks_frame rest _ tid (fun b hb => h b (List.mem_cons_of_mem _ hb))]
    exact alookup_aset_ne _ _ _ _ (fun h2 => h e (List.mem_cons_self _ _) h2.symm)

theorem nodup_map_ne {α β : Type} (f : α → β) :
    ∀ {l : List α}, (l.map f).Nodup →
      ∀ x ∈ l, ∀ y ∈ l, ¬ x = y → ¬ f x = f y := by
  intro l hnd x hx y hy hxy hfxy
  induction l with
  | nil => simp at hx
  | cons b rest ih =>
    simp only [List.map_cons, List.nodup_cons] at hnd
    rcases List.mem_cons.mp hx with hx2 | hx2 <;> rcases List.mem_cons.mp hy with hy2 | hy2
    · exact hxy (hx2.trans hy2.symm)
    · subst hx2
      exact hnd.1 (hfxy ▸ List.mem_map_of_mem f hy2)
    · subst hy2
      exact hnd.1 (hfxy.symm ▸ List.mem_map_of_mem f hx2)
    · exact ih hnd.2 hx2 hy2
  

theorem buildGenTasks_lookup (employees : List EmpInput)
    (hids : (employees.map (fun e => e.id)).Nodup) :
    ∀ e ∈ employees, alookup (buildGenTasks employees) e.id = some (mkImageTask e) := by
  unfold buildGenTasks
  suffices h : ∀ (emps : List EmpInput) (acc : List (String × ImageTask)),
      (emps.map (fun e => e.id)).Nodup →
      ∀ e ∈ emps,
        alookup (emps.foldl (fun ts e2 => aset ts e2.id (mkImageTask e2)) acc) e.id =
          some (mkImageTask e) by
    exact fun e he => h employees [] hids e he
  intro emps
  induction emps with
  | nil => intro acc _ e he; simp at he
  | cons b rest ih =>
    intro acc hnd e he
    simp only [List.map_cons, List.nodup_cons] at hnd
    simp only [List.foldl_cons]
    rcases List.mem_cons.mp he with he2 | he2
    · subst he2
      rw [fold_buildGenTasks_frame rest _ e.id
        (fun b2 hb2 h2 => hnd.1 (h2 ▸ List.mem_map_of_mem _ hb2))]
      exact alookup_aset_self _ _ _
    · exact ih (aset acc b.id (mkImageTask b)) hnd.2 e he2

theorem buildCodeToEmp_mem_values :
    ∀ (emps : List EmpInput) (acc : List (String × EmpInput)) (kv : String × EmpInput),
      kv ∈ emps.foldl
        (fun m e => if e.employee_code = "" then m else aset m e.employee_code e) acc →
      kv ∈ acc ∨ (kv.2 ∈ emps ∧ kv.2.employee_code = kv.1 ∧ ¬ kv.1 = "")
  | [], acc, kv, h => Or.inl h
  | e :: rest, acc, kv, h => by
    simp only [List.foldl_cons] at h
    by_cases hc : e.employee_code = ""
    · rw [if_pos hc] at h
      rcases buildCodeToEmp_mem_values rest acc kv h with h2 | h2
      · exact Or.inl h2
      · exact Or.inr ⟨List.mem_cons_of_mem _ h2.1, h2.2⟩
    · rw [if_neg hc] at h
      rcases buildCodeToEmp_mem_values rest _ kv h with h2 | h2
      · rcases mem_aset h2 with h3 | h3
        · subst h3
          exact Or.inr ⟨List.mem_cons_self _ _, rfl, hc⟩
        · exact Or.inl h3
      · exact Or.inr ⟨List.mem_cons_of_mem _ h2.1, h2.2⟩

theorem buildCodeToEmp_values (employees : List EmpInput) (c : String) (emp : EmpInput)
    (h : alookup (buildCodeToEmp employees) c = some emp) :
    emp ∈ employees ∧ emp.employee_code = c ∧ ¬ c = "" := by
  have hm := alookup_mem h
  rcases buildCodeToEmp_mem_values employees [] (c, emp) hm with h2 | h2
  · simp at h2
  · exact h2

theorem fold_buildCodeToEmp_frame :
    ∀ (emps : List EmpInput) (acc : List (String × EmpInput)) (c : String),
      (∀ e ∈ emps, ¬ e.employee_code = "" → ¬ e.employee_code = c) →
      alookup (emps.foldl
        (fun m e => if e.employee_code = "" then m else aset m e.employee_code e) acc) c =
        alookup acc c
  | [], acc, c, _ => rfl
  | e :: rest, acc, c, h => by
    simp only [List.foldl_cons]
    by_cases hc : e.employee_code = ""
    · rw [if_pos hc]
      exact fold_buildCodeToEmp_frame rest acc c
        (fun b hb => h b (List.mem_cons_of_mem _ hb))
    · rw [if_neg hc]
      rw [fold_buildCodeToEmp_frame rest _ c (fun b hb => h b (List.mem_cons_of_mem _ hb))]
      exact alookup_aset_ne _ _ _ _
        (fun h2 => h e (List.mem_cons_self _ _) hc h2.symm)

theorem mem_genValidCodes (employees : List EmpInput) (e : EmpInput) (he : e ∈ employees)
    (hc : ¬ e.employee_code = "") : e.employee_code ∈ genValidCodes employees := by
  unfold genValidCodes
  exact List.mem_map_of_mem _ (List.mem_filter.mpr ⟨he, by simpa using hc⟩)

theorem buildCodeToEmp_self (employees : List EmpInput)
    (hcodes : (genValidCodes employees).Nodup) :
    ∀ e ∈ employees, ¬ e.employee_code = "" →
      alookup (buildCodeToEmp employees) e.employee_code = some e := by
  unfold buildCodeToEmp
  suffices h : ∀ (emps : List EmpInput) (acc : List (String × EmpInput)),
      ((emps.filter (fun e => ¬ e.employee_code = "")).map
        (fun e => e.employee_code)).Nodup →
      ∀ e ∈ emps, ¬ e.employee_code = "" →
        alookup (emps.foldl
          (fun m e2 => if e2.employee_code = "" then m else aset m e2.employee_code e2) acc)
          e.employee_code = some e by
    exact fun e he hc => h employees [] hcodes e he hc
  intro emps
  induction emps with
  | nil => intro acc _ e he; simp at he
  | cons b rest ih =>
    intro acc hnd e he hc
    simp only [List.foldl_cons]
    rcases List.mem_cons.mp he with he2 | he2
    · subst he2
      rw [if_neg hc]
      have hnd2 : e.employee_code ∉
          ((rest.filter (fun e2 => ¬ e2.employee_code = "")).map
            (fun e2 => e2.employee_code)) := by
        have : (e :: rest).filter (fun e2 => ¬ e2.employee_code = "") =
            e :: rest.filter (fun e2 => ¬ e2.employee_code = "") := by
          simp [List.filter_cons, hc]
        rw [this] at hnd
        simp only [List.map_cons, List.nodup_cons] at hnd
        exact hnd.1
      rw [fold_buildCodeToEmp_frame rest _ e.employee_code ?_]
      · exact alookup_aset_self _ _ _
      · intro b2 hb2 hbc2 hbe2
        exact hnd2 (hbe2 ▸ List.mem_map_of_mem _
          (List.mem_filter.mpr ⟨hb2, by simpa using hbc2⟩))
    · have hnd2 : ((rest.filter (fun e2 => ¬ e2.employee_code = "")).map
          (fun e2 => e2.employee_code)).Nodup := by
        by_cases hbc : b.employee_code = ""
        · have : (b :: rest).filter (fun e2 => ¬ e2.employee_code = "") =
              rest.filter (fun e2 => ¬ e2.employee_code = "") := by
            simp [List.filter_cons, hbc]
          rwa [this] at hnd
        · have : (b :: rest).filter (fun e2 => ¬ e2.employee_code = "") =
              b :: rest.filter (fun e2 => ¬ e2.employee_code = "") := by
            simp [List.filter_cons, hbc]
          rw [this] at hnd
          simp only [List.map_cons, List.nodup_cons] at hnd
          exact hnd.2
      by_cases hbc : b.employee_code = ""
      · rw [if_pos hbc]
        exact ih acc hnd2 e he2 hc
      · rw [if_neg hbc]
        exact ih _ hnd2 e he2 hc

/-! ### Run-level tracking lemmas for a generation batch -/

/-- The task value of an employee without a code after the immediate-failure
loop. -/

theorem gen_trace_split (key eid : String) (L1 L2 L3 L4 L5 : List GenEffect)
    (x d : GenEffect) (hd : d ∈ L1)
    (hn : ∃ ev snap, GenEffect.notify key ev snap ∈ L1 ∧ ev.employee_id = some eid ∧
      ev.status = some "failed" ∧ ev.error = some "Employee code is required") :
    ∃ pre post, L1 ++ L2 ++ [x] ++ L3 ++ L4 ++ L5 = pre ++ x :: post ∧ d ∈ pre ∧
      (∃ ev snap, GenEffect.notify key ev snap ∈ pre ∧ ev.employee_id = some eid ∧
        ev.status = some "failed" ∧ ev.error = some "Employee code is required") := by
  obtain ⟨ev, snap, hmem, h1, h2, h3⟩ := hn
  exact ⟨L1 ++ L2, L3 ++ L4 ++ L5, by simp [List.append_assoc],
    List.mem_append.mpr (Or.inl hd),
    ev, snap, List.mem_append.mpr (Or.inl hmem), h1, h2, h3⟩

theorem genRun_missing_code (key path : String)
    (employees : List EmpInput) (conv : ConvBehavior)
    (hids : (employees.map (fun e => e.id)).Nodup)
    (e : EmpInput) (he : e ∈ employees) (hcode : e.employee_code = "")
    (hvne : ¬ genValidCodes employees = []) :
    alookup (genProcessBatchP (some key) key path employees conv
        (mkSessionProgress key employees)).1.tasks e.id = some (codeFailTask e) ∧
    (∃ pre post,
      (genProcessBatchP (some key) key path employees conv
        (mkSessionProgress key employees)).2.1 =
        pre ++ GenEffect.convertCall path (genValidCodes employees) :: post ∧
      GenEffect.dbStatus e.id "failed" (some "Employee code is required") ∈ pre ∧
      (∃ ev snap, GenEffect.notify key ev snap ∈ pre ∧ ev.employee_id = some e.id ∧
        ev.status = some "failed" ∧ ev.error = some "Employee code is required")) := by
  have hnd : employees.Nodup := hids.of_map
  have hfailtask :
      ∀ p : SessionProgress, alookup p.tasks e.id = some (mkImageTask e) →
        (failNoCodeP key e p).1 = codeFailState e p ∧
        (failNoCodeP key e p).2 =
          [GenEffect.dbStatus e.id "failed" (some "Employee code is required"),
           GenEffect.notify key
             { kind := "status", employee_id := some e.id, status := some "failed",
               name := some e.name, error := some "Employee code is required" }
             (genSnapshotOf (codeFailState e p) none)] := by
    intro p hl
    unfold failNoCodeP
    rw [if_pos hcode, hl]
    exact ⟨rfl, rfl⟩
  have hframe1 : ∀ b ∈ employees, ¬ b = e → ∀ p : SessionProgress,
      alookup p.tasks e.id = some (mkImageTask e) →
      alookup (failNoCodeP key b p).1.tasks e.id = some (mkImageTask e) := by
    intro b hb hbe p hl
    rw [failNoCodeP_frame key b p e.id (nodup_map_ne _ hids b hb e he hbe)]
    exact hl
  have hPost1 : ∀ b ∈ employees, ¬ b = e → ∀ p : SessionProgress,
      alookup p.tasks e.id = some (codeFailTask e) →
      alookup (failNoCodeP key b p).1.tasks e.id = some (codeFailTask e) := by
    intro b hb hbe p hl
    rw [failNoCodeP_frame key b p e.id (nodup_map_ne _ hids b hb e he hbe)]
    exact hl
  have hstart : alookup (mkSessionProgress key employees).tasks e.id = some (mkImageTask e) :=
    buildGenTasks_lookup employees hids e he
  have hframeTasks : ∀ (c : String),
      (∀ emp, alookup (buildCodeToEmp employees) c = some emp → ¬ emp.id = e.id) := by
    intro c emp hemp
    obtain ⟨hmem2, hcode2, hne2⟩ := buildCodeToEmp_values employees c emp hemp
    intro hid
    have heq : emp = e := by
      by_contra hne3
      exact nodup_map_ne _ hids emp hmem2 e he hne3 hid
    rw [heq] at hcode2
    rw [hcode] at hcode2
    exact hne2 hcode2.symm
  unfold genProcessBatchP
  dsimp only
  rw [if_neg (by simp [mkSessionProgress]), if_neg hvne, if_pos rfl]
  have hafter1 : alookup (foldP (failNoCodeP key) employees
      { mkSessionProgress key employees with is_running := true }).1.tasks e.id =
      some (codeFailTask e) := by
    refine foldP_hit (failNoCodeP key) e
      (fun p => alookup p.tasks e.id = some (mkImageTask e))
      (fun p => alookup p.tasks e.id = some (codeFailTask e))
      employees hnd he hframe1 hPost1 ?_ _ hstart
    intro p hl
    rw [(hfailtask p hl).1]
    exact alookup_aset_self _ _ _
  constructor
  · have h2 := foldP_frame (markProcessingP key (buildCodeToEmp employees))
      (fun p => alookup p.tasks e.id = some (codeFailTask e))
      (genValidCodes employees)
      (fun c _ p hp => by
        show alookup (markProcessingP key (buildCodeToEmp employees) c p).1.tasks e.id =
          some (codeFailTask e)
        rw [markProcessingP_frame key _ c p e.id (hframeTasks c)]
        exact hp) _ hafter1
    have h3 := foldP_frame (onResultP (some key) key (buildCodeToEmp employees))
      (fun p => alookup p.tasks e.id = some (codeFailTask e))
      conv.callbacks
      (fun cr _ p hp => by
        show alookup (onResultP (some key) key (buildCodeToEmp employees) cr p).1.tasks e.id =
          some (codeFailTask e)
        rw [onResultP_frame (some key) key _ cr p e.id (hframeTasks cr.1)]
        exact hp) _ h2
    cases hr : conv.raises with
    | none =>
      simp only [hr]
      exact h3
    | some err =>
      simp only [hr]
      exact foldP_frame (bulkFailP err (buildCodeToEmp employees))
        (fun p => alookup p.tasks e.id = some (codeFailTask e))
        (genValidCodes employees)
        (fun c _ p hp => by
          show alookup (bulkFailP err (buildCodeToEmp employees) c p).1.tasks e.id =
            some (codeFailTask e)
          rw [bulkFailP_frame err _ c p e.id (hframeTasks c)]
          exact hp) _ h3
  · have hd : GenEffect.dbStatus e.id "failed" (some "Employee code is required") ∈
        (foldP (failNoCodeP key) employees
          { mkSessionProgress key employees with is_running := true }).2 := by
      have hex := foldP_exists_effect (failNoCodeP key) e
        (fun p => alookup p.tasks e.id = some (mkImageTask e))
        (fun x => x = GenEffect.dbStatus e.id "failed" (some "Employee code is required"))
        employees hnd he hframe1 ?_
        { mkSessionProgress key employees with is_running := true } hstart
      · obtain ⟨x, hx, hq⟩ := hex
        rw [hq] at hx
        exact hx
      · intro p hl
        rw [(hfailtask p hl).2]
        exact ⟨_, List.mem_cons_self _ _, rfl⟩
    have hn : ∃ ev snap, GenEffect.notify key ev snap ∈
        (foldP (failNoCodeP key) employees
          { mkSessionProgress key employees with is_running := true }).2 ∧
        ev.employee_id = some e.id ∧ ev.status = some "failed" ∧
        ev.error = some "Employee code is required" := by
      have hex := foldP_exists_effect (failNoCodeP key) e
        (fun p => alookup p.tasks e.id = some (mkImageTask e))
        (fun x => ∃ ev snap, x = GenEffect.notify key ev snap ∧ ev.employee_id = some e.id ∧
          ev.status = some "failed" ∧ ev.error = some "Employee code is required")
        employees hnd he hframe1 ?_
        { mkSessionProgress key employees with is_running := true } hstart
      · obtain ⟨x, hx, ev, snap, hq, h1, h2, h3⟩ := hex
        subst hq
        exact ⟨ev, snap, hx, h1, h2, h3⟩
      · intro p hl
        rw [(hfailtask p hl).2]
        refine ⟨_, List.mem_cons_of_mem _ (List.mem_cons_self _ _), ?_⟩
        exact ⟨_, _, rfl, rfl, rfl, rfl⟩
    exact gen_trace_split key e.id _ _ _ _ _ _ _ hd hn

/-! ### Run-level lemmas for a converter raise and for items with a code -/

/-- State of the captured progress object after the mark-processing loop. -/

theorem bulkFailP_keep (err : String) (m : List (String × EmpInput)) (c : String)
    (p : SessionProgress) (tid : String) (task : ImageTask)
    (hp : alookup p.tasks tid = some task) (hs : ¬ task.status = "processing") :
    alookup (bulkFailP err m c p).1.tasks tid = some task := by
  unfold bulkFailP
  split
  · exact hp
  · next emp hemp =>
    split
    · exact hp
    · next task2 htask2 =>
      split
      · next hst =>
        by_cases hid : emp.id = tid
        · subst hid
          rw [hp] at htask2
          injection htask2 with ht
          subst ht
          exact absurd hst hs
        · exact (alookup_aset_ne _ _ _ _ (fun h2 => hid h2.symm)).trans hp
      · exact hp

theorem bulkFailP_hit (err : String) (m : List (String × EmpInput)) (c : String)
    (p : SessionProgress) (emp : EmpInput) (task : ImageTask)
    (hemp : alookup m c = some emp) (htask : alookup p.tasks emp.id = some task)
    (hproc : task.status = "processing") :
    alookup (bulkFailP err m c p).1.tasks emp.id =
      some { task with status := "failed", error := some err } ∧
    (bulkFailP err m c p).2 = [GenEffect.dbStatus emp.id "failed" (some err)] := by
  unfold bulkFailP
  simp only [hemp, htask]
  rw [if_pos hproc]
  exact ⟨alookup_aset_self _ _ _, rfl⟩

theorem markProcessingP_hit (key : String) (m : List (String × EmpInput)) (c : String)
    (p : SessionProgress) (emp : EmpInput) (task : ImageTask)
    (hemp : alookup m c = some emp) (htask : alookup p.tasks emp.id = some task) :
    GenEffect.dbStatus emp.id "processing" none ∈ (markProcessingP key m c p).2 := by
  unfold markProcessingP
  simp only [hemp, htask]
  exact List.mem_cons_self _ _

/-- Two distinct codes of `buildCodeToEmp` map to employees with distinct ids. -/

theorem code_ne_id_ne (employees : List EmpInput)
    (hids : (employees.map (fun e => e.id)).Nodup)
    (c b : String) (emp : EmpInput)
    (hemp : alookup (buildCodeToEmp employees) c = some emp)
    (hbc : ¬ b = c) :
    ∀ emp2, alookup (buildCodeToEmp employees) b = some emp2 → ¬ emp2.id = emp.id := by
  intro emp2 hemp2 hid
  obtain ⟨hm2, hcode2, _⟩ := buildCodeToEmp_values employees b emp2 hemp2
  obtain ⟨hm, hcode, _⟩ := buildCodeToEmp_values employees c emp hemp
  have hne : ¬ emp2 = emp := fun h => hbc (by rw [← hcode2, h, hcode])
  exact nodup_map_ne _ hids emp2 hm2 emp hm hne hid

theorem genRun_raise_bulkfail (key path : String) (employees : List EmpInput)
    (conv : ConvBehavior) (err : String)
    (hids : (employees.map (fun e => e.id)).Nodup)
    (hcodes : (genValidCodes employees).Nodup)
    (hr : conv.raises = some err)
    (hvne : ¬ genValidCodes employees = [])
    (c : String) (hc : c ∈ genValidCodes employees) (emp : EmpInput)
    (hemp : alookup (buildCodeToEmp employees) c = some emp)
    (task : ImageTask)
    (htask : alookup (genPhase3 key employees conv).tasks emp.id = some task)
    (hproc : task.status = "processing") :
    alookup (genProcessBatchP (some key) key path employees conv
        (mkSessionProgress key employees)).1.tasks emp.id =
      some { task with status := "failed", error := some err } ∧
    GenEffect.dbStatus emp.id "failed" (some err) ∈
      (genProcessBatchP (some key) key path employees conv
        (mkSessionProgress key employees)).2.1 := by
  unfold genProcessBatchP
  dsimp only
  rw [if_neg (by simp [mkSessionProgress]), if_neg hvne, hr, if_pos rfl]
  constructor
  · exact foldP_hit (bulkFailP err (buildCodeToEmp employees)) c
      (fun p => alookup p.tasks emp.id = some task)
      (fun p => alookup p.tasks emp.id =
        some { task with status := "failed", error := some err })
      (genValidCodes employees) hcodes hc
      (fun b hb hbc p hp => by
        show alookup (bulkFailP err (buildCodeToEmp employees) b p).1.tasks emp.id =
          some task
        rw [bulkFailP_frame err _ b p emp.id
          (code_ne_id_ne employees hids c b emp hemp hbc)]
        exact hp)
      (fun b hb hbc p hp => by
        show alookup (bulkFailP err (buildCodeToEmp employees) b p).1.tasks emp.id =
          some { task with status := "failed", error := some err }
        rw [bulkFailP_frame err _ b p emp.id
          (code_ne_id_ne employees hids c b emp hemp hbc)]
        exact hp)
      (fun p hp => (bulkFailP_hit err _ c p emp task hemp hp hproc).1)
      (genPhase3 key employees conv) htask
  · have hmem := foldP_exists_effect (bulkFailP err (buildCodeToEmp employees)) c
      (fun p => alookup p.tasks emp.id = some task)
      (fun x => x = GenEffect.dbStatus emp.id "failed" (some err))
      (genValidCodes employees) hcodes hc
      (fun b hb hbc p hp => by
        show alookup (bulkFailP err (buildCodeToEmp employees) b p).1.tasks emp.id =
          some task
        rw [bulkFailP_frame err _ b p emp.id
          (code_ne_id_ne employees hids c b emp hemp hbc)]
        exact hp)
      (fun p hp => by
        rw [(bulkFailP_hit err _ c p emp task hemp hp hproc).2]
        exact ⟨_, List.mem_cons_self _ _, rfl⟩)
      (genPhase3 key employees conv) htask
    obtain ⟨x, hx, hq⟩ := hmem
    rw [hq] at hx
    exact List.mem_append.mpr (Or.inl (List.mem_append.mpr (Or.inr hx)))

theorem genRun_raise_keep (key path : String) (employees : List EmpInput)
    (conv : ConvBehavior) (err : String)
    (hr : conv.raises = some err)
    (hvne : ¬ genValidCodes employees = [])
    (tid : String) (task : ImageTask)
    (htask : alookup (genPhase3 key employees conv).tasks tid = some task)
    (hs : ¬ task.status = "processing") :
    alookup (genProcessBatchP (some key) key path employees conv
        (mkSessionProgress key employees)).1.tasks tid = some task := by
  unfold genProcessBatchP
  dsimp only
  rw [if_neg (by simp [mkSessionProgress]), if_neg hvne, hr, if_pos rfl]
  exact foldP_frame (bulkFailP err (buildCodeToEmp employees))
    (fun p => alookup p.tasks tid = some task)
    (genValidCodes employees)
    (fun b hb p hp => bulkFailP_keep err _ b p tid task hp hs)
    (genPhase3 key employees conv) htask

theorem genRun_complete_fires (key path : String) (employees : List EmpInput)
    (conv : ConvBehavior)
    (hvne : ¬ genValidCodes employees = []) :
    ∃ t, (genProcessBatchP (some key) key path employees conv
        (mkSessionProgress key employees)).2.1 =
      t ++ [GenEffect.notify key
        { kind := "complete",
          total := some (genProcessBatchP (some key) key path employees conv
            (mkSessionProgress key employees)).1.total,
          completed := some (genProcessBatchP (some key) key path employees conv
            (mkSessionProgress key employees)).1.completed,
          failed := some (genProcessBatchP (some key) key path employees conv
            (mkSessionProgress key employees)).1.failed }
        (genSnapshotOf (genProcessBatchP (some key) key path employees conv
          (mkSessionProgress key employees)).1 none)] := by
  unfold genProcessBatchP
  dsimp only
  rw [if_neg (by simp [mkSessionProgress]), if_neg hvne, if_pos rfl]
  exact ⟨_, rfl⟩

theorem genRun_with_code_processing (key path : String) (employees : List EmpInput)
    (conv : ConvBehavior)
    (hids : (employees.map (fun e => e.id)).Nodup)
    (hcodes : (genValidCodes employees).Nodup)
    (hvne : ¬ genValidCodes employees = [])
    (e : EmpInput) (he : e ∈ employees) (hcode : ¬ e.employee_code = "") :
    e.employee_code ∈ genValidCodes employees ∧
    GenEffect.dbStatus e.id "processing" none ∈
      (genProcessBatchP (some key) key path employees conv
        (mkSessionProgress key employees)).2.1 := by
  have hself := buildCodeToEmp_self employees hcodes e he hcode
  have hstart : alookup (mkSessionProgress key employees).tasks e.id =
      some (mkImageTask e) := buildGenTasks_lookup employees hids e he
  have hphase1 : alookup (foldP (failNoCodeP key) employees
      { mkSessionProgress key employees with is_running := true }).1.tasks e.id =
      some (mkImageTask e) := by
    refine foldP_frame (failNoCodeP key)
      (fun p => alookup p.tasks e.id = some (mkImageTask e)) employees ?_
      { mkSessionProgress key employees with is_running := true } hstart
    intro b hb p hp
    show alookup (failNoCodeP key b p).1.tasks e.id = some (mkImageTask e)
    by_cases hbe : b = e
    · subst hbe
      unfold failNoCodeP
      rw [if_neg hcode]
      exact hp
    · rw [failNoCodeP_frame key b p e.id (nodup_map_ne _ hids b hb e he hbe)]
      exact hp
  refine ⟨mem_genValidCodes employees e he hcode, ?_⟩
  unfold genProcessBatchP
  dsimp only
  rw [if_neg (by simp [mkSessionProgress]), if_neg hvne, if_pos rfl]
  have hmem := foldP_exists_effect
    (markProcessingP key (buildCodeToEmp employees)) e.employee_code
    (fun p => ∃ task, alookup p.tasks e.id = some task)
    (fun x => x = GenEffect.dbStatus e.id "processing" none)
    (genValidCodes employees) hcodes (mem_genValidCodes employees e he hcode)
    (fun b hb hbc p hp => by
      obtain ⟨task, htask⟩ := hp
      refine ⟨task, ?_⟩
      show alookup (markProcessingP key (buildCodeToEmp employees) b p).1.tasks e.id =
        some task
      rw [markProcessingP_frame key _ b p e.id
        (code_ne_id_ne employees hids e.employee_code b e hself hbc)]
      exact htask)
    (fun p hp => by
      obtain ⟨task, htask⟩ := hp
      exact ⟨_, markProcessingP_hit key _ e.employee_code p e task hself htask, rfl⟩)
    (foldP (failNoCodeP key) employees
      { mkSessionProgress key employees with is_running := true }).1
    ⟨mkImageTask e, hphase1⟩
  obtain ⟨x, hx, hq⟩ := hmem
  rw [hq] at hx
  exact List.mem_append.mpr (Or.inl (List.mem_append.mpr (Or.inl
    (List.mem_append.mpr (Or.inl (List.mem_append.mpr (Or.inl
      (List.mem_append.mpr (Or.inr hx)))))))))

/-! ### Supersession and cancellation (service level) -/

theorem mem_aupdate {κ α : Type} [DecidableEq κ] :
    ∀ (l : List (κ × α)) (k : κ) (f : α → α) (kv : κ × α),
      kv ∈ aupdate l k f → ∃ kv2 ∈ l, kv.1 = kv2.1
  | [], k, f, kv, h => by simp [aupdate] at h
  | kv0 :: rest, k, f, kv, h => by
    unfold aupdate at h
    rcases List.mem_cons.mp h with h2 | h2
    · by_cases hk : kv0.1 = k
      · rw [if_pos hk] at h2
        exact ⟨kv0, List.mem_cons_self _ _, by rw [h2]⟩
      · rw [if_neg hk] at h2
        exact ⟨kv0, List.mem_cons_self _ _, by rw [h2]⟩
    · obtain ⟨kv2, hm, he⟩ := mem_aupdate rest k f kv h2
      exact ⟨kv2, List.mem_cons_of_mem _ hm, he⟩

theorem cancelRegistered_keymem (sessions : List (String × Nat)) :
    ∀ (heap : List (Nat × SessionProgress)) (kv : Nat × SessionProgress),
      kv ∈ cancelRegistered sessions heap → ∃ kv2 ∈ heap, kv.1 = kv2.1 := by
  induction sessions with
  | nil => exact fun heap kv h => ⟨kv, h, rfl⟩
  | cons s rest ih =>
    intro heap kv h
    obtain ⟨kv2, hm2, he2⟩ := ih
      (aupdate heap s.2 (fun p => { p with cancelled := true })) kv h
    obtain ⟨kv3, hm3, he3⟩ := mem_aupdate _ _ _ kv2 hm2
    exact ⟨kv3, hm3, he2.trans he3⟩

theorem setCancelled_eq_self (q : SessionProgress) (h : q.cancelled = true) :
    { q with cancelled := true } = q := by
  cases q
  dsimp only at h ⊢
  subst h
  rfl

theorem cancelRegistered_keeps_cancelled (sessions : List (String × Nat)) :
    ∀ (heap : List (Nat × SessionProgress)) (oid : Nat) (q : SessionProgress),
      alookup heap oid = some q → q.cancelled = true →
      alookup (cancelRegistered sessions heap) oid = some q := by
  induction sessions with
  | nil => exact fun heap oid q hq _ => hq
  | cons s rest ih =>
    intro heap oid q hq hc
    show alookup (cancelRegistered rest
      (aupdate heap s.2 (fun p => { p with cancelled := true }))) oid = some q
    by_cases hs : s.2 = oid
    · subst hs
      refine ih _ _ q ?_ hc
      rw [alookup_aupdate_self, hq]
      show some { q with cancelled := true } = some q
      rw [setCancelled_eq_self q hc]
    · refine ih _ _ q ?_ hc
      rw [alookup_aupdate_ne _ _ _ _ (fun h => hs h.symm)]
      exact hq

theorem cancelRegistered_cancels_value (sessions : List (String × Nat)) :
    ∀ (heap : List (Nat × SessionProgress)) (k : String) (oid : Nat) (p : SessionProgress),
      alookup sessions k = some oid → alookup heap oid = some p →
      alookup (cancelRegistered sessions heap) oid = some { p with cancelled := true } := by
  induction sessions with
  | nil => intro heap k oid p hk _; simp [alookup] at hk
  | cons s rest ih =>
    intro heap k oid p hk hp
    show alookup (cancelRegistered rest
      (aupdate heap s.2 (fun q => { q with cancelled := true }))) oid =
      some { p with cancelled := true }
    by_cases hs : s.2 = oid
    · subst hs
      refine cancelRegistered_keeps_cancelled rest _ _ _ ?_ rfl
      rw [alookup_aupdate_self, hp]
      rfl
    · unfold alookup at hk
      by_cases hk1 : s.1 = k
      · rw [if_pos hk1] at hk
        injection hk with hk2
        exact absurd hk2 hs
      · rw [if_neg hk1] at hk
        refine ih _ k oid p hk ?_
        rw [alookup_aupdate_ne _ _ _ _ (fun h => hs h.symm)]
        exact hp

theorem startGeneration_cancels (svc : GenService) (hwf : GenWF svc)
    (keyB : String) (empsB : List EmpInput) (keyA : String) (oid : Nat)
    (pA : SessionProgress)
    (hsessA : alookup svc.sessions keyA = some oid)
    (hheapA : alookup svc.heap oid = some pA) :
    alookup (startGeneration svc keyB empsB).heap oid =
      some { pA with cancelled := true } := by
  have hlt : oid < svc.nextObj := hwf (oid, pA) (alookup_mem hheapA)
  show alookup (aset (cancelRegistered svc.sessions svc.heap) svc.nextObj
    (mkSessionProgress keyB empsB)) oid = some { pA with cancelled := true }
  rw [alookup_aset_ne _ _ _ _ (Nat.ne_of_lt hlt)]
  exact cancelRegistered_cancels_value svc.sessions svc.heap keyA oid pA hsessA hheapA

theorem foldP_cancelled {α : Type}
    (f : α → SessionProgress → SessionProgress × List GenEffect)
    (hf : ∀ a p, ((f a p).1).cancelled = p.cancelled) :
    ∀ (L : List α) (p : SessionProgress), ((foldP f L p).1).cancelled = p.cancelled
  | [], p => rfl
  | a :: rest, p => by
    simp only [foldP]
    rw [foldP_cancelled f hf rest, hf]

theorem genProcessBatchP_cancelled (current : Option String) (key path : String)
    (employees : List EmpInput) (conv : ConvBehavior) (p : SessionProgress) :
    ((genProcessBatchP current key path employees conv p).1).cancelled = p.cancelled := by
  unfold genProcessBatchP
  dsimp only
  split
  · rfl
  · split
    · exact foldP_cancelled _ (failNoCodeP_cancelled key) employees _
    · split <;>
      · cases hr : conv.raises with
        | none =>
          simp only [hr]
          exact (foldP_cancelled _ (onResultP_cancelled current key _)
              conv.callbacks _).trans
            ((foldP_cancelled _ (markProcessingP_cancelled key _)
              (genValidCodes employees) _).trans
             (foldP_cancelled _ (failNoCodeP_cancelled key) employees _))
        | some err =>
          simp only [hr]
          exact (foldP_cancelled _ (bulkFailP_cancelled err _)
              (genValidCodes employees) _).trans
            ((foldP_cancelled _ (onResultP_cancelled current key _)
              conv.callbacks _).trans
             ((foldP_cancelled _ (markProcessingP_cancelled key _)
               (genValidCodes employees) _).trans
              (foldP_cancelled _ (failNoCodeP_cancelled key) employees _)))

theorem genStep_wf (svc : GenService) (op : GenOp) (hwf : GenWF svc) :
    GenWF (genStep svc op) := by
  cases op with
  | start k emps =>
    intro kv hkv
    show kv.1 < svc.nextObj + 1
    rcases mem_aset hkv with h | h
    · rw [h]
      exact Nat.lt_succ_self _
    · obtain ⟨kv2, hm2, he2⟩ := cancelRegistered_keymem svc.sessions svc.heap kv h
      rw [he2]
      exact Nat.lt_succ_of_lt (hwf kv2 hm2)
  | proc k path emps conv =>
    show GenWF (genProcessBatch svc k path emps conv).1
    cases hs : alookup svc.sessions k with
    | none =>
      unfold genProcessBatch
      simp only [hs]
      exact hwf
    | some oid =>
      cases hh : alookup svc.heap oid with
      | none =>
        unfold genProcessBatch
        simp only [hs, hh]
        exact hwf
      | some p =>
        unfold genProcessBatch
        simp only [hs, hh]
        split
        · intro kv hkv
          rcases mem_aset hkv with h | h
          · rw [h]
            exact hwf (oid, p) (alookup_mem hh)
          · exact hwf kv h
        · intro kv hkv
          rcases mem_aset hkv with h | h
          · rw [h]
            exact hwf (oid, p) (alookup_mem hh)
          · exact hwf kv h
  | onRes ctx c r =>
    show GenWF (onResult ctx svc c r).1
    cases hh : alookup svc.heap ctx.objId with
    | none =>
      unfold onResult
      simp only [hh]
      exact hwf
    | some p =>
      unfold onResult
      simp only [hh]
      intro kv hkv
      rcases mem_aset hkv with h | h
      · rw [h]
        exact hwf (ctx.objId, p) (alookup_mem hh)
      · exact hwf kv h
  | cancelAll =>
    intro kv hkv
    obtain ⟨kv2, hm2, he2⟩ := cancelRegistered_keymem svc.sessions svc.heap kv hkv
    rw [he2]
    exact hwf kv2 hm2
  | sub k =>
    show GenWF (genSubscribe svc k).1
    cases hs : alookup svc.sessions k with
    | none =>
      unfold genSubscribe
      simp only [hs]
      exact hwf
    | some oid =>
      cases hh : alookup svc.heap oid with
      | none =>
        unfold genSubscribe
        simp only [hs, hh]
        exact hwf
      | some p =>
        unfold genSubscribe
        simp only [hs, hh]
        intro kv hkv
        rcases mem_aset hkv with h | h
        · rw [h]
          exact hwf (oid, p) (alookup_mem hh)
        · exact hwf kv h
  | unsub k qid =>
    show GenWF (genUnsubscribe svc k qid)
    cases hs : alookup svc.sessions k with
    | none =>
      unfold genUnsubscribe
      simp only [hs]
      exact hwf
    | some oid =>
      unfold genUnsubscribe
      simp only [hs]
      intro kv hkv
      obtain ⟨kv2, hm2, he2⟩ := mem_aupdate _ _ _ kv hkv
      rw [he2]
      exact hwf kv2 hm2
  | cleanup k => exact hwf
  | notifyOp k ev =>
    show GenWF (genNotifySubscribers svc k ev)
    cases hs : alookup svc.sessions k with
    | none =>
      unfold genNotifySubscribers
      simp only [hs]
      exact hwf
    | some oid =>
      cases hh : alookup svc.heap oid with
      | none =>
        unfold genNotifySubscribers
        simp only [hs, hh]
        exact hwf
      | some p =>
        unfold genNotifySubscribers
        simp only [hs, hh]
        exact hwf

theorem genStep_keeps_cancelled (svc : GenService) (op : GenOp) (hwf : GenWF svc)
    (oid : Nat) (q : SessionProgress) (hq : alookup svc.heap oid = some q)
    (hc : q.cancelled = true) :
    ∃ q2, alookup (genStep svc op).heap oid = some q2 ∧ q2.cancelled = true := by
  have hlt : oid < svc.nextObj := hwf (oid, q) (alookup_mem hq)
  cases op with
  | start k emps =>
    refine ⟨q, ?_, hc⟩
    show alookup (aset (cancelRegistered svc.sessions svc.heap) svc.nextObj
      (mkSessionProgress k emps)) oid = some q
    rw [alookup_aset_ne _ _ _ _ (Nat.ne_of_lt hlt)]
    exact cancelRegistered_keeps_cancelled svc.sessions svc.heap oid q hq hc
  | proc k path emps conv =>
    show ∃ q2, alookup (genProcessBatch svc k path emps conv).1.heap oid = some q2 ∧
      q2.cancelled = true
    cases hs : alookup svc.sessions k with
    | none =>
      unfold genProcessBatch
      simp only [hs]
      exact ⟨q, hq, hc⟩
    | some oid2 =>
      cases hh : alookup svc.heap oid2 with
      | none =>
        unfold genProcessBatch
        simp only [hs, hh]
        exact ⟨q, hq, hc⟩
      | some p =>
        unfold genProcessBatch
        simp only [hs, hh]
        by_cases ho : oid2 = oid
        · subst ho
          rw [hq] at hh
          injection hh with hh2
          subst hh2
          split
          · exact ⟨_, alookup_aset_self _ _ _,
              by rw [genProcessBatchP_cancelled]; exact hc⟩
          · exact ⟨_, alookup_aset_self _ _ _,
              by rw [genProcessBatchP_cancelled]; exact hc⟩
        · split
          · refine ⟨q, ?_, hc⟩
            show alookup (aset svc.heap oid2 _) oid = some q
            rw [alookup_aset_ne _ _ _ _ (fun h => ho h.symm)]
            exact hq
          · refine ⟨q, ?_, hc⟩
            show alookup (aset svc.heap oid2 _) oid = some q
            rw [alookup_aset_ne _ _ _ _ (fun h => ho h.symm)]
            exact hq
  | onRes ctx c r =>
    show ∃ q2, alookup (onResult ctx svc c r).1.heap oid = some q2 ∧ q2.cancelled = true
    cases hh : alookup svc.heap ctx.objId with
    | none =>
      unfold onResult
      simp only [hh]
      exact ⟨q, hq, hc⟩
    | some p =>
      unfold onResult
      simp only [hh]
      by_cases ho : ctx.objId = oid
      · rw [ho] at hh
        rw [hq] at hh
        injection hh with hh2
        subst hh2
        rw [ho]
        exact ⟨_, alookup_aset_self _ _ _, by rw [onResultP_cancelled]; exact hc⟩
      · refine ⟨q, ?_, hc⟩
        show alookup (aset svc.heap ctx.objId _) oid = some q
        rw [alookup_aset_ne _ _ _ _ (fun h => ho h.symm)]
        exact hq
  | cancelAll =>
    exact ⟨q, cancelRegistered_keeps_cancelled svc.sessions svc.heap oid q hq hc, hc⟩
  | sub k =>
    show ∃ q2, alookup (genSubscribe svc k).1.heap oid = some q2 ∧ q2.cancelled = true
    cases hs : alookup svc.sessions k with
    | none =>
      unfold genSubscribe
      simp only [hs]
      exact ⟨q, hq, hc⟩
    | some oid2 =>
      cases hh : alookup svc.heap oid2 with
      | none =>
        unfold genSubscribe
        simp only [hs, hh]
        exact ⟨q, hq, hc⟩
      | some p =>
        unfold genSubscribe
        simp only [hs, hh]
        by_cases ho : oid2 = oid
        · subst ho
          rw [hq] at hh
          injection hh with hh2
          subst hh2
          exact ⟨_, alookup_aset_self _ _ _, hc⟩
        · refine ⟨q, ?_, hc⟩
          show alookup (aset svc.heap oid2 _) oid = some q
          rw [alookup_aset_ne _ _ _ _ (fun h => ho h.symm)]
          exact hq
  | unsub k qid =>
    show ∃ q2, alookup (genUnsubscribe svc k qid).heap oid = some q2 ∧ q2.cancelled = true
    cases hs : alookup svc.sessions k with
    | none =>
      unfold genUnsubscribe
      simp only [hs]
      exact ⟨q, hq, hc⟩
    | some oid2 =>
      unfold genUnsubscribe
      simp only [hs]
      by_cases ho : oid2 = oid
      · subst ho
        refine ⟨{ q with subscribers := discardQ q.subscribers qid }, ?_, hc⟩
        rw [alookup_aupdate_self, hq]
        rfl
      · refine ⟨q, ?_, hc⟩
        rw [alookup_aupdate_ne _ _ _ _ (fun h => ho h.symm)]
        exact hq
  | cleanup k => exact ⟨q, hq, hc⟩
  | notifyOp k ev =>
    show ∃ q2, alookup (genNotifySubscribers svc k ev).heap oid = some q2 ∧
      q2.cancelled = true
    cases hs : alookup svc.sessions k with
    | none =>
      unfold genNotifySubscribers
      simp only [hs]
      exact ⟨q, hq, hc⟩
    | some oid2 =>
      cases hh : alookup svc.heap oid2 with
      | none =>
        unfold genNotifySubscribers
        simp only [hs, hh]
        exact ⟨q, hq, hc⟩
      | some p =>
        unfold genNotifySubscribers
        simp only [hs, hh]
        exact ⟨q, hq, hc⟩

theorem genSteps_cancelled : ∀ (ops : List GenOp) (svc : GenService), GenWF svc →
    ∀ oid q, alookup svc.heap oid = some q → q.cancelled = true →
    ∀ p, alookup (ops.foldl genStep svc).heap oid = some p → p.cancelled = true
  | [], svc, _, oid, q, hq, hc, p, hp => by
    simp only [List.foldl_nil] at hp
    rw [hq] at hp
    injection hp with h
    rw [← h]
    exact hc
  | op :: rest, svc, hwf, oid, q, hq, hc, p, hp => by
    simp only [List.foldl_cons] at hp
    obtain ⟨q2, hq2, hc2⟩ := genStep_keeps_cancelled svc op hwf oid q hq hc
    exact genSteps_cancelled rest (genStep svc op) (genStep_wf svc op hwf) oid q2 hq2 hc2 p hp

/-- A late callback whose captured progress object is cancelled, or whose
session is no longer current, changes nothing and emits nothing. -/

theorem onResult_dropped (ctx : ResultCtx) (svc : GenService) (c : String)
    (r : BatchResult) (p : SessionProgress)
    (hp : alookup svc.heap ctx.objId = some p)
    (hdrop : p.cancelled = true ∨ ¬ svc.currentSessionKey = some ctx.sessionKey) :
    onResult ctx svc c r = (svc, []) := by
  have honr : onResultP svc.currentSessionKey ctx.sessionKey ctx.codeToEmp (c, r) p =
      (p, []) := by
    unfold onResultP
    by_cases hcur : svc.currentSessionKey = some ctx.sessionKey
    · rcases hdrop with h | h
      · rw [if_neg (by simpa using hcur), if_pos h]
      · exact absurd hcur h
    · rw [if_pos (by simpa using hcur)]
  unfold onResult
  simp only [hp]
  rw [honr]
  dsimp only
  rw [aset_eq_of_lookup svc.heap ctx.objId p hp]
  rfl

/-! ### Unsubscribe idempotence -/

theorem aupdate_id_of_lookup {κ α : Type} [DecidableEq κ] :
    ∀ (l : List (κ × α)) (k : κ) (f : α → α), (l.map Prod.fst).Nodup →
      ∀ v : α, alookup l k = some v → f v = v → aupdate l k f = l
  | [], _, _, _, v, hv, _ => by simp [alookup] at hv
  | kv :: rest, k, f, hnd, v, hv, hfv => by
    unfold alookup at hv
    unfold aupdate
    simp only [List.map_cons, List.nodup_cons] at hnd
    by_cases hk : kv.1 = k
    · rw [if_pos hk] at hv ⊢
      injection hv with hv2
      rw [aupdate_id rest k f ?_]
      · rw [← hv2] at hfv
        rw [hfv]
      · intro kv2 hm2 hk2
        exact absurd (hk2.trans hk.symm ▸ List.mem_map_of_mem Prod.fst hm2) hnd.1
    · rw [if_neg hk] at hv ⊢
      rw [aupdate_id_of_lookup rest k f hnd.2 v hv hfv]

/-- `lambda p: p.subscribers.discard(qid)` as a named function. -/

theorem genUnsubscribe_idem (svc : GenService) (k : String) (qid : Nat) :
    genUnsubscribe (genUnsubscribe svc k qid) k qid = genUnsubscribe svc k qid := by
  cases hs : alookup svc.sessions k with
  | none =>
    unfold genUnsubscribe
    simp only [hs]
  | some oid =>
    unfold genUnsubscribe
    simp only [hs]
    have hff : ∀ x : SessionProgress, dropSub qid (dropSub qid x) = dropSub qid x := by
      intro x
      unfold dropSub
      rw [discardQ_idem]
    have h2 : aupdate (aupdate svc.heap oid (dropSub qid)) oid (dropSub qid) = aupdate svc.heap oid (dropSub qid) := by
      rw [aupdate_aupdate]
      exact aupdate_congr _ _ _ _ hff
    show ({ svc with heap := aupdate (aupdate svc.heap oid (dropSub qid)) oid (dropSub qid) } : GenService) = { svc with heap := aupdate svc.heap oid (dropSub qid) }
    rw [h2]

theorem genUnsubscribe_after_cleanup (svc : GenService) (k : String) (qid : Nat) :
    genUnsubscribe (cleanupSession svc k) k qid = cleanupSession svc k := by
  unfold genUnsubscribe cleanupSession
  simp only [alookup_aremove_self]

theorem genUnsubscribe_not_subscribed (svc : GenService) (k : String) (qid : Nat)
    (hnd : (svc.heap.map Prod.fst).Nodup)
    (oid : Nat) (p : SessionProgress) (hs : alookup svc.sessions k = some oid)
    (hp : alookup svc.heap oid = some p) (hq : qid ∉ p.subscribers) :
    genUnsubscribe svc k qid = svc := by
  unfold genUnsubscribe
  simp only [hs]
  have hfp : dropSub qid p = p := by
    unfold dropSub
    rw [discardQ_of_not_mem _ _ hq]
  have h1 : aupdate svc.heap oid (dropSub qid) = svc.heap :=
    aupdate_id_of_lookup svc.heap oid _ hnd p hp hfp
  show ({ svc with heap := aupdate svc.heap oid (dropSub qid) } : GenService) = svc
  rw [h1]

theorem sendUnsubscribe_idem (svc : SendService) (k : String) (qid : Nat) :
    sendUnsubscribe (sendUnsubscribe svc k qid) k qid = sendUnsubscribe svc k qid := by
  cases hs : alookup svc.sessions k with
  | none =>
    unfold sendUnsubscribe
    simp only [hs]
  | some p =>
    unfold sendUnsubscribe
    simp only [hs, alookup_aupdate_self, Option.map_some]
    have hff : ∀ x : SendSessionProgress, dropSubS qid (dropSubS qid x) = dropSubS qid x := by
      intro x
      unfold dropSubS
      rw [discardQ_idem]
    have h2 : aupdate (aupdate svc.sessions k (dropSubS qid)) k (dropSubS qid) = aupdate svc.sessions k (dropSubS qid) := by
      rw [aupdate_aupdate]
      exact aupdate_congr _ _ _ _ hff
    show ({ svc with sessions := aupdate (aupdate svc.sessions k (dropSubS qid)) k (dropSubS qid) } : SendService) = { svc with sessions := aupdate svc.sessions k (dropSubS qid) }
    rw [h2]

theorem sendUnsubscribe_after_cleanup (svc : SendService) (k : String) (qid : Nat) :
    sendUnsubscribe (cleanupBatch svc k) k qid = cleanupBatch svc k := by
  unfold sendUnsubscribe cleanupBatch
  simp only [alookup_aremove_self]

theorem sendUnsubscribe_not_subscribed (svc : SendService) (k : String) (qid : Nat)
    (hnd : (svc.sessions.map Prod.fst).Nodup)
    (p : SendSessionProgress) (hs : alookup svc.sessions k = some p)
    (hq : qid ∉ p.subscribers) :
    sendUnsubscribe svc k qid = svc := by
  unfold sendUnsubscribe
  simp only [hs]
  have hfp : dropSubS qid p = p := by
    unfold dropSubS
    rw [discardQ_of_not_mem _ _ hq]
  have h1 : aupdate svc.sessions k (dropSubS qid) = svc.sessions :=
    aupdate_id_of_lookup svc.sessions k _ hnd p hs hfp
  show ({ svc with sessions := aupdate svc.sessions k (dropSubS qid) } : SendService) = svc
  rw [h1]

/-! ### Fresh queues of an unknown-key subscribe (C10 machinery) -/

theorem failNoCodeP_subscribers (key : String) (b : EmpInput) (p : SessionProgress) :
    (failNoCodeP key b p).1.subscribers = p.subscribers := by
  unfold failNoCodeP
  split
  · split <;> rfl
  · rfl

theorem markProcessingP_subscribers (key : String) (m : List (String × EmpInput))
    (c : String) (p : SessionProgress) :
    (markProcessingP key m c p).1.subscribers = p.subscribers := by
  unfold markProcessingP
  split
  · rfl
  · split <;> rfl

theorem onResultP_subscribers (current : Option String) (key : String)
    (m : List (String × EmpInput)) (cr : String × BatchResult) (p : SessionProgress) :
    (onResultP current key m cr p).1.subscribers = p.subscribers := by
  unfold onResultP
  split
  · rfl
  · split
    · rfl
    · split
      · rfl
      · split
        · rfl
        · split <;> rfl

theorem bulkFailP_subscribers (err : String) (m : List (String × EmpInput)) (c : String)
    (p : SessionProgress) :
    (bulkFailP err m c p).1.subscribers = p.subscribers := by
  unfold bulkFailP
  split
  · rfl
  · split
    · rfl
    · split <;> rfl

theorem foldP_subscribers {α : Type}
    (f : α → SessionProgress → SessionProgress × List GenEffect)
    (hf : ∀ a p, ((f a p).1).subscribers = p.subscribers) :
    ∀ (L : List α) (p : SessionProgress), ((foldP f L p).1).subscribers = p.subscribers
  | [], p => rfl
  | a :: rest, p => by
    simp only [foldP]
    rw [foldP_subscribers f hf rest, hf]

theorem genProcessBatchP_subscribers (current : Option String) (key path : String)
    (employees : List EmpInput) (conv : ConvBehavior) (p : SessionProgress) :
    ((genProcessBatchP current key path employees conv p).1).subscribers =
      p.subscribers := by
  unfold genProcessBatchP
  dsimp only
  split
  · rfl
  · split
    · exact foldP_subscribers _ (failNoCodeP_subscribers key) employees _
    · split <;>
      · cases hr : conv.raises with
        | none =>
          simp only [hr]
          exact (foldP_subscribers _ (onResultP_subscribers current key _)
              conv.callbacks _).trans
            ((foldP_subscribers _ (markProcessingP_subscribers key _)
              (genValidCodes employees) _).trans
             (foldP_subscribers _ (failNoCodeP_subscribers key) employees _))
        | some err =>
          simp only [hr]
          exact (foldP_subscribers _ (bulkFailP_subscribers err _)
              (genValidCodes employees) _).trans
            ((foldP_subscribers _ (onResultP_subscribers current key _)
              conv.callbacks _).trans
             ((foldP_subscribers _ (markProcessingP_subscribers key _)
               (genValidCodes employees) _).trans
              (foldP_subscribers _ (failNoCodeP_subscribers key) employees _)))

theorem mem_aupdate2 {κ α : Type} [DecidableEq κ] :
    ∀ (l : List (κ × α)) (k : κ) (f : α → α) (kv : κ × α),
      kv ∈ aupdate l k f → ∃ kv2 ∈ l, kv.1 = kv2.1 ∧ (kv.2 = kv2.2 ∨ kv.2 = f kv2.2)
  | [], k, f, kv, h => by simp [aupdate] at h
  | kv0 :: rest, k, f, kv, h => by
    unfold aupdate at h
    rcases List.mem_cons.mp h with h2 | h2
    · by_cases hk : kv0.1 = k
      · rw [if_pos hk] at h2
        exact ⟨kv0, List.mem_cons_self _ _, by rw [h2], Or.inr (by rw [h2])⟩
      · rw [if_neg hk] at h2
        exact ⟨kv0, List.mem_cons_self _ _, by rw [h2], Or.inl (by rw [h2])⟩
    · obtain ⟨kv2, hm, he, hv⟩ := mem_aupdate2 rest k f kv h2
      exact ⟨kv2, List.mem_cons_of_mem _ hm, he, hv⟩

theorem mem_aremove {κ α : Type} [DecidableEq κ] :
    ∀ (l : List (κ × α)) (k : κ) (kv : κ × α), kv ∈ aremove l k → kv ∈ l
  | [], _, kv, h => by simp [aremove] at h
  | kv0 :: rest, k, kv, h => by
    unfold aremove at h
    by_cases hk : kv0.1 = k
    · rw [if_pos hk] at h
      exact List.mem_cons_of_mem _ (mem_aremove rest k kv h)
    · rw [if_neg hk] at h
      rcases List.mem_cons.mp h with h2 | h2
      · exact h2 ▸ List.mem_cons_self _ _
      · exact List.mem_cons_of_mem _ (mem_aremove rest k kv h2)

theorem cancelRegistered_subscribers (sessions : List (String × Nat)) :
    ∀ (heap : List (Nat × SessionProgress)) (kv : Nat × SessionProgress),
      kv ∈ cancelRegistered sessions heap →
      ∃ kv2 ∈ heap, kv.2.subscribers = kv2.2.subscribers := by
  induction sessions with
  | nil => exact fun heap kv h => ⟨kv, h, rfl⟩
  | cons s rest ih =>
    intro heap kv h
    obtain ⟨kv2, hm2, he2⟩ := ih
      (aupdate heap s.2 (fun p => { p with cancelled := true })) kv h
    obtain ⟨kv3, hm3, _, hv3⟩ := mem_aupdate2 _ _ _ kv2 hm2
    rcases hv3 with hv3 | hv3
    · exact ⟨kv3, hm3, he2.trans (by rw [hv3])⟩
    · exact ⟨kv3, hm3, he2.trans (by rw [hv3])⟩

theorem foldl_aupdate_frame {β : Type} (g : β → β) :
    ∀ (qids : List Nat) (queues : List (Nat × β)) (qid : Nat), qid ∉ qids →
      alookup (qids.foldl (fun qs q2 => aupdate qs q2 g) queues) qid =
        alookup queues qid
  | [], queues, qid, _ => rfl
  | q :: rest, queues, qid, h => by
    simp only [List.foldl_cons]
    rw [foldl_aupdate_frame g rest _ qid (fun h2 => h (List.mem_cons_of_mem _ h2))]
    exact alookup_aupdate_ne _ _ _ _ (fun h2 => h (h2 ▸ List.mem_cons_self _ _))

theorem fanOutGen_frame (heap : List (Nat × SessionProgress))
    (sessions : List (String × Nat)) (qid : Nat)
    (hns : ∀ kv ∈ heap, qid ∉ kv.2.subscribers) :
    ∀ (T : List GenEffect) (queues : List (Nat × List (GenEventData × GenSnapshot))),
      alookup (fanOutGen heap sessions queues T) qid = alookup queues qid
  | [], queues => rfl
  | GenEffect.notify k ev snap :: rest, queues => by
    unfold fanOutGen
    rw [fanOutGen_frame heap sessions qid hns rest]
    cases hk : alookup sessions k with
    | none => rfl
    | some oid =>
      cases hh : alookup heap oid with
      | none => simp only [hh]
      | some pr =>
        simp only [hh]
        exact foldl_aupdate_frame _ pr.subscribers queues qid
          (hns (oid, pr) (alookup_mem hh))
  | GenEffect.dbStatus a b c :: rest, queues => by
    unfold fanOutGen
    exact fanOutGen_frame heap sessions qid hns rest queues
  | GenEffect.dbSave a b c d :: rest, queues => by
    unfold fanOutGen
    exact fanOutGen_frame heap sessions qid hns rest queues
  | GenEffect.convertCall a b :: rest, queues => by
    unfold fanOutGen
    exact fanOutGen_frame heap sessions qid hns rest queues

/-- A queue handle unknown to every progress object, holding an empty queue,
below the allocation counter. -/

theorem genStep_noSub (svc : GenService) (op : GenOp) (qid : Nat)
    (h : NoSubG svc qid) : NoSubG (genStep svc op) qid := by
  obtain ⟨hsub, hque, hlt⟩ := h
  cases op with
  | start k emps =>
    refine ⟨?_, hque, hlt⟩
    intro kv hkv
    rcases mem_aset hkv with h2 | h2
    · rw [h2]
      simp [mkSessionProgress]
    · obtain ⟨kv2, hm2, he2⟩ := cancelRegistered_subscribers svc.sessions svc.heap kv h2
      rw [he2]
      exact hsub kv2 hm2
  | proc k path emps conv =>
    show NoSubG (genProcessBatch svc k path emps conv).1 qid
    cases hs : alookup svc.sessions k with
    | none =>
      unfold genProcessBatch
      simp only [hs]
      exact ⟨hsub, hque, hlt⟩
    | some oid =>
      cases hh : alookup svc.heap oid with
      | none =>
        unfold genProcessBatch
        simp only [hs, hh]
        exact ⟨hsub, hque, hlt⟩
      | some p =>
        unfold genProcessBatch
        simp only [hs, hh]
        have hsub2 : ∀ kv ∈ aset svc.heap oid
            (genProcessBatchP svc.currentSessionKey k path emps conv p).1,
            qid ∉ kv.2.subscribers := by
          intro kv hkv
          rcases mem_aset hkv with h2 | h2
          · rw [h2]
            show qid ∉ (genProcessBatchP svc.currentSessionKey k path emps conv p).1.subscribers
            rw [genProcessBatchP_subscribers]
            exact hsub (oid, p) (alookup_mem hh)
          · exact hsub kv h2
        have hque2 : alookup (fanOutGen
            (aset svc.heap oid (genProcessBatchP svc.currentSessionKey k path emps conv p).1)
            svc.sessions svc.queues
            (genProcessBatchP svc.currentSessionKey k path emps conv p).2.1) qid =
            some [] := by
          rw [fanOutGen_frame _ svc.sessions qid hsub2]
          exact hque
        split
        · exact ⟨hsub2, hque2, hlt⟩
        · exact ⟨hsub2, hque2, hlt⟩
  | onRes ctx c r =>
    show NoSubG (onResult ctx svc c r).1 qid
    cases hh : alookup svc.heap ctx.objId with
    | none =>
      unfold onResult
      simp only [hh]
      exact ⟨hsub, hque, hlt⟩
    | some p =>
      unfold onResult
      simp only [hh]
      have hsub2 : ∀ kv ∈ aset svc.heap ctx.objId
          (onResultP svc.currentSessionKey ctx.sessionKey ctx.codeToEmp (c, r) p).1,
          qid ∉ kv.2.subscribers := by
        intro kv hkv
        rcases mem_aset hkv with h2 | h2
        · rw [h2]
          show qid ∉
            (onResultP svc.currentSessionKey ctx.sessionKey ctx.codeToEmp (c, r) p).1.subscribers
          rw [onResultP_subscribers]
          exact hsub (ctx.objId, p) (alookup_mem hh)
        · exact hsub kv h2
      refine ⟨hsub2, ?_, hlt⟩
      rw [fanOutGen_frame _ svc.sessions qid hsub2]
      exact hque
  | cancelAll =>
    refine ⟨?_, hque, hlt⟩
    intro kv hkv
    obtain ⟨kv2, hm2, he2⟩ := cancelRegistered_subscribers svc.sessions svc.heap kv hkv
    rw [he2]
    exact hsub kv2 hm2
  | sub k =>
    show NoSubG (genSubscribe svc k).1 qid
    have hne : ¬ qid = svc.nextQueue := Nat.ne_of_lt hlt
    cases hs : alookup svc.sessions k with
    | none =>
      unfold genSubscribe
      simp only [hs]
      refine ⟨hsub, ?_, Nat.lt_succ_of_lt hlt⟩
      rw [alookup_aset_ne _ _ _ _ hne]
      exact hque
    | some oid =>
      cases hh : alookup svc.heap oid with
      | none =>
        unfold genSubscribe
        simp only [hs, hh]
        refine ⟨hsub, ?_, Nat.lt_succ_of_lt hlt⟩
        rw [alookup_aset_ne _ _ _ _ hne]
        exact hque
      | some p =>
        unfold genSubscribe
        simp only [hs, hh]
        refine ⟨?_, ?_, Nat.lt_succ_of_lt hlt⟩
        · intro kv hkv
          rcases mem_aset hkv with h2 | h2
          · rw [h2]
            dsimp only
            split
            · exact hsub (oid, p) (alookup_mem hh)
            · intro hmem
              rcases List.mem_append.mp hmem with h3 | h3
              · exact hsub (oid, p) (alookup_mem hh) h3
              · exact hne (List.mem_singleton.mp h3)
          · exact hsub kv h2
        · rw [alookup_aupdate_ne _ _ _ _ hne, alookup_aset_ne _ _ _ _ hne]
          exact hque
  | unsub k qid2 =>
    show NoSubG (genUnsubscribe svc k qid2) qid
    cases hs : alookup svc.sessions k with
    | none =>
      unfold genUnsubscribe
      simp only [hs]
      exact ⟨hsub, hque, hlt⟩
    | some oid =>
      unfold genUnsubscribe
      simp only [hs]
      refine ⟨?_, hque, hlt⟩
      intro kv hkv
      obtain ⟨kv2, hm2, _, hv⟩ := mem_aupdate2 _ _ _ kv hkv
      rcases hv with hv | hv
      · rw [hv]
        exact hsub kv2 hm2
      · rw [hv]
        intro hmem
        exact hsub kv2 hm2 (mem_discardQ hmem)
  | cleanup k => exact ⟨hsub, hque, hlt⟩
  | notifyOp k ev =>
    show NoSubG (genNotifySubscribers svc k ev) qid
    cases hs : alookup svc.sessions k with
    | none =>
      unfold genNotifySubscribers
      simp only [hs]
      exact ⟨hsub, hque, hlt⟩
    | some oid =>
      cases hh : alookup svc.heap oid with
      | none =>
        unfold genNotifySubscribers
        simp only [hs, hh]
        exact ⟨hsub, hque, hlt⟩
      | some p =>
        unfold genNotifySubscribers
        simp only [hs, hh]
        refine ⟨hsub, ?_, hlt⟩
        rw [foldl_aupdate_frame _ p.subscribers svc.queues qid
          (hsub (oid, p) (alookup_mem hh))]
        exact hque

theorem genSteps_noSub : ∀ (ops : List GenOp) (svc : GenService) (qid : Nat),
    NoSubG svc qid → NoSubG (ops.foldl genStep svc) qid
  | [], _, _, h => h
  | op :: rest, svc, qid, h => by
    simp only [List.foldl_cons]
    exact genSteps_noSub rest (genStep svc op) qid (genStep_noSub svc op qid h)

/-- Every queue handle recorded in a subscriber set is below the allocation
counter. -/

theorem genSubscribe_unknown (svc : GenService) (k : String)
    (hs : alookup svc.sessions k = none) (hqwf : QueueWF svc) :
    (genSubscribe svc k).2 = svc.nextQueue ∧
    alookup (genSubscribe svc k).1.queues (genSubscribe svc k).2 = some [] ∧
    NoSubG (genSubscribe svc k).1 (genSubscribe svc k).2 := by
  unfold genSubscribe
  simp only [hs]
  refine ⟨by trivial, alookup_aset_self _ _ _, ?_, alookup_aset_self _ _ _,
    Nat.lt_succ_self _⟩
  intro kv hkv hq
  exact absurd (hqwf kv hkv svc.nextQueue hq) (Nat.lt_irrefl _)

/-! ### Send-service operation model (for C8/C10) -/

/-- Fan the notifications of one send batch run out to the subscriber queues
of that batch, as `_notify_subscribers` does per event. -/

theorem sendOneItem_subscribers (empMap : List (String × EmployeeRow)) (numIds : Nat)
    (sendDelay : Int) (oracle : Nat → NotifierOutcome) (idx : Nat) (empId : String)
    (p : SendSessionProgress) :
    (sendOneItem empMap numIds sendDelay oracle idx empId p).1.subscribers =
      p.subscribers := by
  unfold sendOneItem
  split
  · rfl
  · split
    · rfl
    · dsimp only
      split
      · rfl
      · split
        · rfl
        · split
          · split <;> rfl
          · rfl

theorem sendLoop_subscribers (empMap : List (String × EmployeeRow)) (numIds : Nat)
    (sendDelay : Int) (oracle : Nat → NotifierOutcome) :
    ∀ (items : List (Nat × String)) (p : SendSessionProgress),
      (sendLoop empMap numIds sendDelay oracle items p).1.subscribers = p.subscribers
  | [], _ => rfl
  | (idx, empId) :: rest, p => by
    simp only [sendLoop]
    rw [sendLoop_subscribers empMap numIds sendDelay oracle rest,
      sendOneItem_subscribers]

theorem sendProcessBatch_subscribers (employeeIds : List String) (sendDelay : Int)
    (rows : List EmployeeRow) (oracle : Nat → NotifierOutcome)
    (p0 : SendSessionProgress) :
    (sendProcessBatch employeeIds sendDelay rows oracle p0).1.subscribers =
      p0.subscribers := by
  unfold sendProcessBatch
  dsimp only
  rw [sendLoop_subscribers]

theorem fanOutSend_frame (sessions : List (String × SendSessionProgress))
    (batchId : String) (qid : Nat)
    (hns : ∀ kv ∈ sessions, qid ∉ kv.2.subscribers) :
    ∀ (T : List SendEffect) (queues : List (Nat × List (SendEventData × SendSnapshot))),
      alookup (fanOutSend sessions batchId queues T) qid = alookup queues qid
  | [], queues => rfl
  | SendEffect.notify ev snap :: rest, queues => by
    unfold fanOutSend
    rw [fanOutSend_frame sessions batchId qid hns rest]
    cases hk : alookup sessions batchId with
    | none => rfl
    | some pr =>
      simp only [hk]
      exact foldl_aupdate_frame _ pr.subscribers queues qid
        (hns (batchId, pr) (alookup_mem hk))
  | SendEffect.history a b c :: rest, queues => by
    unfold fanOutSend
    exact fanOutSend_frame sessions batchId qid hns rest queues
  | SendEffect.webhookCall a b c :: rest, queues => by
    unfold fanOutSend
    exact fanOutSend_frame sessions batchId qid hns rest queues
  | SendEffect.sleep s :: rest, queues => by
    unfold fanOutSend
    exact fanOutSend_frame sessions batchId qid hns rest queues

/-- Send-side analogue of `NoSubG`. -/

theorem sendStep_noSub (svc : SendService) (op : SendOp) (qid : Nat)
    (h : NoSubS svc qid) : NoSubS (sendStep svc op) qid := by
  obtain ⟨hsub, hque, hlt⟩ := h
  cases op with
  | start b ids =>
    refine ⟨?_, hque, hlt⟩
    intro kv hkv
    rcases mem_aset hkv with h2 | h2
    · rw [h2]
      simp [startSendProgress]
    · exact hsub kv h2
  | procB b ids d rows oracle =>
    show NoSubS (sendRunBatch svc b ids d rows oracle).1 qid
    cases hs : alookup svc.sessions b with
    | none =>
      unfold sendRunBatch
      simp only [hs]
      exact ⟨hsub, hque, hlt⟩
    | some p =>
      unfold sendRunBatch
      simp only [hs]
      have hsub2 : ∀ kv ∈ aset svc.sessions b
          (sendProcessBatch ids d rows oracle p).1, qid ∉ kv.2.subscribers := by
        intro kv hkv
        rcases mem_aset hkv with h2 | h2
        · rw [h2]
          show qid ∉ (sendProcessBatch ids d rows oracle p).1.subscribers
          rw [sendProcessBatch_subscribers]
          exact hsub (b, p) (alookup_mem hs)
        · exact hsub kv h2
      refine ⟨hsub2, ?_, hlt⟩
      rw [fanOutSend_frame _ b qid hsub2]
      exact hque
  | sub b =>
    show NoSubS (sendSubscribe svc b).1 qid
    have hne : ¬ qid = svc.nextQueue := Nat.ne_of_lt hlt
    cases hs : alookup svc.sessions b with
    | none =>
      unfold sendSubscribe
      simp only [hs]
      refine ⟨hsub, ?_, Nat.lt_succ_of_lt hlt⟩
      rw [alookup_aset_ne _ _ _ _ hne]
      exact hque
    | some p =>
      unfold sendSubscribe
      simp only [hs]
      refine ⟨?_, ?_, Nat.lt_succ_of_lt hlt⟩
      · intro kv hkv
        rcases mem_aset hkv with h2 | h2
        · rw [h2]
          dsimp only
          split
          · exact hsub (b, p) (alookup_mem hs)
          · intro hmem
            rcases List.mem_append.mp hmem with h3 | h3
            · exact hsub (b, p) (alookup_mem hs) h3
            · exact hne (List.mem_singleton.mp h3)
        · exact hsub kv h2
      · rw [alookup_aupdate_ne _ _ _ _ hne, alookup_aset_ne _ _ _ _ hne]
        exact hque
  | unsub b qid2 =>
    show NoSubS (sendUnsubscribe svc b qid2) qid
    cases hs : alookup svc.sessions b with
    | none =>
      unfold sendUnsubscribe
      simp only [hs]
      exact ⟨hsub, hque, hlt⟩
    | some p =>
      unfold sendUnsubscribe
      simp only [hs]
      refine ⟨?_, hque, hlt⟩
      intro kv hkv
      obtain ⟨kv2, hm2, _, hv⟩ := mem_aupdate2 _ _ _ kv hkv
      rcases hv with hv | hv
      · rw [hv]
        exact hsub kv2 hm2
      · rw [hv]
        intro hmem
        exact hsub kv2 hm2 (mem_discardQ hmem)
  | cleanup b =>
    refine ⟨?_, hque, hlt⟩
    intro kv hkv
    exact hsub kv (mem_aremove _ _ _ hkv)
  | notifyOp b ev =>
    show NoSubS (sendNotifySubscribers svc b ev) qid
    cases hs : alookup svc.sessions b with
    | none =>
      unfold sendNotifySubscribers
      simp only [hs]
      exact ⟨hsub, hque, hlt⟩
    | some p =>
      unfold sendNotifySubscribers
      simp only [hs]
      refine ⟨hsub, ?_, hlt⟩
      rw [foldl_aupdate_frame _ p.subscribers svc.queues qid
        (hsub (b, p) (alookup_mem hs))]
      exact hque

theorem sendSteps_noSub : ∀ (ops : List SendOp) (svc : SendService) (qid : Nat),
    NoSubS svc qid → NoSubS (ops.foldl sendStep svc) qid
  | [], _, _, h => h
  | op :: rest, svc, qid, h => by
    simp only [List.foldl_cons]
    exact sendSteps_noSub rest (sendStep svc op) qid (sendStep_noSub svc op qid h)

/-- Send-side analogue of `QueueWF`. -/

theorem sendSubscribe_unknown (svc : SendService) (k : String)
    (hs : alookup svc.sessions k = none) (hqwf : QueueWFS svc) :
    (sendSubscribe svc k).2 = svc.nextQueue ∧
    alookup (sendSubscribe svc k).1.queues (sendSubscribe svc k).2 = some [] ∧
    NoSubS (sendSubscribe svc k).1 (sendSubscribe svc k).2 := by
  unfold sendSubscribe
  simp only [hs]
  refine ⟨by trivial, alookup_aset_self _ _ _, ?_, alookup_aset_self _ _ _,
    Nat.lt_succ_self _⟩
  intro kv hkv hq
  exact absurd (hqwf kv hkv svc.nextQueue hq) (Nat.lt_irrefl _)

/-! ### Detecting a sleep effect in a concrete trace -/

/-- Whether a trace contains any `sleep` effect. -/

theorem not_sleep_of_hasSleep_false : ∀ (T : List SendEffect), hasSleep T = false →
    ∀ s : Int, SendEffect.sleep s ∉ T
  | [], _, _ => List.not_mem_nil _
  | x :: rest, h, s => by
    intro hmem
    rcases List.mem_cons.mp hmem with h2 | h2
    · subst h2
      simp [hasSleep] at h
    · cases x with
      | sleep s2 => simp [hasSleep] at h
      | notify a b =>
        exact not_sleep_of_hasSleep_false rest (by simpa [hasSleep] using h) s h2
      | history a b c =>
        exact not_sleep_of_hasSleep_false rest (by simpa [hasSleep] using h) s h2
      | webhookCall a b c =>
        exact not_sleep_of_hasSleep_false rest (by simpa [hasSleep] using h) s h2

/-! ## Claim theorems -/

/-- C1: for every registered batch state of either orchestrator, every emitted
progress snapshot (and the final state, and every `get_progress` snapshot)
satisfies `pending + processing/sending + completed/success + failed = total`. -/

theorem counts_invariant (batchId : String) (employeeIds : List String)
    (sendDelay : Int) (rows : List EmployeeRow) (oracle : Nat → NotifierOutcome)
    (current : Option String) (sessionKey excelFilePath : String)
    (employees : List EmpInput) (conv : ConvBehavior) (p : SessionProgress)
    (svc : GenService) (genKey : String) :
    (∀ ev snap, SendEffect.notify ev snap ∈
        (sendProcessBatch employeeIds sendDelay rows oracle
          (startSendProgress batchId employeeIds)).2 → snapCountsOk snap) ∧
    snapCountsOk (sendProcessBatch employeeIds sendDelay rows oracle
      (startSendProgress batchId employeeIds)).1 ∧
    GoodGenTrace (genProcessBatchP current sessionKey excelFilePath employees conv p).2.1 ∧
    (∀ snap, genGetProgress svc genKey = some snap → genSnapSum snap) := by
  obtain ⟨h1, h2⟩ := sendProcessBatch_counts batchId employeeIds sendDelay rows oracle
  exact ⟨h1, h2,
    genProcessBatchP_good current sessionKey excelFilePath employees conv p,
    fun snap h => genGetProgress_sum svc genKey snap h⟩

theorem counts_invariant_witness :
    snapCountsOk (sendProcessBatch ["e1"] 0 [] (fun _ => NotifierOutcome.result "success" none) (startSendProgress "b" ["e1"])).1 :=
  (counts_invariant "b" ["e1"] 0 [] (fun _ => NotifierOutcome.result "success" none)
    none "s" "f" [] ⟨[], none⟩ { session_id := "s" } emptyGenService "g").2.1

/-- C2: when batch A of the generation orchestrator is registered and
`start_generation` runs for a new batch B, A's progress object becomes
cancelled (all other fields unchanged), stays cancelled under every later
sequence of service operations, and any late converter callback that finds its
captured progress object cancelled — or its session superseded — is dropped
wholesale: the service state is unchanged and no effect (no count change, no
storage write, no event) is produced. -/

theorem generation_supersession_cancels (svc : GenService) (hwf : GenWF svc)
    (keyA keyB : String) (empsB : List EmpInput) (oid : Nat) (pA : SessionProgress)
    (hsessA : alookup svc.sessions keyA = some oid)
    (hheapA : alookup svc.heap oid = some pA) :
    alookup (startGeneration svc keyB empsB).heap oid = some { pA with cancelled := true } ∧
    (∀ ops : List GenOp, ∀ p2,
      alookup (ops.foldl genStep (startGeneration svc keyB empsB)).heap oid = some p2 →
      p2.cancelled = true) ∧
    (∀ (svc2 : GenService) (ctx : ResultCtx) (c : String) (r : BatchResult)
      (p : SessionProgress), alookup svc2.heap ctx.objId = some p →
      p.cancelled = true ∨ ¬ svc2.currentSessionKey = some ctx.sessionKey →
      onResult ctx svc2 c r = (svc2, [])) := by
  have hstart := startGeneration_cancels svc hwf keyB empsB keyA oid pA hsessA hheapA
  refine ⟨hstart, ?_, ?_⟩
  · intro ops p2 hp2
    exact genSteps_cancelled ops (startGeneration svc keyB empsB)
      (genStep_wf svc (GenOp.start keyB empsB) hwf) oid
      { pA with cancelled := true } hstart rfl p2 hp2
  · intro svc2 ctx c r p hp hdrop
    exact onResult_dropped ctx svc2 c r p hp hdrop

theorem generation_supersession_cancels_witness :
    alookup (startGeneration ⟨[(0, { session_id := "A" })], [("A", 0)], some "A", 1, [], 0⟩ "B" []).heap 0 = some { ({ session_id := "A" } : SessionProgress) with cancelled := true } :=
  (generation_supersession_cancels ⟨[(0, { session_id := "A" })], [("A", 0)], some "A", 1, [], 0⟩ (by intro kv hkv; rw [List.mem_singleton.mp hkv]; decide) "A" "B" [] 0 { session_id := "A" } rfl rfl).1

theorem generation_no_eligible_complete_witness :
    genValidCodes [⟨"e1", "", "Al"⟩] = [] ∧ (((mkSessionProgress "s" [⟨"e1", "", "Al"⟩]).cancelled = true ∨ ¬ some "s" = some "s") → (genProcessBatchP (some "s") "s" "f" [⟨"e1", "", "Al"⟩] ⟨[], none⟩ (mkSessionProgress "s" [⟨"e1", "", "Al"⟩])).2.1 = []) :=
  ⟨rfl, (generation_no_eligible_complete_amended (some "s") "s" "f" [⟨"e1", "", "Al"⟩] ⟨[], none⟩ (mkSessionProgress "s" [⟨"e1", "", "Al"⟩]) rfl).1⟩

/-- C4 (amended): the inter-item sleep happens exactly after an item that
reached the send attempt (employee fetched, phone present, image present),
when the item is not the last one and `send_delay` is positive — independent
of the webhook outcome; items failing pre-send validation (and input ids with
no fetched employee) `continue` without any sleep, and a non-positive
`send_delay` never pauses. -/

theorem send_delay_amended (empMap : List (String × EmployeeRow)) (numIds : Nat)
    (sendDelay : Int) (oracle : Nat → NotifierOutcome) (idx : Nat) (empId : String)
    (p : SendSessionProgress) (s : Int) (employeeIds : List String)
    (rows : List EmployeeRow) (p0 : SendSessionProgress) :
    (SendEffect.sleep s ∈ (sendOneItem empMap numIds sendDelay oracle idx empId p).2 ↔
      (s = sendDelay ∧ sendDelay > 0 ∧ idx < numIds - 1 ∧
        ∃ emp task, alookup empMap empId = some emp ∧ alookup p.tasks empId = some task ∧
          ¬ emp.phone = "" ∧ ¬ emp.salary_image_url = "")) ∧
    (¬ sendDelay > 0 →
      SendEffect.sleep s ∉ (sendProcessBatch employeeIds sendDelay rows oracle p0).2) :=
  ⟨sendOneItem_sleep_iff empMap numIds sendDelay oracle idx empId p s,
   fun hd => sendProcessBatch_no_sleep employeeIds sendDelay rows oracle p0 hd s⟩

theorem send_delay_amended_witness :
    SendEffect.sleep 0 ∉ (sendProcessBatch ["e1"] 0 [] (fun _ => NotifierOutcome.result "success" none) (startSendProgress "b" ["e1"])).2 :=
  (send_delay_amended [] 1 0 (fun _ => NotifierOutcome.result "success" none) 0 "e1"
    (startSendProgress "b" ["e1"]) 0 ["e1"] []
    (startSendProgress "b" ["e1"])).2 (by decide)

/-- C4 (counterexample): a 2-item send batch with `send_delay = 3 > 0` whose
first item fails pre-send validation (missing phone): the first item ends
failed with the missing-phone message and the second is sent, yet the run
trace contains no `sleep` effect at all — the claimed delay after every
non-last item regardless of outcome does not happen. -/

theorem send_delay_counterexample :
    (3 : Int) > 0 ∧
    alookup (sendProcessBatch ["e1", "e2"] 3 [⟨"e1", "Al", "", "", none⟩, ⟨"e2", "Bo", "09", "img", some 5⟩] (fun _ => NotifierOutcome.result "success" none) (startSendProgress "b" ["e1", "e2"])).1.tasks "e1" = some ⟨"e1", "Al", "", "failed", some "Không có số điện thoại"⟩ ∧
    (sendProcessBatch ["e1", "e2"] 3 [⟨"e1", "Al", "", "", none⟩, ⟨"e2", "Bo", "09", "img", some 5⟩] (fun _ => NotifierOutcome.result "success" none) (startSendProgress "b" ["e1", "e2"])).1.sent = 1 ∧
    (∀ s : Int, SendEffect.sleep s ∉ (sendProcessBatch ["e1", "e2"] 3 [⟨"e1", "Al", "", "", none⟩, ⟨"e2", "Bo", "09", "img", some 5⟩] (fun _ => NotifierOutcome.result "success" none) (startSendProgress "b" ["e1", "e2"])).2) := by
  refine ⟨by decide, by decide, by decide, ?_⟩
  exact not_sleep_of_hasSleep_false _ (by decide)

/-- C5: when the converter's batch-level call raises after some items were
resolved via callbacks (still-current, uncancelled batch with eligible items,
pairwise-distinct ids and codes): every item still in status `"processing"`
after the callbacks ends `"failed"` with the raised error text and a persisted
status write, every item no longer `"processing"` (already resolved, or failed
for a missing code) keeps its value untouched, and the final `complete` event
still fires with the final counts. -/

theorem generation_converter_raise (key path : String) (employees : List EmpInput)
    (conv : ConvBehavior) (err : String)
    (hids : (employees.map (fun e => e.id)).Nodup)
    (hcodes : (genValidCodes employees).Nodup)
    (hr : conv.raises = some err)
    (hvne : ¬ genValidCodes employees = []) :
    (∀ c ∈ genValidCodes employees, ∀ emp,
      alookup (buildCodeToEmp employees) c = some emp →
      ∀ task, alookup (genPhase3 key employees conv).tasks emp.id = some task →
        task.status = "processing" →
        alookup (genProcessBatchP (some key) key path employees conv
            (mkSessionProgress key employees)).1.tasks emp.id =
          some { task with status := "failed", error := some err } ∧
        GenEffect.dbStatus emp.id "failed" (some err) ∈
          (genProcessBatchP (some key) key path employees conv
            (mkSessionProgress key employees)).2.1) ∧
    (∀ tid task, alookup (genPhase3 key employees conv).tasks tid = some task →
      ¬ task.status = "processing" →
      alookup (genProcessBatchP (some key) key path employees conv
          (mkSessionProgress key employees)).1.tasks tid = some task) ∧
    (∃ t, (genProcessBatchP (some key) key path employees conv
        (mkSessionProgress key employees)).2.1 =
      t ++ [GenEffect.notify key
        { kind := "complete",
          total := some (genProcessBatchP (some key) key path employees conv
            (mkSessionProgress key employees)).1.total,
          completed := some (genProcessBatchP (some key) key path employees conv
            (mkSessionProgress key employees)).1.completed,
          failed := some (genProcessBatchP (some key) key path employees conv
            (mkSessionProgress key employees)).1.failed }
        (genSnapshotOf (genProcessBatchP (some key) key path employees conv
          (mkSessionProgress key employees)).1 none)]) := by
  refine ⟨?_, ?_, genRun_complete_fires key path employees conv hvne⟩
  · intro c hc emp hemp task htask hproc
    exact genRun_raise_bulkfail key path employees conv err hids hcodes hr hvne
      c hc emp hemp task htask hproc
  · intro tid task htask hs
    exact genRun_raise_keep key path employees conv err hr hvne tid task htask hs

theorem generation_converter_raise_witness :
    GenEffect.dbStatus "e2" "failed" (some "boom") ∈ (genProcessBatchP (some "s") "s" "f" [⟨"e1", "c1", "Al"⟩, ⟨"e2", "c2", "Bo"⟩] ⟨[("c1", ⟨"c1", true, some "i", some 5, none⟩)], some "boom"⟩ (mkSessionProgress "s" [⟨"e1", "c1", "Al"⟩, ⟨"e2", "c2", "Bo"⟩])).2.1 :=
  ((generation_converter_raise "s" "f" [⟨"e1", "c1", "Al"⟩, ⟨"e2", "c2", "Bo"⟩] ⟨[("c1", ⟨"c1", true, some "i", some 5, none⟩)], some "boom"⟩ "boom" (by decide) (by decide) rfl (by decide)).1 "c2" (by decide) ⟨"e2", "c2", "Bo"⟩ (by decide) ⟨"e2", "c2", "Bo", "processing", none⟩ (by decide) rfl).2

/-- C6: in a generation batch that is current and not cancelled (with
pairwise-distinct ids and codes and at least one eligible item), every item
whose employee code is empty ends `"failed"` with error "Employee code is
required", with the status persisted and a failure status event emitted
strictly before the single converter invocation; every item with a code has
its code passed to the converter and gets a persisted `"processing"` status
on the way. -/

theorem generation_missing_code_immediate (key path : String) (employees : List EmpInput)
    (conv : ConvBehavior)
    (hids : (employees.map (fun e => e.id)).Nodup)
    (hcodes : (genValidCodes employees).Nodup)
    (hvne : ¬ genValidCodes employees = []) :
    (∀ e ∈ employees, e.employee_code = "" →
      alookup (genProcessBatchP (some key) key path employees conv
          (mkSessionProgress key employees)).1.tasks e.id = some (codeFailTask e) ∧
      (∃ pre post, (genProcessBatchP (some key) key path employees conv
          (mkSessionProgress key employees)).2.1 =
          pre ++ GenEffect.convertCall path (genValidCodes employees) :: post ∧
        GenEffect.dbStatus e.id "failed" (some "Employee code is required") ∈ pre ∧
        (∃ ev snap, GenEffect.notify key ev snap ∈ pre ∧ ev.employee_id = some e.id ∧
          ev.status = some "failed" ∧ ev.error = some "Employee code is required"))) ∧
    (∀ e ∈ employees, ¬ e.employee_code = "" →
      e.employee_code ∈ genValidCodes employees ∧
      GenEffect.dbStatus e.id "processing" none ∈
        (genProcessBatchP (some key) key path employees conv
          (mkSessionProgress key employees)).2.1) := by
  constructor
  · intro e he hcode
    exact genRun_missing_code key path employees conv hids e he hcode hvne
  · intro e he hcode
    exact genRun_with_code_processing key path employees conv hids hcodes hvne e he hcode

theorem generation_missing_code_immediate_witness :
    alookup (genProcessBatchP (some "s") "s" "f" [⟨"e1", "", "Al"⟩, ⟨"e2", "c2", "Bo"⟩] ⟨[], none⟩ (mkSessionProgress "s" [⟨"e1", "", "Al"⟩, ⟨"e2", "c2", "Bo"⟩])).1.tasks "e1" = some (codeFailTask ⟨"e1", "", "Al"⟩) :=
  ((generation_missing_code_immediate "s" "f" [⟨"e1", "", "Al"⟩, ⟨"e2", "c2", "Bo"⟩] ⟨[], none⟩ (by decide) (by decide) (by decide)).1 ⟨"e1", "", "Al"⟩ (by decide) rfl).1

/-- C7: a raised exception from the notifier call for one send item is caught
per item — the task ends `"failed"` with the exception text, a send-history
row and a failure status event are produced, `failed` advances while `sent`
does not, and the loop definitionally continues with the remaining items;
moreover `send_notification` itself returns a failed `{status, message}`
response (rather than raising) once its bounded retries all end in ordinary
delivery failures. -/

theorem notifier_exception_handled (empMap : List (String × EmployeeRow)) (numIds : Nat)
    (sendDelay : Int) (oracle : Nat → NotifierOutcome) (idx : Nat) (empId : String)
    (p : SendSessionProgress) (emp : EmployeeRow) (task : SendTask) (msg : String)
    (rest : List (Nat × String)) (url : Option String) (tmo : Int) (rc : Nat)
    (attempts : Nat → AttemptOutcome)
    (hemp : alookup empMap empId = some emp) (htask : alookup p.tasks empId = some task)
    (hp : ¬ emp.phone = "") (hi : ¬ emp.salary_image_url = "")
    (hor : oracle idx = NotifierOutcome.raised msg) :
    alookup (sendOneItem empMap numIds sendDelay oracle idx empId p).1.tasks empId =
      some { task with status := "failed", error := some msg } ∧
    SendEffect.history empId "failed" (some msg) ∈
      (sendOneItem empMap numIds sendDelay oracle idx empId p).2 ∧
    (∃ ev ps, SendEffect.notify ev ps ∈
        (sendOneItem empMap numIds sendDelay oracle idx empId p).2 ∧
      ev.employee_id = some empId ∧ ev.status = some "failed" ∧ ev.error = some msg) ∧
    (sendOneItem empMap numIds sendDelay oracle idx empId p).1.failed = p.failed + 1 ∧
    (sendOneItem empMap numIds sendDelay oracle idx empId p).1.sent = p.sent ∧
    sendLoop empMap numIds sendDelay oracle ((idx, empId) :: rest) p =
      ((sendLoop empMap numIds sendDelay oracle rest
          (sendOneItem empMap numIds sendDelay oracle idx empId p).1).1,
       (sendOneItem empMap numIds sendDelay oracle idx empId p).2 ++
         (sendLoop empMap numIds sendDelay oracle rest
           (sendOneItem empMap numIds sendDelay oracle idx empId p).1).2) ∧
    (0 < rc → ¬ url.getD "" = "" → (∀ i, i < rc → ordinaryFailure (attempts i)) →
      sendNotificationW url tmo rc attempts =
        { status := "failed", message := some (attemptErrorText tmo (attempts (rc - 1))) }) := by
  obtain ⟨h1, h2, h3, h4, h5⟩ := sendOneItem_raise_handled empMap numIds sendDelay oracle
    idx empId p emp task msg hemp htask hp hi hor
  refine ⟨h1, h2, ⟨statusEvent empId emp.name "failed" (some msg) idx, _, h3, rfl, rfl, rfl⟩,
    h4, h5, sendLoop_cons_eq empMap numIds sendDelay oracle idx empId rest p, ?_⟩
  intro hrc hcfg hall
  exact sendNotificationW_all_fail url tmo rc attempts hrc hcfg hall

theorem notifier_exception_handled_witness :
    SendEffect.history "e1" "failed" (some "boom") ∈ (sendOneItem (buildEmpMap [⟨"e1", "Al", "09", "img", some 5⟩]) 1 0 (fun _ => NotifierOutcome.raised "boom") 0 "e1" ⟨"b", 1, 0, 0, 1, 0, [("e1", ⟨"e1", "Al", "09", "pending", none⟩)], [], true⟩).2 :=
  (notifier_exception_handled (buildEmpMap [⟨"e1", "Al", "09", "img", some 5⟩]) 1 0
    (fun _ => NotifierOutcome.raised "boom") 0 "e1"
    ⟨"b", 1, 0, 0, 1, 0, [("e1", ⟨"e1", "Al", "09", "pending", none⟩)], [], true⟩
    ⟨"e1", "Al", "09", "img", some 5⟩ ⟨"e1", "Al", "09", "pending", none⟩ "boom"
    [] none 30 3 (fun _ => AttemptOutcome.timedOut)
    (by decide) (by decide) (by decide) (by decide) rfl).2.1

/-- C8: for every batch key and channel, in either orchestrator, `unsubscribe`
is total (never raises, being a function) and idempotent: calling it twice
equals calling it once; calling it after the batch state was cleaned up is a
no-op on the cleaned state; and calling it for a channel that was never
subscribed (with well-formed unique keys) leaves the service state exactly as
it was. -/

theorem unsubscribe_idempotent (svcG : GenService) (svcS : SendService) (k : String)
    (qid : Nat) :
    genUnsubscribe (genUnsubscribe svcG k qid) k qid = genUnsubscribe svcG k qid ∧
    genUnsubscribe (cleanupSession svcG k) k qid = cleanupSession svcG k ∧
    ((svcG.heap.map Prod.fst).Nodup → ∀ oid p, alookup svcG.sessions k = some oid →
      alookup svcG.heap oid = some p → qid ∉ p.subscribers →
      genUnsubscribe svcG k qid = svcG) ∧
    sendUnsubscribe (sendUnsubscribe svcS k qid) k qid = sendUnsubscribe svcS k qid ∧
    sendUnsubscribe (cleanupBatch svcS k) k qid = cleanupBatch svcS k ∧
    ((svcS.sessions.map Prod.fst).Nodup → ∀ p, alookup svcS.sessions k = some p →
      qid ∉ p.subscribers → sendUnsubscribe svcS k qid = svcS) := by
  refine ⟨genUnsubscribe_idem svcG k qid, genUnsubscribe_after_cleanup svcG k qid, ?_,
    sendUnsubscribe_idem svcS k qid, sendUnsubscribe_after_cleanup svcS k qid, ?_⟩
  · intro hnd oid p hs hp hq
    exact genUnsubscribe_not_subscribed svcG k qid hnd oid p hs hp hq
  · intro hnd p hs hq
    exact sendUnsubscribe_not_subscribed svcS k qid hnd p hs hq

theorem unsubscribe_idempotent_witness :
    genUnsubscribe (genUnsubscribe emptyGenService "k" 0) "k" 0 =
      genUnsubscribe emptyGenService "k" 0 :=
  (unsubscribe_idempotent emptyGenService emptySendService "k" 0).1

theorem sendBatch_missing_employee_skipped_witness :
    (0 : Int) < (sendProcessBatch ["e1", "e2"] 0 [⟨"e1", "Al", "09", "img", some 5⟩] (fun _ => NotifierOutcome.result "success" none) (startSendProgress "b" ["e1", "e2"])).1.pending :=
  (sendBatch_missing_employee_skipped "b" "e2" ["e1", "e2"] 0
    [⟨"e1", "Al", "09", "img", some 5⟩] (fun _ => NotifierOutcome.result "success" none)
    (by decide) (by decide)).2.2.2.1

/-- C10: subscribing to a batch key with no registered state, in either
orchestrator, does not fail: it returns the fresh queue handle, whose queue is
empty (no `init` event), and — because the handle is registered with no
batch — the queue stays empty under every later sequence of service
operations. -/

theorem subscribe_unknown_key (svcG : GenService) (svcS : SendService) (kG kS : String)
    (hG : alookup svcG.sessions kG = none) (hqG : QueueWF svcG)
    (hS : alookup svcS.sessions kS = none) (hqS : QueueWFS svcS) :
    (genSubscribe svcG kG).2 = svcG.nextQueue ∧
    alookup (genSubscribe svcG kG).1.queues (genSubscribe svcG kG).2 = some [] ∧
    (∀ ops : List GenOp,
      alookup (ops.foldl genStep (genSubscribe svcG kG).1).queues
        (genSubscribe svcG kG).2 = some []) ∧
    (sendSubscribe svcS kS).2 = svcS.nextQueue ∧
    alookup (sendSubscribe svcS kS).1.queues (sendSubscribe svcS kS).2 = some [] ∧
    (∀ ops : List SendOp,
      alookup (ops.foldl sendStep (sendSubscribe svcS kS).1).queues
        (sendSubscribe svcS kS).2 = some []) := by
  obtain ⟨g1, g2, g3⟩ := genSubscribe_unknown svcG kG hG hqG
  obtain ⟨s1, s2, s3⟩ := sendSubscribe_unknown svcS kS hS hqS
  exact ⟨g1, g2, fun ops => (genSteps_noSub ops _ _ g3).2.1,
    s1, s2, fun ops => (sendSteps_noSub ops _ _ s3).2.1⟩

theorem subscribe_unknown_key_witness :
    alookup (genSubscribe emptyGenService "x").1.queues (genSubscribe emptyGenService "x").2 = some [] :=
  (subscribe_unknown_key emptyGenService emptySendService "x" "y" rfl
    (fun kv hkv => absurd hkv (List.not_mem_nil kv))
    rfl (fun kv hkv => absurd hkv (List.not_mem_nil kv))).2.1

end SendRice
